import Mathlib

/-!
# HyperSerialESP32: the Awa serial frame parser of `src/main.cpp`

A shallow embedding of the byte-driven state machine of `readSerialData`, of the
render gate `base.renderLeds`, of the strip handling (`base.initLedStrip`,
`setStripPixel`) and of the Fletcher accumulators (`frameState.addFletcher`),
followed by theorems about them.

Conventions of the embedding

* `uint8_t` / `uint16_t` fields are natural numbers; every store that can wrap is
  written with an explicit `% 256` / `% 65536`.  `int ledsNumber` is an `Int`.
* An input byte (an element of `base.buffer`, a `uint8_t`) is a `Byte = Fin 256`.
* The global structs `stats`, `base`, `frameState`, `incoming`, `inputColor` (and, for the
  `NEOPIXEL_RGBW` build, `calibrationConfig`, `channelCorrection`) are the fields of `State`.
* The calls the program makes on the strip driver are recorded as a list of `Event`s that
  every operation returns next to the new state.
* `ledStrip->CanShow()` is hardware input: it is a Boolean argument of every operation that
  may poll it.
-/

namespace HyperSerial

/-- An element of the serial read buffer (`uint8_t`). -/
abbrev Byte := Fin 256

/-- The enumeration `AwaProtocol` of `main.cpp`. -/
inductive AwaProtocol
  | HEADER_A
  | HEADER_w
  | HEADER_a
  | HEADER_HI
  | HEADER_LO
  | HEADER_CRC
  | VERSION2_GAIN
  | VERSION2_RED
  | VERSION2_GREEN
  | VERSION2_BLUE
  | RED
  | GREEN
  | BLUE
  | FLETCHER1
  | FLETCHER2
  deriving DecidableEq

/-- The global `inputColor`.  It is an `RgbColor` (channels `R`, `G`, `B`) in the 3-channel
builds and an `RgbwColor` (with `W`) under `NEOPIXEL_RGBW`; the 3-channel builds never read or
write `W`. -/
structure Color where
  R : Nat
  G : Nat
  B : Nat
  W : Nat
  deriving DecidableEq

/-- The colour value handed to the strip driver: three channels in the 3-channel builds,
four under `NEOPIXEL_RGBW`. -/
inductive PixelColor
  | rgb (r g b : Nat)
  | rgbw (r g b w : Nat)
  deriving DecidableEq

/-- The calls made on the strip and the assignment of the render request, in program order.
`initLedStrip n` is a call of `base.initLedStrip(n)`; `SetPixelColor pix c` is a call of
`ledStrip->SetPixelColor(pix, c)`; `wantShow v` is the assignment `base.wantShow = true` (a frame
passed both trailing checksums), tagged with the value `v` of `frameState.protocolVersion2` at
that moment; `Show buf` is a call of `ledStrip->Show()`, tagged with the pixel buffer the strip
holds at that moment. -/
inductive Event
  | initLedStrip (count : Int)
  | SetPixelColor (pix : Nat) (c : PixelColor)
  | wantShow (protocolVersion2 : Bool)
  | Show (buf : List PixelColor)
  deriving DecidableEq

/-- The anonymous struct `stats`. -/
structure Stats where
  start : Nat
  goodFrames : Nat
  totalFrames : Nat
  finalGoodFrames : Nat
  finalTotalFrames : Nat
  deriving DecidableEq

/-- The anonymous struct `base` (without the read buffer, which is the input of the byte loop).
`ledStrip = none` is the `NULL` pointer.
Modelled from the spec: the NeoPixelBus strip object (external library) is the list of the
colours of its pixels, `count` of them after `(re)initialize(count)`, all channels zero, and
`set_pixel(index, color)` overwrites the pixel at `index`. -/
structure Base where
  ledsNumber : Int
  ledStrip : Option (List PixelColor)
  wantShow : Bool
  deriving DecidableEq

/-- The anonymous struct `frameState`. -/
structure FrameState where
  state : AwaProtocol
  protocolVersion2 : Bool
  CRC : Nat
  count : Nat
  currentLed : Nat
  fletcher1 : Nat
  fletcher2 : Nat
  deriving DecidableEq

/-- The anonymous struct `incoming` (staged calibration bytes of a version-2 frame). -/
structure Incoming where
  gain : Nat
  red : Nat
  green : Nat
  blue : Nat
  deriving DecidableEq

/-- Modelled from the spec: the parameters `gain, red, green, blue` of `calibrationConfig`
(declared in `calibration.h`, which is not part of the sources). -/
structure CalibrationConfig where
  gain : Nat
  red : Nat
  green : Nat
  blue : Nat
  deriving DecidableEq

/-- Modelled from the spec: the four 256-entry tables of `channelCorrection` (declared in
`calibration.h`).  A table is read through `lookup`. -/
structure ChannelCorrection where
  red : Nat → Nat
  green : Nat → Nat
  blue : Nat → Nat
  white : Nat → Nat

/-- Reading entry `i` of a `uint8_t[256]` table with an 8-bit index. -/
def lookup (t : Nat → Nat) (i : Nat) : Nat := t (i % 256) % 256

/-- Build-time configuration: whether `NEOPIXEL_RGBW` is defined, and the table computation
`prepareCalibration` of `calibration.h` (not part of the sources), taken as a parameter: a
function of the four calibration parameters. -/
structure Config where
  NEOPIXEL_RGBW : Bool
  prepareCalibration : CalibrationConfig → ChannelCorrection

/-- All mutable globals of `main.cpp`. -/
structure State where
  stats : Stats
  base : Base
  frameState : FrameState
  incoming : Incoming
  inputColor : Color
  calibrationConfig : CalibrationConfig
  channelCorrection : ChannelCorrection

/-- The values of the globals at start-up (the member initialisers of the structs); the tables
are those `setup` computes with `prepareCalibration` from the start-up parameters `cal0`. -/
def State.initial (cfg : Config) (cal0 : CalibrationConfig) : State where
  stats := ⟨0, 0, 0, 0, 0⟩
  base := ⟨0, none, false⟩
  frameState := ⟨AwaProtocol.HEADER_A, false, 0, 0, 0, 0, 0⟩
  incoming := ⟨0, 0, 0, 0⟩
  inputColor := ⟨0, 0, 0, 0⟩
  calibrationConfig := cal0
  channelCorrection := cfg.prepareCalibration cal0

/-- The method `frameState.init(input)`. -/
def FrameState.init (f : FrameState) (input : Byte) : FrameState :=
  { f with
    currentLed := 0
    count := input.val * 0x100
    CRC := input.val
    fletcher1 := 0
    fletcher2 := 0 }

/-- The method `frameState.addFletcher(input)`.  The operands are promoted to `int`, so the sums
are exact before the reduction modulo 255. -/
def FrameState.addFletcher (f : FrameState) (input : Byte) : FrameState :=
  let fletcher1 := (f.fletcher1 + input.val) % 255
  { f with
    fletcher1 := fletcher1
    fletcher2 := (f.fletcher2 + fletcher1) % 255 }

/-- The assignment `frameState.state = st`. -/
def State.setState (s : State) (st : AwaProtocol) : State :=
  { s with frameState := { s.frameState with state := st } }

/-- The call `frameState.addFletcher(input)` on the global state. -/
def State.addFletcher (s : State) (input : Byte) : State :=
  { s with frameState := s.frameState.addFletcher input }

/-- The colour of a pixel of a freshly constructed strip. -/
def blackPixel (cfg : Config) : PixelColor :=
  if cfg.NEOPIXEL_RGBW then PixelColor.rgbw 0 0 0 0 else PixelColor.rgb 0 0 0

/-- The value of `inputColor` as the strip driver of this build receives it. -/
def stripColor (cfg : Config) (c : Color) : PixelColor :=
  if cfg.NEOPIXEL_RGBW then PixelColor.rgbw c.R c.G c.B c.W else PixelColor.rgb c.R c.G c.B

/-- The method `base.initLedStrip(count)`: the old strip is deleted, `ledsNumber` is set and a
new strip of `count` pixels is constructed. -/
def initLedStrip (cfg : Config) (s : State) (count : Int) : State × List Event :=
  ({ s with base := { s.base with
      ledsNumber := count
      ledStrip := some (List.replicate count.toNat (blackPixel cfg)) } },
   [Event.initLedStrip count])

/-- The method `base.renderLeds()`; `canShow` is the answer of `ledStrip->CanShow()`. -/
def renderLeds (canShow : Bool) (s : State) : State × List Event :=
  match s.base.ledStrip with
  | some buf =>
    if s.base.wantShow ∧ canShow then
      ({ s with
          stats := { s.stats with goodFrames := (s.stats.goodFrames + 1) % 65536 }
          base := { s.base with wantShow := false } },
       [Event.Show buf])
    else (s, [])
  | none => (s, [])

/-- The function `setStripPixel(pix, inputColor)` (both variants): the write is made only when
`pix < base.ledsNumber`.  A call through a `NULL` strip pointer has no buffer to change; the
call is still recorded. -/
def setStripPixel (cfg : Config) (s : State) (pix : Nat) : State × List Event :=
  if (pix : Int) < s.base.ledsNumber then
    ({ s with base := { s.base with
        ledStrip := s.base.ledStrip.map (fun buf => buf.set pix (stripColor cfg s.inputColor)) } },
     [Event.SetPixelColor pix (stripColor cfg s.inputColor)])
  else (s, [])

/-- The `NEOPIXEL_RGBW` block of case `BLUE`: the white channel is derived from the three colour
channels and the tables, in place, statement by statement. -/
def deriveWhite (t : ChannelCorrection) (c : Color) : Color :=
  let c1 := { c with W := min (lookup t.red c.R) (min (lookup t.green c.G) (lookup t.blue c.B)) }
  let c2 := { c1 with R := (c1.R + 256 - lookup t.red c1.W) % 256 }
  let c3 := { c2 with G := (c2.G + 256 - lookup t.green c2.W) % 256 }
  let c4 := { c3 with B := (c3.B + 256 - lookup t.blue c3.W) % 256 }
  { c4 with W := lookup t.white c4.W }

/-- Modelled from the spec: `calibrationConfig.setParams(gain, red, green, blue)` of
`calibration.h` stores the four parameters. -/
def setParams (gain red green blue : Nat) : CalibrationConfig := ⟨gain, red, green, blue⟩

/-- The `NEOPIXEL_RGBW` block of case `FLETCHER2`: a version-2 frame whose staged calibration
differs from the current one replaces the parameters and recomputes the tables. -/
def applyCalibration (cfg : Config) (s : State) : State :=
  if cfg.NEOPIXEL_RGBW ∧ s.frameState.protocolVersion2 then
    if s.calibrationConfig.red ≠ s.incoming.red ∨ s.calibrationConfig.green ≠ s.incoming.green ∨
        s.calibrationConfig.blue ≠ s.incoming.blue ∨ s.calibrationConfig.gain ≠ s.incoming.gain then
      let c := setParams s.incoming.gain s.incoming.red s.incoming.green s.incoming.blue
      { s with calibrationConfig := c, channelCorrection := cfg.prepareCalibration c }
    else s
  else s

/-- One iteration of the `while` loop of `readSerialData`: the `switch` on `frameState.state`
applied to the byte `input`.  `canShow` is what `ledStrip->CanShow()` answers if it is polled
while this byte is processed. -/
def processByte (cfg : Config) (canShow : Bool) (s : State) (input : Byte) : State × List Event :=
  match s.frameState.state with
  | AwaProtocol.HEADER_A =>
    let s1 := { s with frameState := { s.frameState with protocolVersion2 := false } }
    if input = 65 then (s1.setState AwaProtocol.HEADER_w, [])
    else (s1, [])
  | AwaProtocol.HEADER_w =>
    if input = 119 then (s.setState AwaProtocol.HEADER_a, [])
    else (s.setState AwaProtocol.HEADER_A, [])
  | AwaProtocol.HEADER_a =>
    if input = 97 then (s.setState AwaProtocol.HEADER_HI, [])
    else if input = 65 then
      ({ s with frameState :=
          { s.frameState with state := AwaProtocol.HEADER_HI, protocolVersion2 := true } }, [])
    else (s.setState AwaProtocol.HEADER_A, [])
  | AwaProtocol.HEADER_HI =>
    let s1 := { s with stats := { s.stats with totalFrames := (s.stats.totalFrames + 1) % 65536 } }
    let s2 := { s1 with frameState := s1.frameState.init input }
    (s2.setState AwaProtocol.HEADER_LO, [])
  | AwaProtocol.HEADER_LO =>
    let s1 := { s with frameState := { s.frameState with
      count := (s.frameState.count + input.val) % 65536
      CRC := (s.frameState.CRC ^^^ input.val ^^^ 0x55) % 256 } }
    (s1.setState AwaProtocol.HEADER_CRC, [])
  | AwaProtocol.HEADER_CRC =>
    if s.frameState.CRC = input.val then
      let r := if (s.frameState.count : Int) + 1 ≠ s.base.ledsNumber
        then initLedStrip cfg s ((s.frameState.count : Int) + 1) else (s, [])
      (r.1.setState AwaProtocol.RED, r.2)
    else (s.setState AwaProtocol.HEADER_A, [])
  | AwaProtocol.RED =>
    let s1 := { s with inputColor := { s.inputColor with R := input.val } }
    ((s1.addFletcher input).setState AwaProtocol.GREEN, [])
  | AwaProtocol.GREEN =>
    let s1 := { s with inputColor := { s.inputColor with G := input.val } }
    ((s1.addFletcher input).setState AwaProtocol.BLUE, [])
  | AwaProtocol.BLUE =>
    let s1 := { s with inputColor := { s.inputColor with B := input.val } }
    let s2 := s1.addFletcher input
    let s3 := if cfg.NEOPIXEL_RGBW
      then { s2 with inputColor := deriveWhite s2.channelCorrection s2.inputColor } else s2
    let pix := s3.frameState.currentLed
    let s4 := { s3 with frameState := { s3.frameState with currentLed := (pix + 1) % 65536 } }
    let r := setStripPixel cfg s4 pix
    let count := r.1.frameState.count
    let s5 := { r.1 with frameState := { r.1.frameState with count := (count + 65535) % 65536 } }
    if count > 0 then (s5.setState AwaProtocol.RED, r.2)
    else if s5.frameState.protocolVersion2 then (s5.setState AwaProtocol.VERSION2_GAIN, r.2)
    else (s5.setState AwaProtocol.FLETCHER1, r.2)
  | AwaProtocol.VERSION2_GAIN =>
    let s1 := { s with incoming := { s.incoming with gain := input.val } }
    ((s1.addFletcher input).setState AwaProtocol.VERSION2_RED, [])
  | AwaProtocol.VERSION2_RED =>
    let s1 := { s with incoming := { s.incoming with red := input.val } }
    ((s1.addFletcher input).setState AwaProtocol.VERSION2_GREEN, [])
  | AwaProtocol.VERSION2_GREEN =>
    let s1 := { s with incoming := { s.incoming with green := input.val } }
    ((s1.addFletcher input).setState AwaProtocol.VERSION2_BLUE, [])
  | AwaProtocol.VERSION2_BLUE =>
    let s1 := { s with incoming := { s.incoming with blue := input.val } }
    ((s1.addFletcher input).setState AwaProtocol.FLETCHER1, [])
  | AwaProtocol.FLETCHER1 =>
    if input.val ≠ s.frameState.fletcher1 then (s.setState AwaProtocol.HEADER_A, [])
    else (s.setState AwaProtocol.FLETCHER2, [])
  | AwaProtocol.FLETCHER2 =>
    if input.val = s.frameState.fletcher2 then
      let s1 := { s with base := { s.base with wantShow := true } }
      let r := renderLeds canShow s1
      ((applyCalibration cfg r.1).setState AwaProtocol.HEADER_A,
        Event.wantShow s.frameState.protocolVersion2 :: r.2)
    else (s.setState AwaProtocol.HEADER_A, [])

/-- The `while` loop of `readSerialData` over the bytes read: byte number `j` of `bytes` is
processed with the readiness answer `ready j`.  The events of all bytes are concatenated. -/
def feed (cfg : Config) (ready : Nat → Bool) (s : State) : List Byte → State × List Event
  | [] => (s, [])
  | b :: bs =>
    let r := processByte cfg (ready 0) s b
    let r2 := feed cfg (fun j => ready (j + 1)) r.1 bs
    (r2.1, r.2 ++ r2.2)

/-! ## The wire format

The frames the claims feed to the parser, written from the wire format of the specification. -/

/-- An RGB triple of the wire format. -/
abbrev Rgb := Byte × Byte × Byte

/-- The colour bytes of a list of triples, in transmission order `R G B R G B ...`. -/
def colourBytes : List Rgb → List Byte
  | [] => []
  | (r, g, b) :: ps => r :: g :: b :: colourBytes ps

/-- The sender's Fletcher update, continued from the pair `acc`: every byte updates
`sum1 := (sum1 + byte) mod 255`, then `sum2 := (sum2 + sum1) mod 255`. -/
def fletcherFrom (acc : Nat × Nat) (payload : List Byte) : Nat × Nat :=
  payload.foldl (fun a x => ((a.1 + x.val) % 255, (a.2 + (a.1 + x.val) % 255) % 255)) acc

/-- The sender's Fletcher pair over a payload: both sums start at 0. -/
def fletcher (payload : List Byte) : Nat × Nat := fletcherFrom (0, 0) payload

/-- The header checksum of the wire format, `countHigh ^ countLow ^ 0x55`. -/
def headerChecksum (countHigh countLow : Byte) : Nat := countHigh.val ^^^ countLow.val ^^^ 0x55

/-- The content of a frame: protocol version, the two count bytes, the RGB triples and the four
calibration bytes (transmitted by version 2 only). -/
structure Frame where
  version2 : Bool
  countHigh : Byte
  countLow : Byte
  pixels : List Rgb
  gain : Byte
  red : Byte
  green : Byte
  blue : Byte

/-- The number of pixels the header of the frame declares, `countHigh*256 + countLow + 1`. -/
def Frame.declared (F : Frame) : Nat := F.countHigh.val * 256 + F.countLow.val + 1

/-- A frame is well formed when it carries as many RGB triples as its header declares. -/
def Frame.WellFormed (F : Frame) : Prop := F.pixels.length = F.declared

instance (F : Frame) : Decidable F.WellFormed := by
  unfold Frame.WellFormed; exact inferInstance

/-- The third marker byte: `'A'` selects protocol version 2, `'a'` version 1. -/
def Frame.marker (F : Frame) : Byte := if F.version2 then 65 else 97

/-- The six bytes `'A' 'w' ('a'|'A') countHigh countLow checksum`. -/
def Frame.header (F : Frame) : List Byte :=
  [65, 119, F.marker, F.countHigh, F.countLow, Fin.ofNat (headerChecksum F.countHigh F.countLow)]

/-- The bytes covered by the trailing checksum: the colour bytes and, for version 2, the four
calibration bytes `gain red green blue`. -/
def Frame.payload (F : Frame) : List Byte :=
  colourBytes F.pixels ++ (if F.version2 then [F.gain, F.red, F.green, F.blue] else [])

/-- The two trailing checksum bytes. -/
def Frame.trailer (F : Frame) : List Byte :=
  [Fin.ofNat (fletcher F.payload).1, Fin.ofNat (fletcher F.payload).2]

/-- The frame on the wire. -/
def Frame.bytes (F : Frame) : List Byte := F.header ++ F.payload ++ F.trailer

/-- The colour that case `BLUE` hands to the strip for the triple `p`, with the tables `t`. -/
def pixelColor (cfg : Config) (t : ChannelCorrection) (p : Rgb) : PixelColor :=
  if cfg.NEOPIXEL_RGBW then
    stripColor cfg (deriveWhite t ⟨p.1.val, p.2.1.val, p.2.2.val, 0⟩)
  else PixelColor.rgb p.1.val p.2.1.val p.2.2.val

/-- The pixel writes `SetPixelColor i p_0, SetPixelColor (i+1) p_1, ...` for the triples
`p_0, p_1, ...`. -/
def pixelWrites (cfg : Config) (t : ChannelCorrection) : Nat → List Rgb → List Event
  | _, [] => []
  | i, p :: ps => Event.SetPixelColor i (pixelColor cfg t p) :: pixelWrites cfg t (i + 1) ps

/-- The buffer `buf` after the writes `pixelWrites cfg t i ps`. -/
def paint (cfg : Config) (t : ChannelCorrection) : Nat → List Rgb → List PixelColor → List PixelColor
  | _, [], buf => buf
  | i, p :: ps, buf => paint cfg t (i + 1) ps (buf.set i (pixelColor cfg t p))

/-- The globals that no payload byte (colour or calibration byte) touches. -/
def State.outer (s : State) :
    Stats × Int × Bool × CalibrationConfig × ChannelCorrection × Bool × Nat :=
  (s.stats, s.base.ledsNumber, s.base.wantShow, s.calibrationConfig, s.channelCorrection,
   s.frameState.protocolVersion2, s.frameState.CRC)

/-- The reallocation made when the header of `F` is accepted in state `s`: `initLedStrip` is
called exactly when the declared count differs from `ledsNumber`. -/
def initEvents (s : State) (F : Frame) : List Event :=
  if (F.declared : Int) ≠ s.base.ledsNumber then [Event.initLedStrip F.declared] else []

/-- The strip once the header of `F` has been accepted in state `s`. -/
def stripAfterHeader (cfg : Config) (s : State) (F : Frame) : Option (List PixelColor) :=
  if (F.declared : Int) ≠ s.base.ledsNumber
    then some (List.replicate F.declared (blackPixel cfg)) else s.base.ledStrip

/-- The strip once the colour bytes of `F` have been processed. -/
def stripAfterFrame (cfg : Config) (s : State) (F : Frame) : Option (List PixelColor) :=
  (stripAfterHeader cfg s F).map (paint cfg s.channelCorrection 0 F.pixels)

/-- What `renderLeds` issues when the render request is set: a `Show` of the strip when it is
allocated and reports ready, nothing otherwise. -/
def showEvents (canShow : Bool) (strip : Option (List PixelColor)) : List Event :=
  match strip with
  | some buf => if canShow then [Event.Show buf] else []
  | none => []

/-- The number of `SetPixelColor` calls in a trace. -/
def countPixelWrites : List Event → Nat
  | [] => 0
  | Event.SetPixelColor _ _ :: es => countPixelWrites es + 1
  | _ :: es => countPixelWrites es

/-- The number of frame completions (assignments `wantShow = true`) in a trace. -/
def countComplete : List Event → Nat
  | [] => 0
  | Event.wantShow _ :: es => countComplete es + 1
  | _ :: es => countComplete es

/-- The protocol states ranked by the number of header bytes accepted so far (`HEADER_A` is 0,
`HEADER_CRC` is 5); every state past the header has rank 6. -/
def headerRank : AwaProtocol → Nat
  | AwaProtocol.HEADER_A => 0
  | AwaProtocol.HEADER_w => 1
  | AwaProtocol.HEADER_a => 2
  | AwaProtocol.HEADER_HI => 3
  | AwaProtocol.HEADER_LO => 4
  | AwaProtocol.HEADER_CRC => 5
  | _ => 6

/-- The closed form of the second Fletcher sum: `n*b_1 + (n-1)*b_2 + ... + 1*b_n`. -/
def weightedSum : List Byte → Nat
  | [] => 0
  | b :: bs => (bs.length + 1) * b.val + weightedSum bs

/-- The accumulators `(fletcher1, fletcher2)` after `frameState.addFletcher` has been applied to
the bytes of `payload` in order, starting from `fletcher1 = fletcher2 = 0`. -/
def fletcherRun (payload : List Byte) : Nat × Nat :=
  ((payload.foldl FrameState.addFletcher ⟨AwaProtocol.RED, false, 0, 0, 0, 0, 0⟩).fletcher1,
   (payload.foldl FrameState.addFletcher ⟨AwaProtocol.RED, false, 0, 0, 0, 0, 0⟩).fletcher2)

/-- A step of the system: one input byte is processed, or `renderLeds` is called; each with the
answer `canShow` the hardware would give to `CanShow()`. -/
inductive Action
  | byte (input : Byte) (canShow : Bool)
  | render (canShow : Bool)

/-- The effect of one step of the system. -/
def act (cfg : Config) (s : State) : Action → State × List Event
  | Action.byte input canShow => processByte cfg canShow s input
  | Action.render canShow => renderLeds canShow s

/-- A sequence of steps of the system, with the events of all steps concatenated. -/
def run (cfg : Config) (s : State) : List Action → State × List Event
  | [] => (s, [])
  | a :: as => ((run cfg (act cfg s a).1 as).1, (act cfg s a).2 ++ (run cfg (act cfg s a).1 as).2)

/-! ## Statistics and the driver loop -/

/-- The method `stats.update(curTime)`. -/
def Stats.update (st : Stats) (curTime : Nat) : Stats :=
  let st1 :=
    if st.totalFrames > 0 ∧ st.totalFrames ≥ st.goodFrames then
      { st with finalGoodFrames := st.goodFrames, finalTotalFrames := st.totalFrames }
    else st
  { st1 with start := curTime, goodFrames := 0, totalFrames := 0 }

/-- The method `stats.print(curTime)`, as far as the globals go: the window is restarted.  What
it writes to the serial port is `Stats.printed`. -/
def Stats.print (st : Stats) (curTime : Nat) : Stats :=
  { st with start := curTime, goodFrames := 0, totalFrames := 0 }

/-- The three numbers `stats.print` writes: `finalTotalFrames`, `finalGoodFrames` and the
difference `finalTotalFrames - finalGoodFrames`, which C++ computes in `int` after promoting the
two `uint16_t` operands. -/
def Stats.printed (st : Stats) : Nat × Nat × Int :=
  (st.finalTotalFrames, st.finalGoodFrames, (st.finalTotalFrames : Int) - st.finalGoodFrames)

/-- The difference `curTime - stats.start` of two `unsigned long` (32-bit) values. -/
def elapsed (curTime start : Nat) : Nat := (curTime + 4294967296 - start) % 4294967296

/-- The statistics block at the head of `readSerialData`: `anyRead` says whether at least one
byte was read (`internalIndex > 0`). -/
def statsTick (curTime : Nat) (anyRead : Bool) (st : Stats) : Stats :=
  if anyRead ∧ elapsed curTime st.start > 1000 then st.update curTime
  else if elapsed curTime st.start > 5000 then st.print curTime
  else st

/-- The render attempt at the head of `readSerialData`, made only in protocol state
`HEADER_A`. -/
def entryRender (canShow : Bool) (s : State) : State × List Event :=
  if s.frameState.state = AwaProtocol.HEADER_A then renderLeds canShow s else (s, [])

/-- The function `readSerialData`, one iteration of the driver loop: `curTime` is the value of
`millis()`, `input` the bytes read into `base.buffer` (none when nothing is available),
`canShow` the answer of `CanShow()` to the render attempt at the head and `ready j` its answer
while byte `j` is processed. -/
def readSerialData (cfg : Config) (curTime : Nat) (canShow : Bool) (ready : Nat → Bool)
    (s : State) (input : List Byte) : State × List Event :=
  let s1 := { s with stats := statsTick curTime (decide (input.length > 0)) s.stats }
  ((feed cfg ready (entryRender canShow s1).1 input).1,
   (entryRender canShow s1).2 ++ (feed cfg ready (entryRender canShow s1).1 input).2)

/-- An operation of the program on its globals: one input byte is processed, `renderLeds` is
called, `stats.update` is called or `stats.print` is called. -/
inductive SysOp
  | byte (input : Byte) (canShow : Bool)
  | render (canShow : Bool)
  | update (curTime : Nat)
  | print (curTime : Nat)

/-- The effect of one operation. -/
def perform (cfg : Config) (s : State) : SysOp → State × List Event
  | SysOp.byte input canShow => processByte cfg canShow s input
  | SysOp.render canShow => renderLeds canShow s
  | SysOp.update curTime => ({ s with stats := s.stats.update curTime }, [])
  | SysOp.print curTime => ({ s with stats := s.stats.print curTime }, [])

/-- A sequence of operations in any interleaving, with the events concatenated. -/
def exec (cfg : Config) (s : State) : List SysOp → State × List Event
  | [] => (s, [])
  | o :: os =>
    ((exec cfg (perform cfg s o).1 os).1, (perform cfg s o).2 ++ (exec cfg (perform cfg s o).1 os).2)

/-- The states the program can be in: those reached from the start-up state by some sequence
of operations. -/
def Reachable (cfg : Config) (cal0 : CalibrationConfig) (s : State) : Prop :=
  ∃ os : List SysOp, (exec cfg (State.initial cfg cal0) os).1 = s

/-- The operations that process the bytes `bytes` in order, all with the readiness answer
`canShow`. -/
def byteOps (canShow : Bool) (bytes : List Byte) : List SysOp :=
  bytes.map (fun b => SysOp.byte b canShow)

/-- Whether a protocol state lies past the three marker bytes (a frame is in progress). -/
def inFrame : AwaProtocol → Bool
  | AwaProtocol.HEADER_A => false
  | AwaProtocol.HEADER_w => false
  | AwaProtocol.HEADER_a => false
  | _ => true

/-- Whether a protocol state is one of the three colour states. -/
def isColour : AwaProtocol → Bool
  | AwaProtocol.RED => true
  | AwaProtocol.GREEN => true
  | AwaProtocol.BLUE => true
  | _ => false

/-- The invariant of the strip handling: the counters are in `uint16_t` range, the strip is
allocated with `ledsNumber` pixels exactly when `ledsNumber` is not 0, `currentLed` is 0 while
the count is being read, and in the colour states `currentLed + count + 1 = ledsNumber`. -/
structure StripInv (s : State) : Prop where
  count_lt : s.frameState.count < 65536
  currentLed_lt : s.frameState.currentLed < 65536
  leds_range : 0 ≤ s.base.ledsNumber ∧ s.base.ledsNumber ≤ 65536
  unallocated : s.base.ledStrip = none → s.base.ledsNumber = 0
  allocated : ∀ buf, s.base.ledStrip = some buf →
    1 ≤ s.base.ledsNumber ∧ (buf.length : Int) = s.base.ledsNumber
  header : s.frameState.state = AwaProtocol.HEADER_LO ∨
    s.frameState.state = AwaProtocol.HEADER_CRC → s.frameState.currentLed = 0
  colour : isColour s.frameState.state = true →
    (s.frameState.currentLed : Int) + s.frameState.count + 1 = s.base.ledsNumber

/-! ## Sample data -/

/-- A 3-channel build (the table computation is irrelevant to it). -/
def sampleRgb : Config := ⟨false, fun _ => ⟨fun _ => 0, fun _ => 0, fun _ => 0, fun _ => 0⟩⟩

/-- A 4-channel build whose tables are the identity for the colour channels and constantly the
gain for white. -/
def sampleRgbw : Config := ⟨true, fun c => ⟨fun i => i, fun i => i, fun i => i, fun _ => c.gain⟩⟩

/-- Start-up calibration parameters for the samples. -/
def sampleCal : CalibrationConfig := ⟨255, 160, 160, 160⟩

/-- A version-1 frame of two pixels: `A w a 00 01 54 FF 00 00 01 02 03 06 0A`. -/
def sampleFrame : Frame := ⟨false, 0, 1, [(255, 0, 0), (1, 2, 3)], 0, 0, 0, 0⟩

/-- A version-2 frame of one pixel with calibration bytes `9 8 7 6`. -/
def sampleFrame2 : Frame := ⟨true, 0, 0, [(10, 20, 30)], 9, 8, 7, 6⟩

/-- A version-1 frame of one black pixel: `A w a 00 00 55 00 00 00 00 00`. -/
def blackFrame : Frame := ⟨false, 0, 0, [(0, 0, 0)], 0, 0, 0, 0⟩

/-- A 4-channel build whose tables scale the index by the calibration parameter over 255
(`red[i] = i * red / 255`, and likewise for green, blue and, with the gain, white). -/
def scaledRgbw : Config :=
  ⟨true, fun c =>
    ⟨fun i => i * c.red / 255, fun i => i * c.green / 255, fun i => i * c.blue / 255,
      fun i => i * c.gain / 255⟩⟩

/-- The version-1 frame of the 5-pixel scenario: count bytes `00 04`, five triples of which the
first is `FF 00 00`. -/
def scenarioFrame (p2 p3 p4 p5 : Rgb) : Frame :=
  ⟨false, 0, 4, [(255, 0, 0), p2, p3, p4, p5], 0, 0, 0, 0⟩

/-- A version-1 frame of one white pixel: `A w a 00 00 55 FF FF FF 00 00`. -/
def whiteFrame : Frame := ⟨false, 0, 0, [(255, 255, 255)], 0, 0, 0, 0⟩

/-- A version-1 frame of the maximum declared count, 65536 black pixels. -/
def maxFrame : Frame := ⟨false, 255, 255, List.replicate 65536 (0, 0, 0), 0, 0, 0, 0⟩

/-! ## Stepping lemmas -/

theorem feed_append (cfg : Config) (xs ys : List Byte) :
    ∀ (ready : Nat → Bool) (s : State),
      feed cfg ready s (xs ++ ys) =
        ((feed cfg (fun j => ready (j + xs.length)) (feed cfg ready s xs).1 ys).1,
         (feed cfg ready s xs).2 ++
           (feed cfg (fun j => ready (j + xs.length)) (feed cfg ready s xs).1 ys).2) := by
  induction xs with
  | nil => intro ready s; simp [feed]
  | cons x xs ih =>
    intro ready s
    have h := ih (fun j => ready (j + 1)) (processByte cfg (ready 0) s x).1
    have e : (fun j => ready (j + (xs.length + 1))) = (fun j => ready (j + xs.length + 1)) := by
      funext j; rfl
    simp only [List.cons_append, feed, List.length_cons, List.append_eq, h, e, List.append_assoc]

/-- One colour triple processed from state `RED`. -/
theorem feed_triple (cfg : Config) (ready : Nat → Bool) (s : State) (p : Rgb)
    (hs : s.frameState.state = AwaProtocol.RED)
    (hlt : (s.frameState.currentLed : Int) < s.base.ledsNumber) :
    (feed cfg ready s [p.1, p.2.1, p.2.2]).2 =
      [Event.SetPixelColor s.frameState.currentLed (pixelColor cfg s.channelCorrection p)] ∧
    (feed cfg ready s [p.1, p.2.1, p.2.2]).1.frameState.state =
      (if s.frameState.count > 0 then AwaProtocol.RED
       else if s.frameState.protocolVersion2 then AwaProtocol.VERSION2_GAIN
       else AwaProtocol.FLETCHER1) ∧
    (feed cfg ready s [p.1, p.2.1, p.2.2]).1.frameState.count =
      (s.frameState.count + 65535) % 65536 ∧
    (feed cfg ready s [p.1, p.2.1, p.2.2]).1.frameState.currentLed =
      (s.frameState.currentLed + 1) % 65536 ∧
    ((feed cfg ready s [p.1, p.2.1, p.2.2]).1.frameState.fletcher1,
      (feed cfg ready s [p.1, p.2.1, p.2.2]).1.frameState.fletcher2) =
      fletcherFrom (s.frameState.fletcher1, s.frameState.fletcher2) [p.1, p.2.1, p.2.2] ∧
    (feed cfg ready s [p.1, p.2.1, p.2.2]).1.base.ledStrip =
      s.base.ledStrip.map
        (fun buf => buf.set s.frameState.currentLed (pixelColor cfg s.channelCorrection p)) ∧
    (feed cfg ready s [p.1, p.2.1, p.2.2]).1.outer = s.outer ∧
    (feed cfg ready s [p.1, p.2.1, p.2.2]).1.incoming = s.incoming := by
  obtain ⟨r, g, b⟩ := p
  simp only [feed, processByte, hs, State.setState, State.addFletcher, FrameState.addFletcher,
    setStripPixel, fletcherFrom, State.outer]
  by_cases hw : cfg.NEOPIXEL_RGBW <;> by_cases hc : s.frameState.count > 0 <;>
    by_cases hv : s.frameState.protocolVersion2 <;>
    simp [hw, hc, hv, hlt, pixelColor, stripColor, deriveWhite] <;> omega

theorem feed_nil (cfg : Config) (ready : Nat → Bool) (s : State) :
    feed cfg ready s [] = (s, []) := rfl

theorem colourBytes_cons (p : Rgb) (ps : List Rgb) :
    colourBytes (p :: ps) = [p.1, p.2.1, p.2.2] ++ colourBytes ps := by
  obtain ⟨r, g, b⟩ := p
  rfl

theorem fletcherFrom_append (acc : Nat × Nat) (xs ys : List Byte) :
    fletcherFrom acc (xs ++ ys) = fletcherFrom (fletcherFrom acc xs) ys := by
  simp [fletcherFrom, List.foldl_append]

/-- The colour bytes of a frame processed from state `RED`. -/
theorem feed_pixels (cfg : Config) (px : List Rgb) :
    ∀ (ready : Nat → Bool) (s : State),
      s.frameState.state = AwaProtocol.RED →
      s.frameState.count + 1 = px.length →
      s.base.ledsNumber = (s.frameState.currentLed : Int) + px.length →
      s.frameState.currentLed + px.length ≤ 65536 →
      (feed cfg ready s (colourBytes px)).2 =
        pixelWrites cfg s.channelCorrection s.frameState.currentLed px ∧
      (feed cfg ready s (colourBytes px)).1.frameState.state =
        (if s.frameState.protocolVersion2 then AwaProtocol.VERSION2_GAIN
         else AwaProtocol.FLETCHER1) ∧
      ((feed cfg ready s (colourBytes px)).1.frameState.fletcher1,
        (feed cfg ready s (colourBytes px)).1.frameState.fletcher2) =
        fletcherFrom (s.frameState.fletcher1, s.frameState.fletcher2) (colourBytes px) ∧
      (feed cfg ready s (colourBytes px)).1.base.ledStrip =
        s.base.ledStrip.map (paint cfg s.channelCorrection s.frameState.currentLed px) ∧
      (feed cfg ready s (colourBytes px)).1.outer = s.outer ∧
      (feed cfg ready s (colourBytes px)).1.incoming = s.incoming := by
  induction px with
  | nil => intro ready s _ h; simp at h
  | cons p ps ih =>
    intro ready s hs hcount hleds hbound
    have hlen : (p :: ps).length = ps.length + 1 := rfl
    have hlt : (s.frameState.currentLed : Int) < s.base.ledsNumber := by
      rw [hleds, hlen]; push_cast; omega
    obtain ⟨t1, t2, t3, t4, t5, t6, t7, t8⟩ := feed_triple cfg ready s p hs hlt
    have hcc : (feed cfg ready s [p.1, p.2.1, p.2.2]).1.channelCorrection = s.channelCorrection := by
      have := t7; simp only [State.outer, Prod.mk.injEq] at this; exact this.2.2.2.2.1
    have hv2 : (feed cfg ready s [p.1, p.2.1, p.2.2]).1.frameState.protocolVersion2 =
        s.frameState.protocolVersion2 := by
      have := t7; simp only [State.outer, Prod.mk.injEq] at this; exact this.2.2.2.2.2.1
    have hln : (feed cfg ready s [p.1, p.2.1, p.2.2]).1.base.ledsNumber = s.base.ledsNumber := by
      have := t7; simp only [State.outer, Prod.mk.injEq] at this; exact this.2.1
    rw [colourBytes_cons, feed_append]
    cases ps with
    | nil =>
      have hc0 : s.frameState.count = 0 := by simpa using hcount
      simp only [colourBytes, feed_nil, List.append_nil, pixelWrites, paint, t1, t2, hc0, t7, t8,
        gt_iff_lt, lt_self_iff_false, if_false, true_and, and_true, t6]
      exact t5
    | cons q qs =>
      have hcpos : s.frameState.count > 0 := by
        simp only [List.length_cons] at hcount; omega
      have hlen2 : (p :: q :: qs).length = (q :: qs).length + 1 := rfl
      have hs1 : (feed cfg ready s [p.1, p.2.1, p.2.2]).1.frameState.state = AwaProtocol.RED := by
        rw [t2, if_pos hcpos]
      have hcount1 : (feed cfg ready s [p.1, p.2.1, p.2.2]).1.frameState.count + 1 =
          (q :: qs).length := by
        rw [t3]; rw [hlen2] at hcount hbound; omega
      have hcur1 : (feed cfg ready s [p.1, p.2.1, p.2.2]).1.frameState.currentLed =
          s.frameState.currentLed + 1 := by
        rw [t4]; rw [hlen2] at hbound
        have : 0 < (q :: qs).length := by simp
        omega
      have hleds1 : (feed cfg ready s [p.1, p.2.1, p.2.2]).1.base.ledsNumber =
          ((feed cfg ready s [p.1, p.2.1, p.2.2]).1.frameState.currentLed : Int) +
            (q :: qs).length := by
        rw [hln, hcur1, hleds, hlen2]; push_cast; omega
      have hbound1 : (feed cfg ready s [p.1, p.2.1, p.2.2]).1.frameState.currentLed +
          (q :: qs).length ≤ 65536 := by
        rw [hcur1]; rw [hlen2] at hbound; omega
      obtain ⟨u1, u2, u3, u4, u5, u6⟩ :=
        ih (fun j => ready (j + [p.1, p.2.1, p.2.2].length))
          (feed cfg ready s [p.1, p.2.1, p.2.2]).1 hs1 hcount1 hleds1 hbound1
      refine ⟨?_, ?_, ?_, ?_, ?_, ?_⟩
      · simp only [u1, t1, hcc, hcur1]; rfl
      · simp only [u2, hv2]
      · simp only [u3, t5, fletcherFrom_append]
      · simp only [u4, t6, hcc, hcur1, Option.map_map]; rfl
      · simp only [u5, t7]
      · simp only [u6, t8]

theorem step_A_hit (cfg : Config) (c : Bool) (s : State)
    (hs : s.frameState.state = AwaProtocol.HEADER_A) :
    processByte cfg c s 65 =
      ({ s with frameState := { s.frameState with
            protocolVersion2 := false, state := AwaProtocol.HEADER_w } }, []) := by
  simp [processByte, hs, State.setState]

theorem step_w_hit (cfg : Config) (c : Bool) (s : State)
    (hs : s.frameState.state = AwaProtocol.HEADER_w) :
    processByte cfg c s 119 = (s.setState AwaProtocol.HEADER_a, []) := by
  simp [processByte, hs]

theorem step_a_hit (cfg : Config) (c : Bool) (s : State) (F : Frame)
    (hs : s.frameState.state = AwaProtocol.HEADER_a) :
    processByte cfg c s F.marker =
      ({ s with frameState := { s.frameState with
            state := AwaProtocol.HEADER_HI,
            protocolVersion2 := if F.version2 then true else s.frameState.protocolVersion2 } },
       []) := by
  by_cases hv : F.version2 <;> simp [processByte, hs, Frame.marker, hv, State.setState]

theorem step_HI (cfg : Config) (c : Bool) (s : State) (b : Byte)
    (hs : s.frameState.state = AwaProtocol.HEADER_HI) :
    processByte cfg c s b =
      ({ s with
          stats := { s.stats with totalFrames := (s.stats.totalFrames + 1) % 65536 }
          frameState := { s.frameState with
            state := AwaProtocol.HEADER_LO, currentLed := 0, count := b.val * 0x100, CRC := b.val,
            fletcher1 := 0, fletcher2 := 0 } }, []) := by
  simp [processByte, hs, State.setState, FrameState.init]

theorem step_LO (cfg : Config) (c : Bool) (s : State) (b : Byte)
    (hs : s.frameState.state = AwaProtocol.HEADER_LO) :
    processByte cfg c s b =
      ({ s with frameState := { s.frameState with
            state := AwaProtocol.HEADER_CRC
            count := (s.frameState.count + b.val) % 65536
            CRC := (s.frameState.CRC ^^^ b.val ^^^ 0x55) % 256 } }, []) := by
  simp [processByte, hs, State.setState]

/-- The state in which the header checksum byte of a frame is compared. -/
theorem feed_header_five (cfg : Config) (ready : Nat → Bool) (s : State) (F : Frame)
    (hs : s.frameState.state = AwaProtocol.HEADER_A) :
    feed cfg ready s [65, 119, F.marker, F.countHigh, F.countLow] =
      ({ s with
          stats := { s.stats with totalFrames := (s.stats.totalFrames + 1) % 65536 }
          frameState :=
            { state := AwaProtocol.HEADER_CRC
              protocolVersion2 := F.version2
              CRC := (F.countHigh.val ^^^ F.countLow.val ^^^ 0x55) % 256
              count := (F.countHigh.val * 0x100 + F.countLow.val) % 65536
              currentLed := 0
              fletcher1 := 0
              fletcher2 := 0 } }, []) := by
  cases hv : F.version2 <;>
  simp [feed, step_A_hit, step_w_hit, step_a_hit, step_HI, step_LO, hs, State.setState, hv]

theorem declared_eq (F : Frame) :
    ((F.countHigh.val * 0x100 + F.countLow.val) % 65536 : Nat) + 1 = F.declared := by
  have h1 := F.countHigh.isLt
  have h2 := F.countLow.isLt
  unfold Frame.declared
  omega

theorem ofNat_val (x : Nat) (h : x < 256) : ((Fin.ofNat x : Byte) : Nat) = x :=
  Nat.mod_eq_of_lt h

theorem ofNat_val_mod (x : Nat) : ((Fin.ofNat x : Byte) : Nat) = x % 256 := rfl

theorem step_CRC (cfg : Config) (c : Bool) (s : State) (b : Byte)
    (hs : s.frameState.state = AwaProtocol.HEADER_CRC) :
    processByte cfg c s b =
      (if s.frameState.CRC = b.val then
        (if (s.frameState.count : Int) + 1 ≠ s.base.ledsNumber then
          ({ s with
              base := { s.base with
                ledsNumber := (s.frameState.count : Int) + 1
                ledStrip := some (List.replicate (s.frameState.count + 1) (blackPixel cfg)) }
              frameState := { s.frameState with state := AwaProtocol.RED } },
            [Event.initLedStrip ((s.frameState.count : Int) + 1)])
         else (s.setState AwaProtocol.RED, []))
       else (s.setState AwaProtocol.HEADER_A, [])) := by
  have e : ((s.frameState.count : Int) + 1).toNat = s.frameState.count + 1 := by omega
  by_cases h1 : s.frameState.CRC = b.val <;>
    by_cases h2 : (s.frameState.count : Int) + 1 = s.base.ledsNumber <;>
    simp [processByte, hs, h1, h2, initLedStrip, State.setState, e]

/-- The six header bytes of a frame processed from state `HEADER_A`. -/
theorem feed_header (cfg : Config) (ready : Nat → Bool) (s : State) (F : Frame)
    (hs : s.frameState.state = AwaProtocol.HEADER_A) :
    (feed cfg ready s F.header).2 =
      (if (F.declared : Int) ≠ s.base.ledsNumber then [Event.initLedStrip F.declared] else []) ∧
    (feed cfg ready s F.header).1.frameState.state = AwaProtocol.RED ∧
    (feed cfg ready s F.header).1.frameState.protocolVersion2 = F.version2 ∧
    (feed cfg ready s F.header).1.frameState.count + 1 = F.declared ∧
    (feed cfg ready s F.header).1.frameState.currentLed = 0 ∧
    (feed cfg ready s F.header).1.frameState.fletcher1 = 0 ∧
    (feed cfg ready s F.header).1.frameState.fletcher2 = 0 ∧
    (feed cfg ready s F.header).1.base.ledsNumber = F.declared ∧
    (feed cfg ready s F.header).1.base.ledStrip =
      (if (F.declared : Int) ≠ s.base.ledsNumber
        then some (List.replicate F.declared (blackPixel cfg)) else s.base.ledStrip) ∧
    (feed cfg ready s F.header).1.base.wantShow = s.base.wantShow ∧
    (feed cfg ready s F.header).1.stats =
      { s.stats with totalFrames := (s.stats.totalFrames + 1) % 65536 } ∧
    (feed cfg ready s F.header).1.incoming = s.incoming ∧
    (feed cfg ready s F.header).1.calibrationConfig = s.calibrationConfig ∧
    (feed cfg ready s F.header).1.channelCorrection = s.channelCorrection := by
  have hd := declared_eq F
  have hdi : ((((F.countHigh.val * 0x100 + F.countLow.val) % 65536 : Nat) : Int) + 1) =
      (F.declared : Int) := by exact_mod_cast hd
  have hsplit : F.header = [65, 119, F.marker, F.countHigh, F.countLow] ++
      [Fin.ofNat (headerChecksum F.countHigh F.countLow)] := rfl
  rw [hsplit, feed_append, feed_header_five cfg ready s F hs]
  simp only [feed, List.nil_append, List.append_nil]
  rw [step_CRC _ _ _ _ rfl]
  simp only [ofNat_val_mod, headerChecksum, if_true, hdi, hd]
  by_cases hl : (F.declared : Int) = s.base.ledsNumber
  · simp [hl, State.setState, hd]
  · simp [hl, hd]

theorem step_GAIN (cfg : Config) (c : Bool) (s : State) (b : Byte)
    (hs : s.frameState.state = AwaProtocol.VERSION2_GAIN) :
    processByte cfg c s b =
      ((({ s with incoming := { s.incoming with gain := b.val } } : State).addFletcher b).setState
        AwaProtocol.VERSION2_RED, []) := by
  simp [processByte, hs]

theorem step_V2RED (cfg : Config) (c : Bool) (s : State) (b : Byte)
    (hs : s.frameState.state = AwaProtocol.VERSION2_RED) :
    processByte cfg c s b =
      ((({ s with incoming := { s.incoming with red := b.val } } : State).addFletcher b).setState
        AwaProtocol.VERSION2_GREEN, []) := by
  simp [processByte, hs]

theorem step_V2GREEN (cfg : Config) (c : Bool) (s : State) (b : Byte)
    (hs : s.frameState.state = AwaProtocol.VERSION2_GREEN) :
    processByte cfg c s b =
      ((({ s with incoming := { s.incoming with green := b.val } } : State).addFletcher b).setState
        AwaProtocol.VERSION2_BLUE, []) := by
  simp [processByte, hs]

theorem step_V2BLUE (cfg : Config) (c : Bool) (s : State) (b : Byte)
    (hs : s.frameState.state = AwaProtocol.VERSION2_BLUE) :
    processByte cfg c s b =
      ((({ s with incoming := { s.incoming with blue := b.val } } : State).addFletcher b).setState
        AwaProtocol.FLETCHER1, []) := by
  simp [processByte, hs]

/-- The four calibration bytes of a version-2 frame processed from state `VERSION2_GAIN`. -/
theorem feed_calibration (cfg : Config) (ready : Nat → Bool) (s : State) (g r gr b : Byte)
    (hs : s.frameState.state = AwaProtocol.VERSION2_GAIN) :
    feed cfg ready s [g, r, gr, b] =
      ({ s with
          incoming := ⟨g.val, r.val, gr.val, b.val⟩
          frameState := { s.frameState with
            state := AwaProtocol.FLETCHER1
            fletcher1 :=
              (fletcherFrom (s.frameState.fletcher1, s.frameState.fletcher2) [g, r, gr, b]).1
            fletcher2 :=
              (fletcherFrom (s.frameState.fletcher1, s.frameState.fletcher2) [g, r, gr, b]).2 } },
       []) := by
  simp [feed, step_GAIN, step_V2RED, step_V2GREEN, step_V2BLUE, hs, State.setState,
    State.addFletcher, FrameState.addFletcher, fletcherFrom]
  omega

theorem step_F1 (cfg : Config) (c : Bool) (s : State) (b : Byte)
    (hs : s.frameState.state = AwaProtocol.FLETCHER1) :
    processByte cfg c s b =
      (if b.val ≠ s.frameState.fletcher1 then (s.setState AwaProtocol.HEADER_A, [])
       else (s.setState AwaProtocol.FLETCHER2, [])) := by
  simp only [processByte, hs]

theorem step_F2 (cfg : Config) (c : Bool) (s : State) (b : Byte)
    (hs : s.frameState.state = AwaProtocol.FLETCHER2) :
    processByte cfg c s b =
      (if b.val = s.frameState.fletcher2 then
        ((applyCalibration cfg
            (renderLeds c { s with base := { s.base with wantShow := true } }).1).setState
          AwaProtocol.HEADER_A,
         Event.wantShow s.frameState.protocolVersion2 ::
           (renderLeds c { s with base := { s.base with wantShow := true } }).2)
       else (s.setState AwaProtocol.HEADER_A, [])) := by
  simp only [processByte, hs]

theorem fletcherFrom_lt (xs : List Byte) :
    ∀ acc : Nat × Nat, acc.1 < 255 → acc.2 < 255 →
      (fletcherFrom acc xs).1 < 255 ∧ (fletcherFrom acc xs).2 < 255 := by
  induction xs with
  | nil => intro acc h1 h2; exact ⟨h1, h2⟩
  | cons x xs ih =>
    intro acc _ _
    simp only [fletcherFrom, List.foldl_cons]
    exact ih _ (Nat.mod_lt _ (by decide)) (Nat.mod_lt _ (by decide))

theorem fletcher_lt (xs : List Byte) : (fletcher xs).1 < 255 ∧ (fletcher xs).2 < 255 :=
  fletcherFrom_lt xs (0, 0) (by decide) (by decide)

theorem outer_fields {s t : State} (h : t.outer = s.outer) :
    t.stats = s.stats ∧ t.base.ledsNumber = s.base.ledsNumber ∧ t.base.wantShow = s.base.wantShow ∧
    t.calibrationConfig = s.calibrationConfig ∧ t.channelCorrection = s.channelCorrection ∧
    t.frameState.protocolVersion2 = s.frameState.protocolVersion2 ∧
    t.frameState.CRC = s.frameState.CRC := by
  simpa only [State.outer, Prod.mk.injEq] using h

theorem header_length (F : Frame) : F.header.length = 6 := rfl

/-- Header and payload of a well-formed frame processed from state `HEADER_A`. -/
theorem feed_payload (cfg : Config) (ready : Nat → Bool) (s : State) (F : Frame)
    (hs : s.frameState.state = AwaProtocol.HEADER_A) (hwf : F.WellFormed) :
    (feed cfg ready s (F.header ++ F.payload)).2 =
      initEvents s F ++ pixelWrites cfg s.channelCorrection 0 F.pixels ∧
    (feed cfg ready s (F.header ++ F.payload)).1.frameState.state = AwaProtocol.FLETCHER1 ∧
    (feed cfg ready s (F.header ++ F.payload)).1.frameState.fletcher1 = (fletcher F.payload).1 ∧
    (feed cfg ready s (F.header ++ F.payload)).1.frameState.fletcher2 = (fletcher F.payload).2 ∧
    (feed cfg ready s (F.header ++ F.payload)).1.frameState.protocolVersion2 = F.version2 ∧
    (feed cfg ready s (F.header ++ F.payload)).1.base.ledStrip = stripAfterFrame cfg s F ∧
    (feed cfg ready s (F.header ++ F.payload)).1.base.ledsNumber = F.declared ∧
    (feed cfg ready s (F.header ++ F.payload)).1.base.wantShow = s.base.wantShow ∧
    (feed cfg ready s (F.header ++ F.payload)).1.stats =
      { s.stats with totalFrames := (s.stats.totalFrames + 1) % 65536 } ∧
    (feed cfg ready s (F.header ++ F.payload)).1.incoming =
      (if F.version2 then ⟨F.gain.val, F.red.val, F.green.val, F.blue.val⟩ else s.incoming) ∧
    (feed cfg ready s (F.header ++ F.payload)).1.calibrationConfig = s.calibrationConfig ∧
    (feed cfg ready s (F.header ++ F.payload)).1.channelCorrection = s.channelCorrection := by
  obtain ⟨h1, h2, h3, h4, h5, h6, h7, h8, h9, h10, h11, h12, h13, h14⟩ :=
    feed_header cfg ready s F hs
  have hlen : F.pixels.length = F.declared := hwf
  have hleds : (feed cfg ready s F.header).1.base.ledsNumber =
      ((feed cfg ready s F.header).1.frameState.currentLed : Int) + F.pixels.length := by
    rw [h8, h5, hlen]; simp
  have hbound : (feed cfg ready s F.header).1.frameState.currentLed + F.pixels.length ≤ 65536 := by
    rw [h5, hlen]
    have a := F.countHigh.isLt
    have b := F.countLow.isLt
    unfold Frame.declared
    omega
  obtain ⟨p1, p2, p3, p4, p5, p6⟩ :=
    feed_pixels cfg F.pixels (fun j => ready (j + F.header.length)) (feed cfg ready s F.header).1
      h2 (by rw [h4, hlen]) hleds hbound
  obtain ⟨o1, o2, o3, o4, o5, o6, _⟩ := outer_fields p5
  rw [h14, h5] at p1
  rw [h6, h7] at p3
  rw [h14, h5, h9] at p4
  rw [h3] at p2
  have p3a := congrArg Prod.fst p3
  have p3b := congrArg Prod.snd p3
  simp only at p3a p3b
  cases hv : F.version2 with
  | false =>
    have hpay : F.payload = colourBytes F.pixels := by simp [Frame.payload, hv]
    rw [hpay, feed_append]
    simp only [hv, if_false, Bool.false_eq_true] at p2 ⊢
    refine ⟨by rw [p1, h1]; rfl, p2, p3a, p3b, by rw [o6, h3, hv], by rw [p4]; rfl,
      by rw [o2, h8], by rw [o3, h10], by rw [o1, h11], by rw [p6, h12], by rw [o4, h13],
      by rw [o5, h14]⟩
  | true =>
    have hpay : F.header ++ F.payload =
        (F.header ++ colourBytes F.pixels) ++ [F.gain, F.red, F.green, F.blue] := by
      simp [Frame.payload, hv]
    have hpay2 : F.payload = colourBytes F.pixels ++ [F.gain, F.red, F.green, F.blue] := by
      simp [Frame.payload, hv]
    simp only [hv, if_true] at p2
    have hst : (feed cfg ready s (F.header ++ colourBytes F.pixels)).1.frameState.state =
        AwaProtocol.VERSION2_GAIN := by
      rw [feed_append]; exact p2
    rw [hpay, feed_append, feed_calibration cfg _ _ _ _ _ _ hst]
    simp only [if_true]
    rw [feed_append]
    simp only
    rw [hpay2]
    simp only [fletcher, fletcherFrom_append]
    rw [← p3]
    refine ⟨by rw [p1, h1]; simp [initEvents], trivial, rfl, rfl, by rw [o6, h3, hv],
      by rw [p4]; rfl, by rw [o2, h8], by rw [o3, h10], by rw [o1, h11], trivial,
      by rw [o4, h13], by rw [o5, h14]⟩

theorem renderLeds_eq (c : Bool) (s : State) :
    renderLeds c s =
      (if s.base.wantShow ∧ c ∧ s.base.ledStrip.isSome then
        ({ s with
            stats := { s.stats with goodFrames := (s.stats.goodFrames + 1) % 65536 }
            base := { s.base with wantShow := false } },
         showEvents c s.base.ledStrip)
       else (s, [])) := by
  unfold renderLeds showEvents
  cases h : s.base.ledStrip <;> by_cases hw : s.base.wantShow <;> cases c <;> simp [hw]

theorem applyCalibration_stats (cfg : Config) (s : State) :
    (applyCalibration cfg s).stats = s.stats := by
  unfold applyCalibration; split_ifs <;> rfl

theorem applyCalibration_base (cfg : Config) (s : State) :
    (applyCalibration cfg s).base = s.base := by
  unfold applyCalibration; split_ifs <;> rfl

theorem applyCalibration_frameState (cfg : Config) (s : State) :
    (applyCalibration cfg s).frameState = s.frameState := by
  unfold applyCalibration; split_ifs <;> rfl

theorem applyCalibration_incoming (cfg : Config) (s : State) :
    (applyCalibration cfg s).incoming = s.incoming := by
  unfold applyCalibration; split_ifs <;> rfl

theorem feed_single (cfg : Config) (ready : Nat → Bool) (s : State) (b : Byte) :
    feed cfg ready s [b] = processByte cfg (ready 0) s b := by
  simp [feed]

theorem trailer_vals (F : Frame) :
    F.trailer = [Fin.ofNat (fletcher F.payload).1, Fin.ofNat (fletcher F.payload).2] ∧
    ((Fin.ofNat (fletcher F.payload).1 : Byte) : Nat) = (fletcher F.payload).1 ∧
    ((Fin.ofNat (fletcher F.payload).2 : Byte) : Nat) = (fletcher F.payload).2 := by
  have h := fletcher_lt F.payload
  exact ⟨rfl, ofNat_val _ (by omega), ofNat_val _ (by omega)⟩

/-- All bytes of a well-formed frame but the last one, processed from state `HEADER_A`: the
parser waits in `FLETCHER2` and no render request has been made. -/
theorem feed_before_last (cfg : Config) (ready : Nat → Bool) (s : State) (F : Frame)
    (hs : s.frameState.state = AwaProtocol.HEADER_A) (hwf : F.WellFormed) :
    feed cfg ready s (F.header ++ F.payload ++ [Fin.ofNat (fletcher F.payload).1]) =
      ((feed cfg ready s (F.header ++ F.payload)).1.setState AwaProtocol.FLETCHER2,
       initEvents s F ++ pixelWrites cfg s.channelCorrection 0 F.pixels) := by
  obtain ⟨h1, h2, h3, -⟩ := feed_payload cfg ready s F hs hwf
  obtain ⟨-, v1, -⟩ := trailer_vals F
  rw [feed_append, feed_single, step_F1 _ _ _ _ h2, h1, h3, v1]
  simp

/-- The byte that matches `fletcher2` in state `FLETCHER2`: the render request is set and the
render gate is consulted at once. -/
theorem step_F2_hit (cfg : Config) (c : Bool) (t : State) (b : Byte)
    (hs : t.frameState.state = AwaProtocol.FLETCHER2) (hb : b.val = t.frameState.fletcher2) :
    (processByte cfg c t b).2 =
      Event.wantShow t.frameState.protocolVersion2 :: showEvents c t.base.ledStrip ∧
    (processByte cfg c t b).1.frameState = { t.frameState with state := AwaProtocol.HEADER_A } ∧
    (processByte cfg c t b).1.base =
      { t.base with wantShow := !(c && t.base.ledStrip.isSome) } ∧
    (processByte cfg c t b).1.stats =
      { t.stats with
        goodFrames :=
          if c ∧ t.base.ledStrip.isSome then (t.stats.goodFrames + 1) % 65536
          else t.stats.goodFrames } ∧
    (processByte cfg c t b).1.incoming = t.incoming := by
  rw [step_F2 _ _ _ _ hs, if_pos hb]
  simp only [State.setState, applyCalibration_stats, applyCalibration_base,
    applyCalibration_frameState, applyCalibration_incoming]
  cases c <;> cases h : t.base.ledStrip <;> simp [renderLeds, showEvents, h]

/-- A well-formed frame processed from state `HEADER_A`. -/
theorem feed_frame (cfg : Config) (ready : Nat → Bool) (s : State) (F : Frame)
    (hs : s.frameState.state = AwaProtocol.HEADER_A) (hwf : F.WellFormed) :
    (feed cfg ready s F.bytes).2 =
      initEvents s F ++ pixelWrites cfg s.channelCorrection 0 F.pixels ++
        Event.wantShow F.version2 ::
          showEvents (ready (F.payload.length + 7)) (stripAfterFrame cfg s F) ∧
    (feed cfg ready s F.bytes).1.frameState.state = AwaProtocol.HEADER_A ∧
    (feed cfg ready s F.bytes).1.frameState.protocolVersion2 = F.version2 ∧
    (feed cfg ready s F.bytes).1.base.ledStrip = stripAfterFrame cfg s F ∧
    (feed cfg ready s F.bytes).1.base.ledsNumber = F.declared ∧
    (feed cfg ready s F.bytes).1.base.wantShow =
      !(ready (F.payload.length + 7) && (stripAfterFrame cfg s F).isSome) ∧
    (feed cfg ready s F.bytes).1.stats =
      { s.stats with
        totalFrames := (s.stats.totalFrames + 1) % 65536
        goodFrames :=
          if ready (F.payload.length + 7) ∧ (stripAfterFrame cfg s F).isSome
            then (s.stats.goodFrames + 1) % 65536 else s.stats.goodFrames } ∧
    (feed cfg ready s F.bytes).1.incoming =
      (if F.version2 then ⟨F.gain.val, F.red.val, F.green.val, F.blue.val⟩ else s.incoming) := by
  obtain ⟨h1, h2, h3, h4, h5, h6, h7, h8, h9, h10, h11, h12⟩ := feed_payload cfg ready s F hs hwf
  obtain ⟨-, v1, v2⟩ := trailer_vals F
  have hb : F.bytes = (F.header ++ F.payload ++ [Fin.ofNat (fletcher F.payload).1]) ++
      [Fin.ofNat (fletcher F.payload).2] := by
    simp [Frame.bytes, Frame.trailer]
  have hidx : 0 + (F.header ++ F.payload ++ [Fin.ofNat (fletcher F.payload).1]).length =
      F.payload.length + 7 := by
    simp [header_length]; omega
  have hst : ((feed cfg ready s (F.header ++ F.payload)).1.setState
      AwaProtocol.FLETCHER2).frameState.state = AwaProtocol.FLETCHER2 := rfl
  have hfl : ((Fin.ofNat (fletcher F.payload).2 : Byte) : Nat) =
      ((feed cfg ready s (F.header ++ F.payload)).1.setState
        AwaProtocol.FLETCHER2).frameState.fletcher2 := by
    rw [v2]; exact h4.symm
  obtain ⟨k1, k2, k3, k4, k5⟩ := step_F2_hit cfg (ready (F.payload.length + 7)) _ _ hst hfl
  have hstrip : ((feed cfg ready s (F.header ++ F.payload)).1.setState
      AwaProtocol.FLETCHER2).base.ledStrip = stripAfterFrame cfg s F := h6
  rw [hb, feed_append, feed_before_last cfg ready s F hs hwf, feed_single]
  simp only [hidx]
  rw [k1, k2, k3, k4, k5, hstrip]
  refine ⟨?_, rfl, h5, rfl, h7, rfl, ?_, h10⟩
  · have hv : ((feed cfg ready s (F.header ++ F.payload)).1.setState
        AwaProtocol.FLETCHER2).frameState.protocolVersion2 = F.version2 := h5
    rw [hv]
  · simp only [State.setState, h9]

theorem pixelWrites_length (cfg : Config) (t : ChannelCorrection) (px : List Rgb) :
    ∀ i, (pixelWrites cfg t i px).length = px.length := by
  induction px with
  | nil => intro i; rfl
  | cons p ps ih => intro i; simp [pixelWrites, ih]

theorem pixelWrites_getElem (cfg : Config) (t : ChannelCorrection) (px : List Rgb) :
    ∀ (i k : Nat) (p : Rgb), px[k]? = some p →
      (pixelWrites cfg t i px)[k]? = some (Event.SetPixelColor (i + k) (pixelColor cfg t p)) := by
  induction px with
  | nil => intro i k p h; simp at h
  | cons q qs ih =>
    intro i k p h
    cases k with
    | zero =>
      simp only [List.getElem?_cons_zero, Option.some.injEq] at h
      simp [pixelWrites, h]
    | succ k =>
      simp only [List.getElem?_cons_succ] at h
      have := ih (i + 1) k p h
      simp only [pixelWrites, List.getElem?_cons_succ, this]
      congr 2
      omega

theorem pixelColor_rgb (cfg : Config) (t : ChannelCorrection) (p : Rgb)
    (h : cfg.NEOPIXEL_RGBW = false) :
    pixelColor cfg t p = PixelColor.rgb p.1.val p.2.1.val p.2.2.val := by
  simp [pixelColor, h]

theorem countPixelWrites_append (xs ys : List Event) :
    countPixelWrites (xs ++ ys) = countPixelWrites xs + countPixelWrites ys := by
  induction xs with
  | nil => simp [countPixelWrites]
  | cons e es ih => cases e <;> simp [countPixelWrites, ih]; omega

theorem countComplete_append (xs ys : List Event) :
    countComplete (xs ++ ys) = countComplete xs + countComplete ys := by
  induction xs with
  | nil => simp [countComplete]
  | cons e es ih => cases e <;> simp [countComplete, ih]; omega

theorem count_pixelWrites (cfg : Config) (t : ChannelCorrection) (px : List Rgb) :
    ∀ i, countPixelWrites (pixelWrites cfg t i px) = px.length ∧
      countComplete (pixelWrites cfg t i px) = 0 := by
  induction px with
  | nil => intro i; simp [pixelWrites, countPixelWrites, countComplete]
  | cons p ps ih => intro i; simp [pixelWrites, countPixelWrites, countComplete, ih]

theorem count_initEvents (s : State) (F : Frame) :
    countPixelWrites (initEvents s F) = 0 ∧ countComplete (initEvents s F) = 0 := by
  unfold initEvents; split_ifs <;> simp [countPixelWrites, countComplete]

theorem count_showEvents (c : Bool) (strip : Option (List PixelColor)) :
    countPixelWrites (showEvents c strip) = 0 ∧ countComplete (showEvents c strip) = 0 := by
  unfold showEvents
  cases strip <;> cases c <;> simp [countPixelWrites, countComplete]

/-- The trace of a well-formed frame from `HEADER_A` holds as many pixel writes as the frame
declares and one frame completion. -/
theorem count_frame (cfg : Config) (ready : Nat → Bool) (s : State) (F : Frame)
    (hs : s.frameState.state = AwaProtocol.HEADER_A) (hwf : F.WellFormed) :
    countPixelWrites (feed cfg ready s F.bytes).2 = F.declared ∧
    countComplete (feed cfg ready s F.bytes).2 = 1 := by
  obtain ⟨h1, -⟩ := feed_frame cfg ready s F hs hwf
  have hlen : F.pixels.length = F.declared := hwf
  rw [h1]
  simp only [countPixelWrites_append, countComplete_append, countPixelWrites, countComplete,
    (count_pixelWrites cfg s.channelCorrection F.pixels 0).1,
    (count_pixelWrites cfg s.channelCorrection F.pixels 0).2,
    (count_initEvents s F).1, (count_initEvents s F).2, (count_showEvents _ _).1,
    (count_showEvents _ _).2, hlen]
  exact ⟨by omega, trivial⟩

theorem bytes_length (F : Frame) : F.bytes.length = F.payload.length + 8 := by
  simp [Frame.bytes, Frame.trailer, header_length]; omega

theorem bytes_dropLast (F : Frame) :
    F.bytes.dropLast = F.header ++ F.payload ++ [Fin.ofNat (fletcher F.payload).1] := by
  have : F.bytes = (F.header ++ F.payload ++ [Fin.ofNat (fletcher F.payload).1]) ++
      [Fin.ofNat (fletcher F.payload).2] := by
    simp [Frame.bytes, Frame.trailer]
  rw [this, List.dropLast_concat]

theorem headerChecksum_lt (hi lo : Byte) : headerChecksum hi lo < 256 := by
  have h1 : hi.val < 2 ^ 8 := hi.isLt
  have h2 : lo.val < 2 ^ 8 := lo.isLt
  have h3 : (0x55 : Nat) < 2 ^ 8 := by decide
  exact Nat.xor_lt_two_pow (Nat.xor_lt_two_pow h1 h2) h3

/-- A byte processed in a state of header rank at most 4 (before the header checksum is
compared) calls nothing on the strip, stages no calibration and advances the rank by at most
one. -/
theorem step_header_scan (cfg : Config) (c : Bool) (t : State) (b : Byte)
    (hr : headerRank t.frameState.state ≤ 4) :
    (processByte cfg c t b).2 = [] ∧
    headerRank (processByte cfg c t b).1.frameState.state ≤ headerRank t.frameState.state + 1 ∧
    (processByte cfg c t b).1.incoming = t.incoming ∧
    (processByte cfg c t b).1.calibrationConfig = t.calibrationConfig ∧
    (processByte cfg c t b).1.channelCorrection = t.channelCorrection ∧
    (processByte cfg c t b).1.base = t.base := by
  cases hst : t.frameState.state <;> rw [hst] at hr <;> simp only [headerRank] at hr <;>
    first
    | omega
    | (simp only [processByte, hst, State.setState, FrameState.init]
       split_ifs <;> simp [headerRank])
    | simp [processByte, hst, State.setState, FrameState.init, headerRank]

/-- Up to five bytes processed from `HEADER_A` (or fewer from a later header state) cannot get
past the header: nothing is called on the strip and nothing is staged. -/
theorem feed_header_scan (cfg : Config) (bytes : List Byte) :
    ∀ (ready : Nat → Bool) (t : State),
      headerRank t.frameState.state + bytes.length ≤ 5 →
      (feed cfg ready t bytes).2 = [] ∧
      (feed cfg ready t bytes).1.incoming = t.incoming ∧
      (feed cfg ready t bytes).1.calibrationConfig = t.calibrationConfig ∧
      (feed cfg ready t bytes).1.channelCorrection = t.channelCorrection ∧
      (feed cfg ready t bytes).1.base = t.base := by
  induction bytes with
  | nil => intro ready t _; simp [feed]
  | cons b bs ih =>
    intro ready t h
    simp only [List.length_cons] at h
    obtain ⟨s1, s2, s3, s4, s5, s6⟩ := step_header_scan cfg (ready 0) t b (by omega)
    obtain ⟨i1, i2, i3, i4, i5⟩ := ih (fun j => ready (j + 1)) (processByte cfg (ready 0) t b).1
      (by omega)
    simp only [feed, s1, i1, i2, i3, i4, i5, s3, s4, s5, s6, List.append_nil, and_self]

theorem feed_cons (cfg : Config) (ready : Nat → Bool) (s : State) (b : Byte) (bs : List Byte) :
    feed cfg ready s (b :: bs) =
      ((feed cfg (fun j => ready (j + 1)) (processByte cfg (ready 0) s b).1 bs).1,
       (processByte cfg (ready 0) s b).2 ++
         (feed cfg (fun j => ready (j + 1)) (processByte cfg (ready 0) s b).1 bs).2) := rfl

theorem applyCalibration_v1 (cfg : Config) (s : State)
    (h : s.frameState.protocolVersion2 = false) : applyCalibration cfg s = s := by
  simp [applyCalibration, h]

theorem renderLeds_frame (c : Bool) (s : State) :
    (renderLeds c s).1.frameState = s.frameState ∧ (renderLeds c s).1.incoming = s.incoming ∧
    (renderLeds c s).1.calibrationConfig = s.calibrationConfig ∧
    (renderLeds c s).1.channelCorrection = s.channelCorrection ∧
    (renderLeds c s).1.base.ledStrip = s.base.ledStrip ∧
    (renderLeds c s).1.base.ledsNumber = s.base.ledsNumber := by
  rw [renderLeds_eq]; split_ifs <;> simp

theorem showEvents_mem (c : Bool) (strip : Option (List PixelColor)) (e : Event)
    (h : e ∈ showEvents c strip) : ∃ buf, e = Event.Show buf ∧ strip = some buf ∧ c = true := by
  unfold showEvents at h
  cases strip with
  | none => simp at h
  | some buf =>
    cases c with
    | false => simp at h
    | true => simp at h; exact ⟨buf, h, rfl, rfl⟩

/-- The bytes that follow the colour bytes of a version-1 frame, up to six of them: whatever they
are, no version-2 completion happens and no calibration is staged or applied. -/
theorem feed_v1_tail (cfg : Config) (ready : Nat → Bool) (t : State) (b1 b2 : Byte)
    (rest : List Byte) (hs : t.frameState.state = AwaProtocol.FLETCHER1)
    (hv : t.frameState.protocolVersion2 = false) (hlen : rest.length ≤ 4) :
    (∀ e ∈ (feed cfg ready t (b1 :: b2 :: rest)).2, e ≠ Event.wantShow true) ∧
    (feed cfg ready t (b1 :: b2 :: rest)).1.incoming = t.incoming ∧
    (feed cfg ready t (b1 :: b2 :: rest)).1.calibrationConfig = t.calibrationConfig ∧
    (feed cfg ready t (b1 :: b2 :: rest)).1.channelCorrection = t.channelCorrection := by
  rw [feed_cons, step_F1 _ _ _ _ hs]
  by_cases h1 : b1.val = t.frameState.fletcher1
  · simp only [ne_eq, h1, not_true_eq_false, if_false, List.nil_append]
    rw [feed_cons]
    by_cases h2 : b2.val = (t.setState AwaProtocol.FLETCHER2).frameState.fletcher2
    · obtain ⟨k1, k2, k3, k4, k5⟩ := step_F2_hit cfg (ready (0 + 1)) _ b2 rfl h2
      have hst : (processByte cfg (ready (0 + 1)) (t.setState AwaProtocol.FLETCHER2)
          b2).1.frameState.state = AwaProtocol.HEADER_A := by rw [k2]
      obtain ⟨i1, i2, i3, i4, -⟩ := feed_header_scan cfg rest (fun j => ready (j + 1 + 1))
        (processByte cfg (ready (0 + 1)) (t.setState AwaProtocol.FLETCHER2) b2).1
        (by rw [hst]; simp only [headerRank]; omega)
      have hcal : (processByte cfg (ready (0 + 1)) (t.setState AwaProtocol.FLETCHER2) b2).1 =
          ((renderLeds (ready (0 + 1))
            { t.setState AwaProtocol.FLETCHER2 with
              base := { (t.setState AwaProtocol.FLETCHER2).base with wantShow := true } }).1
            ).setState AwaProtocol.HEADER_A := by
        rw [step_F2 _ _ _ _ rfl, if_pos h2, applyCalibration_v1]
        rw [(renderLeds_frame _ _).1]
        exact hv
      obtain ⟨r1, r2, r3, r4, -⟩ := renderLeds_frame (ready (0 + 1))
        { t.setState AwaProtocol.FLETCHER2 with
          base := { (t.setState AwaProtocol.FLETCHER2).base with wantShow := true } }
      refine ⟨?_, ?_, ?_, ?_⟩
      · intro e he
        simp only [k1, i1, List.append_nil, List.mem_cons] at he
        rcases he with he | he
        · rw [he]
          have : (t.setState AwaProtocol.FLETCHER2).frameState.protocolVersion2 = false := hv
          rw [this]; simp
        · obtain ⟨buf, hb, -⟩ := showEvents_mem _ _ e he
          rw [hb]; simp
      · rw [i2, k5]; rfl
      · rw [i3, hcal]; exact r3
      · rw [i4, hcal]; exact r4
    · rw [step_F2 _ _ _ _ rfl, if_neg h2]
      obtain ⟨i1, i2, i3, i4, -⟩ := feed_header_scan cfg rest (fun j => ready (j + 1 + 1))
        ((t.setState AwaProtocol.FLETCHER2).setState AwaProtocol.HEADER_A)
        (by simp only [State.setState, headerRank]; omega)
      simp only [i1, i2, i3, i4, List.append_nil, List.not_mem_nil, false_implies, implies_true,
        true_and]
      simp [State.setState]
  · simp only [ne_eq, h1, not_false_eq_true, if_true, List.nil_append]
    obtain ⟨i1, i2, i3, i4, -⟩ := feed_header_scan cfg (b2 :: rest) (fun j => ready (j + 1))
      (t.setState AwaProtocol.HEADER_A)
      (by simp only [State.setState, headerRank, List.length_cons]; omega)
    simp only [i1, i2, i3, i4, List.not_mem_nil, false_implies, implies_true, true_and]
    simp [State.setState]

theorem not_mem_of_countComplete_zero (es : List Event) :
    countComplete es = 0 → ∀ v, Event.wantShow v ∉ es := by
  induction es with
  | nil => intro _ v; simp
  | cons e es ih =>
    intro h v
    cases e <;> simp [countComplete] at h ⊢ <;> exact ih h v

theorem foldl_addFletcher (bs : List Byte) :
    ∀ f : FrameState,
      ((bs.foldl FrameState.addFletcher f).fletcher1,
        (bs.foldl FrameState.addFletcher f).fletcher2) =
      fletcherFrom (f.fletcher1, f.fletcher2) bs := by
  induction bs with
  | nil => intro f; rfl
  | cons b bs ih =>
    intro f
    simp only [List.foldl_cons, ih, fletcherFrom, FrameState.addFletcher]

theorem fletcherRun_eq (bs : List Byte) : fletcherRun bs = fletcher bs := by
  unfold fletcherRun fletcher
  exact foldl_addFletcher bs _

/-- The closed form of the running Fletcher sums, modulo 255. -/
theorem fletcherFrom_closed (bs : List Byte) :
    ∀ a1 a2 : Nat,
      (fletcherFrom (a1, a2) bs).1 % 255 = (a1 + (bs.map Fin.val).sum) % 255 ∧
      (fletcherFrom (a1, a2) bs).2 % 255 = (a2 + bs.length * a1 + weightedSum bs) % 255 := by
  induction bs with
  | nil => intro a1 a2; simp [fletcherFrom, weightedSum]
  | cons b bs ih =>
    intro a1 a2
    obtain ⟨h1, h2⟩ := ih ((a1 + b.val) % 255) ((a2 + (a1 + b.val) % 255) % 255)
    have e : fletcherFrom (a1, a2) (b :: bs) =
        fletcherFrom ((a1 + b.val) % 255, (a2 + (a1 + b.val) % 255) % 255) bs := rfl
    rw [e, h1, h2]
    constructor
    · simp only [List.map_cons, List.sum_cons]; omega
    · simp only [List.length_cons, weightedSum]
      rw [← ZMod.natCast_eq_natCast_iff']
      simp only [Nat.cast_add, Nat.cast_mul, ZMod.natCast_mod, Nat.cast_one]
      ring

theorem fletcher_closed (bs : List Byte) :
    (fletcher bs).1 = (bs.map Fin.val).sum % 255 ∧ (fletcher bs).2 = weightedSum bs % 255 := by
  obtain ⟨h1, h2⟩ := fletcherFrom_closed bs 0 0
  obtain ⟨l1, l2⟩ := fletcher_lt bs
  unfold fletcher at l1 l2 ⊢
  rw [Nat.mod_eq_of_lt l1] at h1
  rw [Nat.mod_eq_of_lt l2] at h2
  simp only [Nat.zero_add, Nat.mul_zero] at h1 h2
  exact ⟨h1, h2⟩

theorem weightedSum_insert (pre post : List Byte) :
    ∃ K, ∀ x : Byte, weightedSum (pre ++ x :: post) = K + (post.length + 1) * x.val := by
  induction pre with
  | nil => exact ⟨weightedSum post, fun x => by simp [weightedSum]; omega⟩
  | cons p pre ih =>
    obtain ⟨K, hK⟩ := ih
    refine ⟨(pre.length + post.length + 2) * p.val + K, fun x => ?_⟩
    have e : weightedSum (p :: (pre ++ x :: post)) =
        ((pre ++ x :: post).length + 1) * p.val + weightedSum (pre ++ x :: post) := rfl
    rw [List.cons_append, e, hK, List.length_append, List.length_cons]
    ring

theorem sum_insert (pre post : List Byte) (x : Byte) :
    ((pre ++ x :: post).map Fin.val).sum =
      (pre.map Fin.val).sum + (post.map Fin.val).sum + x.val := by
  simp only [List.map_append, List.map_cons, List.sum_append, List.sum_cons]; omega

/-- Two payloads that differ in one byte have the same Fletcher pair exactly when the two byte
values are congruent modulo 255. -/
theorem fletcher_mutation (pre post : List Byte) (b v : Byte) :
    fletcher (pre ++ v :: post) = fletcher (pre ++ b :: post) ↔ v.val % 255 = b.val % 255 := by
  obtain ⟨K, hK⟩ := weightedSum_insert pre post
  obtain ⟨a1, a2⟩ := fletcher_closed (pre ++ v :: post)
  obtain ⟨b1, b2⟩ := fletcher_closed (pre ++ b :: post)
  rw [Prod.ext_iff, a1, a2, b1, b2, hK v, hK b, sum_insert, sum_insert]
  constructor
  · rintro ⟨h, -⟩; omega
  · intro h
    constructor
    · omega
    · have hm : ((post.length + 1) * v.val) % 255 = ((post.length + 1) * b.val) % 255 :=
        Nat.ModEq.mul_left _ h
      omega

/-- The two trailing bytes `o1 o2` of a sender processed from state `FLETCHER1`: the frame is
completed exactly when both equal the accumulators of the receiver. -/
theorem trailer_check (cfg : Config) (ready : Nat → Bool) (t : State) (o1 o2 : Nat)
    (h1 : o1 < 255) (h2 : o2 < 255) (hs : t.frameState.state = AwaProtocol.FLETCHER1) :
    countComplete (feed cfg ready t [Fin.ofNat o1, Fin.ofNat o2]).2 =
      if t.frameState.fletcher1 = o1 ∧ t.frameState.fletcher2 = o2 then 1 else 0 := by
  have v1 : ((Fin.ofNat o1 : Byte) : Nat) = o1 := ofNat_val _ (by omega)
  have v2 : ((Fin.ofNat o2 : Byte) : Nat) = o2 := ofNat_val _ (by omega)
  rw [feed_cons, feed_single, step_F1 _ _ _ _ hs, v1]
  by_cases e1 : o1 = t.frameState.fletcher1
  · simp only [ne_eq, e1, not_true_eq_false, if_false, List.nil_append, true_and]
    by_cases e2 : o2 = t.frameState.fletcher2
    · obtain ⟨k1, -⟩ := step_F2_hit cfg (ready (0 + 1)) (t.setState AwaProtocol.FLETCHER2)
        (Fin.ofNat o2) rfl (by rw [v2, e2]; rfl)
      rw [k1, if_pos e2.symm]
      simp [countComplete, (count_showEvents _ _).2]
    · rw [step_F2 _ _ _ _ rfl, v2, if_neg (by exact e2), if_neg (fun h => e2 h.symm)]
      rfl
  · obtain ⟨s1, -⟩ := step_header_scan cfg (ready (0 + 1)) (t.setState AwaProtocol.HEADER_A)
      (Fin.ofNat o2) (by simp [State.setState, headerRank])
    rw [if_pos (by exact e1), if_neg (fun h => e1 h.1.symm)]
    simp only [s1, List.append_nil]
    rfl

theorem paint_length (cfg : Config) (t : ChannelCorrection) (px : List Rgb) :
    ∀ (i : Nat) (buf : List PixelColor), (paint cfg t i px buf).length = buf.length := by
  induction px with
  | nil => intro i buf; rfl
  | cons p ps ih => intro i buf; simp [paint, ih]

/-- Painting as many pixels as the buffer has room for from position `i` on replaces the whole
tail of the buffer. -/
theorem paint_full (cfg : Config) (t : ChannelCorrection) (px : List Rgb) :
    ∀ (i : Nat) (buf : List PixelColor), buf.length = i + px.length →
      paint cfg t i px buf = buf.take i ++ px.map (pixelColor cfg t) := by
  induction px with
  | nil =>
    intro i buf h
    simp only [paint, List.map_nil, List.append_nil]
    rw [List.take_of_length_le (by simp at h; omega)]
  | cons p ps ih =>
    intro i buf h
    simp only [List.length_cons] at h
    have hlt : i < buf.length := by omega
    rw [paint, ih (i + 1) _ (by rw [List.length_set]; omega)]
    have e : (buf.set i (pixelColor cfg t p)).take (i + 1) =
        buf.take i ++ [pixelColor cfg t p] := by
      rw [List.set_eq_take_append_cons_drop, if_pos hlt, List.take_append_eq_append_take]
      have hl : (List.take i buf).length = i := by rw [List.length_take]; omega
      rw [hl, List.take_of_length_le (by rw [hl]; omega)]
      simp
    rw [e]
    simp

/-- After a well-formed frame the strip is allocated and holds as many pixels as the frame
declared, when the strip held `ledsNumber` pixels (or was not allocated at `ledsNumber = 0`)
before. -/
theorem stripAfterFrame_full (cfg : Config) (s : State) (F : Frame) (hwf : F.WellFormed)
    (hcoh : ∀ buf, s.base.ledStrip = some buf → (buf.length : Int) = s.base.ledsNumber)
    (hnone : s.base.ledStrip = none → s.base.ledsNumber = 0) :
    stripAfterFrame cfg s F = some (F.pixels.map (pixelColor cfg s.channelCorrection)) := by
  have hlen : F.pixels.length = F.declared := hwf
  have hpos : 0 < F.declared := by unfold Frame.declared; omega
  unfold stripAfterFrame stripAfterHeader
  by_cases hl : (F.declared : Int) = s.base.ledsNumber
  · rw [if_neg (not_not.mpr hl)]
    cases hb : s.base.ledStrip with
    | none => have := hnone hb; omega
    | some buf =>
      have hbl := hcoh buf hb
      simp only [Option.map_some']
      rw [paint_full cfg _ _ 0 buf (by omega)]
      simp
  · rw [if_pos hl]
    simp only [Option.map_some']
    rw [paint_full cfg _ _ 0 _ (by rw [List.length_replicate]; omega)]
    simp

theorem showEvents_false (strip : Option (List PixelColor)) : showEvents false strip = [] := by
  cases strip <;> rfl

/-- A byte that does not complete a frame (any state but `FLETCHER2`, or a byte different from
`fletcher2`) leaves `wantShow` alone, issues no `Show` and does not assign the render request. -/
theorem step_not_complete (cfg : Config) (c : Bool) (s : State) (b : Byte)
    (h : s.frameState.state ≠ AwaProtocol.FLETCHER2 ∨ b.val ≠ s.frameState.fletcher2) :
    (processByte cfg c s b).1.base.wantShow = s.base.wantShow ∧
    (∀ e ∈ (processByte cfg c s b).2, (∀ buf, e ≠ Event.Show buf) ∧ ∀ v, e ≠ Event.wantShow v) := by
  cases hst : s.frameState.state
  case FLETCHER2 =>
    have hb : b.val ≠ s.frameState.fletcher2 := by
      rcases h with h | h
      · exact absurd hst h
      · exact h
    rw [step_F2 _ _ _ _ hst, if_neg hb]
    simp [State.setState]
  case BLUE =>
    simp only [processByte, hst, State.setState, State.addFletcher, setStripPixel]
    split_ifs <;> simp
  case HEADER_CRC =>
    rw [step_CRC _ _ _ _ hst]
    split_ifs <;> simp [State.setState]
  all_goals
    simp only [processByte, hst, State.setState, State.addFletcher, FrameState.init]
    first
      | (split_ifs <;> simp)
      | simp

/-- The state from which a byte leads into a given header state, `RED` or `FLETCHER2`. -/
theorem step_predecessor (cfg : Config) (c : Bool) (s : State) (b : Byte) :
    ((processByte cfg c s b).1.frameState.state = AwaProtocol.HEADER_w →
      s.frameState.state = AwaProtocol.HEADER_A ∧ b = 65) ∧
    ((processByte cfg c s b).1.frameState.state = AwaProtocol.HEADER_a →
      s.frameState.state = AwaProtocol.HEADER_w ∧ b = 119) ∧
    ((processByte cfg c s b).1.frameState.state = AwaProtocol.HEADER_HI →
      s.frameState.state = AwaProtocol.HEADER_a ∧ (b = 97 ∨ b = 65)) ∧
    ((processByte cfg c s b).1.frameState.state = AwaProtocol.HEADER_LO →
      s.frameState.state = AwaProtocol.HEADER_HI) ∧
    ((processByte cfg c s b).1.frameState.state = AwaProtocol.HEADER_CRC →
      s.frameState.state = AwaProtocol.HEADER_LO) ∧
    ((processByte cfg c s b).1.frameState.state = AwaProtocol.RED →
      (s.frameState.state = AwaProtocol.HEADER_CRC ∧ s.frameState.CRC = b.val) ∨
        s.frameState.state = AwaProtocol.BLUE) ∧
    ((processByte cfg c s b).1.frameState.state = AwaProtocol.FLETCHER2 →
      s.frameState.state = AwaProtocol.FLETCHER1 ∧ b.val = s.frameState.fletcher1) := by
  cases hst : s.frameState.state
  case FLETCHER2 =>
    rw [step_F2 _ _ _ _ hst]
    split_ifs <;> simp [State.setState]
  case BLUE =>
    simp only [processByte, hst, State.setState, State.addFletcher, setStripPixel]
    split_ifs <;> simp
  case HEADER_CRC =>
    rw [step_CRC _ _ _ _ hst]
    split_ifs <;> simp_all [State.setState]
  all_goals
    simp only [processByte, hst, State.setState, State.addFletcher, FrameState.init]
    first
      | (split_ifs <;> simp_all)
      | simp

/-- A step taken with the render request clear either assigns it (its events then start with the
`wantShow` event) or leaves it clear and issues no `Show`. -/
theorem act_from_clear (cfg : Config) (s : State) (a : Action) (hw : s.base.wantShow = false) :
    (∃ v tail, (act cfg s a).2 = Event.wantShow v :: tail) ∨
    ((act cfg s a).1.base.wantShow = false ∧ ∀ buf, Event.Show buf ∉ (act cfg s a).2) := by
  cases a with
  | render c =>
    right
    simp only [act]
    rw [renderLeds_eq]
    simp [hw]
  | byte b c =>
    simp only [act]
    by_cases h : s.frameState.state = AwaProtocol.FLETCHER2 ∧ b.val = s.frameState.fletcher2
    · left
      obtain ⟨k1, -⟩ := step_F2_hit cfg c s b h.1 h.2
      exact ⟨_, _, k1⟩
    · right
      obtain ⟨n1, n2⟩ := step_not_complete cfg c s b (by
        by_cases h1 : s.frameState.state = AwaProtocol.FLETCHER2
        · exact Or.inr (fun h2 => h ⟨h1, h2⟩)
        · exact Or.inl h1)
      exact ⟨by rw [n1, hw], fun buf hmem => (n2 _ hmem).1 buf rfl⟩

/-- In a run that starts with the render request clear, every `Show` comes after a frame
completion. -/
theorem run_show_after_complete (cfg : Config) (acts : List Action) :
    ∀ s : State, s.base.wantShow = false →
      ∀ (pre : List Event) (buf : List PixelColor) (post : List Event),
        (run cfg s acts).2 = pre ++ Event.Show buf :: post → ∃ v, Event.wantShow v ∈ pre := by
  induction acts with
  | nil =>
    intro s _ pre buf post h
    simp [run] at h
  | cons a as ih =>
    intro s hw pre buf post h
    simp only [run] at h
    rcases act_from_clear cfg s a hw with ⟨v, tail, he⟩ | ⟨hw1, hno⟩
    · rw [he] at h
      cases pre with
      | nil => simp at h
      | cons p pre1 =>
        simp only [List.cons_append, List.cons.injEq] at h
        exact ⟨v, by rw [← h.1]; exact List.mem_cons_self _ _⟩
    · rcases List.append_eq_append_iff.mp h with ⟨a1, ha, hb⟩ | ⟨c1, ha, hb⟩
      · obtain ⟨v, hv⟩ := ih _ hw1 a1 buf post hb
        exact ⟨v, by rw [ha]; exact List.mem_append_right _ hv⟩
      · cases c1 with
        | nil =>
          simp only [List.nil_append] at hb
          obtain ⟨v, hv⟩ := ih _ hw1 [] buf post hb.symm
          simp at hv
        | cons x c2 =>
          simp only [List.cons_append, List.cons.injEq] at hb
          exact absurd (by rw [ha, ← hb.1]; simp) (hno buf)

theorem not_init_mem_pixelWrites (cfg : Config) (t : ChannelCorrection) (px : List Rgb) (n : Int) :
    ∀ i, Event.initLedStrip n ∉ pixelWrites cfg t i px := by
  induction px with
  | nil => intro i; simp [pixelWrites]
  | cons p ps ih => intro i; simp [pixelWrites, ih]

theorem not_init_mem_showEvents (c : Bool) (strip : Option (List PixelColor)) (n : Int) :
    Event.initLedStrip n ∉ showEvents c strip := by
  intro h
  obtain ⟨buf, hb, -⟩ := showEvents_mem _ _ _ h
  cases hb

theorem scenarioFrame_wf (p2 p3 p4 p5 : Rgb) : (scenarioFrame p2 p3 p4 p5).WellFormed := by
  unfold Frame.WellFormed Frame.declared scenarioFrame
  simp only [List.length_cons, List.length_nil]
  decide

theorem initial_coherent (cfg : Config) (cal0 : CalibrationConfig) :
    (∀ buf, (State.initial cfg cal0).base.ledStrip = some buf →
      (buf.length : Int) = (State.initial cfg cal0).base.ledsNumber) ∧
    ((State.initial cfg cal0).base.ledStrip = none →
      (State.initial cfg cal0).base.ledsNumber = 0) := by
  constructor
  · intro buf hb; simp [State.initial] at hb
  · intro _; rfl

/-- No byte touches the window start or the rolled-over pair of the statistics. -/
theorem processByte_stats (cfg : Config) (c : Bool) (s : State) (b : Byte) :
    (processByte cfg c s b).1.stats.start = s.stats.start ∧
    (processByte cfg c s b).1.stats.finalGoodFrames = s.stats.finalGoodFrames ∧
    (processByte cfg c s b).1.stats.finalTotalFrames = s.stats.finalTotalFrames := by
  cases hst : s.frameState.state
  case FLETCHER2 =>
    rw [step_F2 _ _ _ _ hst]
    split_ifs
    · simp only [State.setState, applyCalibration_stats]
      rw [renderLeds_eq]
      split_ifs <;> simp
    · simp [State.setState]
  case BLUE =>
    simp only [processByte, hst, State.setState, State.addFletcher, setStripPixel]
    split_ifs <;> simp
  case HEADER_CRC =>
    rw [step_CRC _ _ _ _ hst]
    split_ifs <;> simp [State.setState]
  all_goals
    simp only [processByte, hst, State.setState, State.addFletcher, FrameState.init]
    first
      | (split_ifs <;> simp)
      | simp

theorem renderLeds_stats (c : Bool) (s : State) :
    (renderLeds c s).1.stats.start = s.stats.start ∧
    (renderLeds c s).1.stats.finalGoodFrames = s.stats.finalGoodFrames ∧
    (renderLeds c s).1.stats.finalTotalFrames = s.stats.finalTotalFrames := by
  rw [renderLeds_eq]
  split_ifs <;> simp

theorem feed_stats (cfg : Config) (bytes : List Byte) :
    ∀ (ready : Nat → Bool) (s : State),
      (feed cfg ready s bytes).1.stats.start = s.stats.start ∧
      (feed cfg ready s bytes).1.stats.finalGoodFrames = s.stats.finalGoodFrames ∧
      (feed cfg ready s bytes).1.stats.finalTotalFrames = s.stats.finalTotalFrames := by
  induction bytes with
  | nil => intro ready s; exact ⟨rfl, rfl, rfl⟩
  | cons b bs ih =>
    intro ready s
    obtain ⟨i1, i2, i3⟩ := ih (fun j => ready (j + 1)) (processByte cfg (ready 0) s b).1
    obtain ⟨p1, p2, p3⟩ := processByte_stats cfg (ready 0) s b
    rw [feed_cons]
    exact ⟨by rw [i1, p1], by rw [i2, p2], by rw [i3, p3]⟩

theorem entryRender_stats (c : Bool) (s : State) :
    (entryRender c s).1.stats.start = s.stats.start ∧
    (entryRender c s).1.stats.finalGoodFrames = s.stats.finalGoodFrames ∧
    (entryRender c s).1.stats.finalTotalFrames = s.stats.finalTotalFrames := by
  unfold entryRender
  split_ifs
  · exact renderLeds_stats c s
  · exact ⟨rfl, rfl, rfl⟩

theorem stripInv_initial (cfg : Config) (cal0 : CalibrationConfig) :
    StripInv (State.initial cfg cal0) := by
  constructor <;> simp [State.initial, isColour]

/-- States that agree on the strip, the counters and whether the protocol state is a header
or colour state satisfy the strip invariant together. -/
theorem stripInv_of_same (s t : State) (h : StripInv s)
    (hc : t.frameState.count = s.frameState.count)
    (hl : t.frameState.currentLed = s.frameState.currentLed)
    (hb : t.base.ledsNumber = s.base.ledsNumber) (hs : t.base.ledStrip = s.base.ledStrip)
    (hhead : t.frameState.state = AwaProtocol.HEADER_LO ∨
      t.frameState.state = AwaProtocol.HEADER_CRC → t.frameState.currentLed = 0)
    (hcol : isColour t.frameState.state = true →
      (t.frameState.currentLed : Int) + t.frameState.count + 1 = t.base.ledsNumber) :
    StripInv t := by
  constructor
  · rw [hc]; exact h.count_lt
  · rw [hl]; exact h.currentLed_lt
  · rw [hb]; exact h.leds_range
  · rw [hb, hs]; exact h.unallocated
  · rw [hb, hs]; exact h.allocated
  · exact hhead
  · exact hcol

theorem processByte_stripInv (cfg : Config) (c : Bool) (s : State) (b : Byte) (h : StripInv s) :
    StripInv (processByte cfg c s b).1 := by
  have hb := b.isLt
  cases hst : s.frameState.state
  case HEADER_A =>
    simp only [processByte, hst, State.setState]
    split_ifs <;> exact stripInv_of_same s _ h rfl rfl rfl rfl (by simp) (by simp [isColour])
  case HEADER_w =>
    simp only [processByte, hst, State.setState]
    split_ifs <;> exact stripInv_of_same s _ h rfl rfl rfl rfl (by simp) (by simp [isColour])
  case HEADER_a =>
    simp only [processByte, hst, State.setState]
    split_ifs <;> exact stripInv_of_same s _ h rfl rfl rfl rfl (by simp) (by simp [isColour])
  case HEADER_HI =>
    rw [step_HI _ _ _ _ hst]
    constructor
    · show b.val * 0x100 < 65536
      omega
    · show 0 < 65536
      omega
    · exact h.leds_range
    · exact h.unallocated
    · exact h.allocated
    · intro _; rfl
    · simp [isColour]
  case HEADER_LO =>
    rw [step_LO _ _ _ _ hst]
    constructor
    · show (s.frameState.count + b.val) % 65536 < 65536
      omega
    · exact h.currentLed_lt
    · exact h.leds_range
    · exact h.unallocated
    · exact h.allocated
    · intro _; exact h.header (Or.inl hst)
    · simp [isColour]
  case HEADER_CRC =>
    have h0 := h.header (Or.inr hst)
    have hcnt := h.count_lt
    rw [step_CRC _ _ _ _ hst]
    split_ifs with h1 h2
    · constructor
      · exact hcnt
      · exact h.currentLed_lt
      · show 0 ≤ (s.frameState.count : Int) + 1 ∧ (s.frameState.count : Int) + 1 ≤ 65536
        omega
      · intro hn; cases hn
      · intro buf hbuf
        simp only [Option.some.injEq] at hbuf
        show 1 ≤ (s.frameState.count : Int) + 1 ∧ (buf.length : Int) = (s.frameState.count : Int) + 1
        rw [← hbuf, List.length_replicate]
        omega
      · simp
      · intro _
        show (s.frameState.currentLed : Int) + s.frameState.count + 1 = s.frameState.count + 1
        omega
    · refine stripInv_of_same s _ h rfl rfl rfl rfl (by simp [State.setState]) ?_
      intro _
      show (s.frameState.currentLed : Int) + s.frameState.count + 1 = s.base.ledsNumber
      simp only [ne_eq, not_not] at h2
      omega
    · exact stripInv_of_same s _ h rfl rfl rfl rfl (by simp [State.setState])
        (by simp [State.setState, isColour])
  case RED =>
    have hcol := h.colour (by rw [hst]; rfl)
    simp only [processByte, hst]
    exact stripInv_of_same s _ h rfl rfl rfl rfl
      (by simp [State.setState, State.addFletcher, FrameState.addFletcher])
      (fun _ => hcol)
  case GREEN =>
    have hcol := h.colour (by rw [hst]; rfl)
    simp only [processByte, hst]
    exact stripInv_of_same s _ h rfl rfl rfl rfl
      (by simp [State.setState, State.addFletcher, FrameState.addFletcher])
      (fun _ => hcol)
  case BLUE =>
    have hcol := h.colour (by rw [hst]; rfl)
    have hcnt := h.count_lt
    have hcur := h.currentLed_lt
    have hr := h.leds_range
    simp only [processByte, hst, State.setState, State.addFletcher, FrameState.addFletcher,
      setStripPixel]
    have hlt : (s.frameState.currentLed : Int) < s.base.ledsNumber := by omega
    have hcomm : ∀ t : State, t.base.ledsNumber = s.base.ledsNumber →
        (∃ f : List PixelColor → List PixelColor, (∀ l, (f l).length = l.length) ∧
          t.base.ledStrip = s.base.ledStrip.map f) →
        t.frameState.count = (s.frameState.count + 65535) % 65536 →
        t.frameState.currentLed = (s.frameState.currentLed + 1) % 65536 →
        (t.frameState.state = AwaProtocol.RED ∧ s.frameState.count > 0 ∨
          isColour t.frameState.state = false ∧ t.frameState.state ≠ AwaProtocol.HEADER_LO ∧
            t.frameState.state ≠ AwaProtocol.HEADER_CRC) →
        StripInv t := by
      intro t e1 ⟨f, hf, e2⟩ e3 e4 e5
      constructor
      · rw [e3]; omega
      · rw [e4]; omega
      · rw [e1]; exact hr
      · intro hn
        rw [e1]
        apply h.unallocated
        rw [e2] at hn
        cases hs : s.base.ledStrip with
        | none => rfl
        | some l => rw [hs] at hn; simp at hn
      · intro buf hbuf
        rw [e1]
        rw [e2] at hbuf
        cases hs : s.base.ledStrip with
        | none => rw [hs] at hbuf; simp at hbuf
        | some l =>
          rw [hs] at hbuf
          simp only [Option.map_some', Option.some.injEq] at hbuf
          have := h.allocated l hs
          rw [← hbuf, hf]
          exact this
      · intro hh
        rcases e5 with ⟨e5, -⟩ | ⟨-, e5, e6⟩
        · rw [e5] at hh; simp at hh
        · rcases hh with hh | hh
          · exact absurd hh e5
          · exact absurd hh e6
      · intro hh
        rcases e5 with ⟨-, e5⟩ | ⟨e5, -⟩
        · rw [e1, e3, e4]
          omega
        · rw [e5] at hh; cases hh
    by_cases hw : cfg.NEOPIXEL_RGBW <;> by_cases hc : s.frameState.count > 0 <;>
      by_cases hv : s.frameState.protocolVersion2 <;>
      simp only [hw, hc, hv, hlt, if_true, if_false, Bool.false_eq_true] <;>
      refine hcomm _ rfl ⟨_, fun l => List.length_set _ _ _, rfl⟩ rfl rfl ?_ <;>
      simp [hc, isColour]
  case FLETCHER2 =>
    rw [step_F2 _ _ _ _ hst]
    split_ifs
    · refine stripInv_of_same s _ h ?_ ?_ ?_ ?_ ?_ ?_
      · simp only [State.setState, applyCalibration_frameState]
        rw [(renderLeds_frame _ _).1]
      · simp only [State.setState, applyCalibration_frameState]
        rw [(renderLeds_frame _ _).1]
      · simp only [State.setState, applyCalibration_base]
        rw [(renderLeds_frame _ _).2.2.2.2.2]
      · simp only [State.setState, applyCalibration_base]
        rw [(renderLeds_frame _ _).2.2.2.2.1]
      · simp [State.setState]
      · simp [State.setState, isColour]
    · exact stripInv_of_same s _ h rfl rfl rfl rfl (by simp [State.setState])
        (by simp [State.setState, isColour])
  all_goals
    simp only [processByte, hst]
    first
      | exact stripInv_of_same s _ h rfl rfl rfl rfl
          (by simp [State.setState, State.addFletcher, FrameState.addFletcher])
          (by simp [State.setState, State.addFletcher, FrameState.addFletcher, isColour])
      | (split_ifs <;>
          exact stripInv_of_same s _ h rfl rfl rfl rfl
            (by simp [State.setState, State.addFletcher, FrameState.addFletcher])
            (by simp [State.setState, State.addFletcher, FrameState.addFletcher, isColour]))

theorem renderLeds_stripInv (c : Bool) (s : State) (h : StripInv s) :
    StripInv (renderLeds c s).1 := by
  obtain ⟨r1, -, -, -, r5, r6⟩ := renderLeds_frame c s
  refine stripInv_of_same s _ h (by rw [r1]) (by rw [r1]) r6 r5 ?_ ?_
  · rw [r1]; exact h.header
  · rw [r1, r6]; exact h.colour

theorem perform_stripInv (cfg : Config) (s : State) (o : SysOp) (h : StripInv s) :
    StripInv (perform cfg s o).1 := by
  cases o with
  | byte b c => exact processByte_stripInv cfg c s b h
  | render c => exact renderLeds_stripInv c s h
  | update t => exact stripInv_of_same s _ h rfl rfl rfl rfl h.header h.colour
  | print t => exact stripInv_of_same s _ h rfl rfl rfl rfl h.header h.colour

/-- Every byte leaves both Fletcher accumulators below 255 when they were below 255. -/
theorem processByte_fletcher_lt (cfg : Config) (c : Bool) (s : State) (b : Byte)
    (h : s.frameState.fletcher1 < 255 ∧ s.frameState.fletcher2 < 255) :
    (processByte cfg c s b).1.frameState.fletcher1 < 255 ∧
    (processByte cfg c s b).1.frameState.fletcher2 < 255 := by
  obtain ⟨h1, h2⟩ := h
  cases hst : s.frameState.state
  case FLETCHER2 =>
    rw [step_F2 _ _ _ _ hst]
    split_ifs
    · simp only [State.setState, applyCalibration_frameState]
      rw [(renderLeds_frame _ _).1]
      exact ⟨h1, h2⟩
    · exact ⟨h1, h2⟩
  case BLUE =>
    simp only [processByte, hst, State.setState, State.addFletcher, FrameState.addFletcher,
      setStripPixel]
    split_ifs <;> exact ⟨Nat.mod_lt _ (by decide), Nat.mod_lt _ (by decide)⟩
  case HEADER_CRC =>
    rw [step_CRC _ _ _ _ hst]
    split_ifs <;> exact ⟨h1, h2⟩
  case HEADER_HI =>
    rw [step_HI _ _ _ _ hst]
    exact ⟨show 0 < 255 by omega, show 0 < 255 by omega⟩
  all_goals
    simp only [processByte, hst, State.setState, State.addFletcher, FrameState.addFletcher]
    first
      | exact ⟨h1, h2⟩
      | exact ⟨Nat.mod_lt _ (by decide), Nat.mod_lt _ (by decide)⟩
      | (split_ifs <;> exact ⟨h1, h2⟩)

theorem perform_fletcher_lt (cfg : Config) (s : State) (o : SysOp)
    (h : s.frameState.fletcher1 < 255 ∧ s.frameState.fletcher2 < 255) :
    (perform cfg s o).1.frameState.fletcher1 < 255 ∧
    (perform cfg s o).1.frameState.fletcher2 < 255 := by
  cases o with
  | byte b c => exact processByte_fletcher_lt cfg c s b h
  | render c =>
    simp only [perform]
    rw [(renderLeds_frame c s).1]
    exact h
  | update t => exact h
  | print t => exact h

theorem update_final_le (st : Stats) (t : Nat) (h : st.finalGoodFrames ≤ st.finalTotalFrames) :
    (st.update t).finalGoodFrames ≤ (st.update t).finalTotalFrames := by
  unfold Stats.update
  split_ifs with hg
  · exact hg.2
  · exact h

theorem perform_final_le (cfg : Config) (s : State) (o : SysOp)
    (h : s.stats.finalGoodFrames ≤ s.stats.finalTotalFrames) :
    (perform cfg s o).1.stats.finalGoodFrames ≤ (perform cfg s o).1.stats.finalTotalFrames := by
  cases o with
  | byte b c =>
    obtain ⟨-, p2, p3⟩ := processByte_stats cfg c s b
    simp only [perform]
    rw [p2, p3]; exact h
  | render c =>
    obtain ⟨-, p2, p3⟩ := renderLeds_stats c s
    simp only [perform]
    rw [p2, p3]; exact h
  | update t => exact update_final_le s.stats t h
  | print t => exact h

/-- The invariants hold after any sequence of operations when they hold before it. -/
theorem exec_invariants (cfg : Config) (os : List SysOp) :
    ∀ s : State, StripInv s →
      (s.frameState.fletcher1 < 255 ∧ s.frameState.fletcher2 < 255) →
      s.stats.finalGoodFrames ≤ s.stats.finalTotalFrames →
      StripInv (exec cfg s os).1 ∧
      ((exec cfg s os).1.frameState.fletcher1 < 255 ∧
        (exec cfg s os).1.frameState.fletcher2 < 255) ∧
      (exec cfg s os).1.stats.finalGoodFrames ≤ (exec cfg s os).1.stats.finalTotalFrames := by
  induction os with
  | nil => intro s h1 h2 h3; exact ⟨h1, h2, h3⟩
  | cons o os ih =>
    intro s h1 h2 h3
    exact ih _ (perform_stripInv cfg s o h1) (perform_fletcher_lt cfg s o h2)
      (perform_final_le cfg s o h3)

/-- The invariants of the reachable states. -/
theorem reachable_invariants (cfg : Config) (cal0 : CalibrationConfig) (s : State)
    (h : Reachable cfg cal0 s) :
    StripInv s ∧ (s.frameState.fletcher1 < 255 ∧ s.frameState.fletcher2 < 255) ∧
    s.stats.finalGoodFrames ≤ s.stats.finalTotalFrames := by
  obtain ⟨os, rfl⟩ := h
  exact exec_invariants cfg os _ (stripInv_initial cfg cal0)
    ⟨show 0 < 255 by omega, show 0 < 255 by omega⟩ (Nat.le_refl _)

theorem exec_append (cfg : Config) (xs ys : List SysOp) :
    ∀ s : State, exec cfg s (xs ++ ys) =
      ((exec cfg (exec cfg s xs).1 ys).1, (exec cfg s xs).2 ++ (exec cfg (exec cfg s xs).1 ys).2) := by
  induction xs with
  | nil => intro s; simp [exec]
  | cons x xs ih =>
    intro s
    have h := ih (perform cfg s x).1
    simp only [List.cons_append, exec, List.append_eq, h, List.append_assoc]

/-- The byte loop with a constant readiness answer is a sequence of byte operations. -/
theorem feed_eq_exec (cfg : Config) (c : Bool) (bytes : List Byte) :
    ∀ s : State, feed cfg (fun _ => c) s bytes = exec cfg s (byteOps c bytes) := by
  induction bytes with
  | nil => intro s; rfl
  | cons b bs ih =>
    intro s
    rw [feed_cons]
    simp only [byteOps, List.map_cons, exec, perform]
    have := ih (processByte cfg c s b).1
    simp only [byteOps] at this
    rw [← this]

theorem reachable_feed (cfg : Config) (cal0 : CalibrationConfig) (c : Bool) (bytes : List Byte) :
    Reachable cfg cal0 (feed cfg (fun _ => c) (State.initial cfg cal0) bytes).1 :=
  ⟨byteOps c bytes, by rw [feed_eq_exec]⟩

theorem reachable_perform (cfg : Config) (cal0 : CalibrationConfig) (s : State) (o : SysOp)
    (h : Reachable cfg cal0 s) : Reachable cfg cal0 (perform cfg s o).1 := by
  obtain ⟨os, rfl⟩ := h
  exact ⟨os ++ [o], by rw [exec_append]; rfl⟩

/-- The pixel counter after the colour bytes of a frame: the number of pixels written, modulo
2^16. -/
theorem feed_pixels_currentLed (cfg : Config) (px : List Rgb) :
    ∀ (ready : Nat → Bool) (s : State),
      s.frameState.state = AwaProtocol.RED →
      s.frameState.count + 1 = px.length →
      s.base.ledsNumber = (s.frameState.currentLed : Int) + px.length →
      s.frameState.currentLed + px.length ≤ 65536 →
      (feed cfg ready s (colourBytes px)).1.frameState.currentLed =
        (s.frameState.currentLed + px.length) % 65536 := by
  induction px with
  | nil => intro ready s _ h; simp at h
  | cons p ps ih =>
    intro ready s hs hcount hleds hbound
    have hlen : (p :: ps).length = ps.length + 1 := rfl
    have hlt : (s.frameState.currentLed : Int) < s.base.ledsNumber := by
      rw [hleds, hlen]; push_cast; omega
    obtain ⟨-, t2, t3, t4, -, -, t7, -⟩ := feed_triple cfg ready s p hs hlt
    obtain ⟨-, hln, -⟩ := outer_fields t7
    rw [colourBytes_cons, feed_append]
    cases ps with
    | nil =>
      simp only [colourBytes, feed_nil, t4, List.length_singleton]
    | cons q qs =>
      have hlen2 : (p :: q :: qs).length = (q :: qs).length + 1 := rfl
      have hpos : 0 < (q :: qs).length := by simp
      have hcpos : s.frameState.count > 0 := by rw [hlen2] at hcount; omega
      have hs1 : (feed cfg ready s [p.1, p.2.1, p.2.2]).1.frameState.state = AwaProtocol.RED := by
        rw [t2, if_pos hcpos]
      have hcur1 : (feed cfg ready s [p.1, p.2.1, p.2.2]).1.frameState.currentLed =
          s.frameState.currentLed + 1 := by
        rw [t4]; rw [hlen2] at hbound; omega
      have h := ih (fun j => ready (j + [p.1, p.2.1, p.2.2].length))
        (feed cfg ready s [p.1, p.2.1, p.2.2]).1 hs1
        (by rw [t3]; rw [hlen2] at hcount hbound; omega)
        (by rw [hln, hcur1, hleds, hlen2]; push_cast; omega)
        (by rw [hcur1]; rw [hlen2] at hbound; omega)
      simp only
      rw [h, hcur1, hlen2]
      congr 1
      omega

/-- The pixel counter when the colour bytes of a well-formed frame have been processed from
`HEADER_A`: the declared count modulo 2^16. -/
theorem feed_payload_currentLed (cfg : Config) (ready : Nat → Bool) (s : State) (F : Frame)
    (hs : s.frameState.state = AwaProtocol.HEADER_A) (hwf : F.WellFormed)
    (hv : F.version2 = false) :
    (feed cfg ready s (F.header ++ F.payload)).1.frameState.currentLed = F.declared % 65536 := by
  obtain ⟨-, h2, -, h4, h5, -, -, h8, -⟩ := feed_header cfg ready s F hs
  have hlen : F.pixels.length = F.declared := hwf
  have hpay : F.payload = colourBytes F.pixels := by simp [Frame.payload, hv]
  have hb : F.declared ≤ 65536 := by
    have a := F.countHigh.isLt
    have b := F.countLow.isLt
    unfold Frame.declared
    omega
  rw [hpay, feed_append]
  simp only
  rw [feed_pixels_currentLed cfg F.pixels _ _ h2 (by rw [h4, hlen]) (by rw [h8, h5, hlen]; simp)
    (by rw [h5, hlen]; omega), h5, hlen, Nat.zero_add]

theorem maxFrame_wf : maxFrame.WellFormed ∧ maxFrame.declared = 65536 := by
  have hd : maxFrame.declared = 65536 := by
    show (255 : Byte).val * 256 + (255 : Byte).val + 1 = 65536
    decide
  refine ⟨?_, hd⟩
  unfold Frame.WellFormed
  rw [hd]
  exact List.length_replicate _ _

/-- Case `BLUE` with the index below `ledsNumber`: one pixel write at `currentLed`, and the
counter becomes `currentLed + 1` modulo 2^16. -/
theorem step_BLUE_write (cfg : Config) (c : Bool) (s : State) (b : Byte)
    (hs : s.frameState.state = AwaProtocol.BLUE)
    (hlt : (s.frameState.currentLed : Int) < s.base.ledsNumber) :
    (∃ col, (processByte cfg c s b).2 = [Event.SetPixelColor s.frameState.currentLed col]) ∧
    (processByte cfg c s b).1.frameState.currentLed = (s.frameState.currentLed + 1) % 65536 ∧
    (s.frameState.count > 0 →
      (processByte cfg c s b).1.frameState.state = AwaProtocol.RED) ∧
    (s.frameState.count = 0 →
      (processByte cfg c s b).1.frameState.state =
        if s.frameState.protocolVersion2 then AwaProtocol.VERSION2_GAIN
        else AwaProtocol.FLETCHER1) := by
  simp only [processByte, hs, State.setState, State.addFletcher, FrameState.addFletcher,
    setStripPixel]
  by_cases hw : cfg.NEOPIXEL_RGBW <;> by_cases hc : s.frameState.count > 0 <;>
    by_cases hv : s.frameState.protocolVersion2 <;>
    simp [hw, hc, hv, hlt] <;> omega

/-- A window in which `goodFrames` exceeds `totalFrames`: a frame is completed while the strip
is busy (its render is deferred), `stats.update` closes the window, and the deferred render
succeeds in the new window before any frame header arrives. -/
theorem deferred_render_reachable (cfg : Config) (cal0 : CalibrationConfig) :
    ∃ s : State, Reachable cfg cal0 s ∧ s.stats.totalFrames = 0 ∧ s.stats.goodFrames = 1 := by
  have hwf : sampleFrame.WellFormed := by decide
  obtain ⟨-, -, -, f4, -, f6, f7, -⟩ := feed_frame cfg (fun _ => false)
    (State.initial cfg cal0) sampleFrame rfl hwf
  have hstrip := stripAfterFrame_full cfg (State.initial cfg cal0) sampleFrame hwf
    (initial_coherent cfg cal0).1 (initial_coherent cfg cal0).2
  rw [hstrip] at f4
  have f6b : (feed cfg (fun _ => false) (State.initial cfg cal0) sampleFrame.bytes).1.base.wantShow
      = true := by rw [f6]; rfl
  refine ⟨(perform cfg (perform cfg
    (feed cfg (fun _ => false) (State.initial cfg cal0) sampleFrame.bytes).1
      (SysOp.update 2000)).1 (SysOp.render true)).1,
    reachable_perform _ _ _ _ (reachable_perform _ _ _ _ (reachable_feed cfg cal0 false _)), ?_, ?_⟩
  · simp [perform, renderLeds, f4, f6b, Stats.update]
  · simp [perform, renderLeds, f4, f6b, Stats.update]

/-- The calibration block reads only the version flag, the staged values and the current
calibration. -/
theorem applyCalibration_congr (cfg : Config) (t s : State)
    (h1 : t.frameState = s.frameState) (h2 : t.incoming = s.incoming)
    (h3 : t.calibrationConfig = s.calibrationConfig)
    (h4 : t.channelCorrection = s.channelCorrection) :
    (applyCalibration cfg t).calibrationConfig = (applyCalibration cfg s).calibrationConfig ∧
    (applyCalibration cfg t).channelCorrection = (applyCalibration cfg s).channelCorrection := by
  unfold applyCalibration
  rw [h1, h2, h3]
  split_ifs <;> simp [h3, h4]

/-- A byte processed in any state but `FLETCHER2` leaves the calibration alone. -/
theorem step_calibration_other (cfg : Config) (c : Bool) (s : State) (b : Byte)
    (hF : s.frameState.state ≠ AwaProtocol.FLETCHER2) :
    (processByte cfg c s b).1.calibrationConfig = s.calibrationConfig ∧
    (processByte cfg c s b).1.channelCorrection = s.channelCorrection := by
  cases hst : s.frameState.state
  case FLETCHER2 => exact absurd hst hF
  case BLUE =>
    simp only [processByte, hst, State.setState, State.addFletcher, setStripPixel]
    split_ifs <;> simp
  case HEADER_CRC =>
    rw [step_CRC _ _ _ _ hst]
    split_ifs <;> simp [State.setState, initLedStrip]
  all_goals
    simp only [processByte, hst, State.setState, State.addFletcher, FrameState.init]
    first
      | (split_ifs <;> simp)
      | simp

/-- The calibration after one byte: only a byte equal to `fletcher2` in state `FLETCHER2` reaches
the calibration block, every other byte leaves parameters and tables as they are. -/
theorem step_calibration (cfg : Config) (c : Bool) (s : State) (b : Byte) :
    (processByte cfg c s b).1.calibrationConfig =
      (if s.frameState.state = AwaProtocol.FLETCHER2 ∧ b.val = s.frameState.fletcher2
        then (applyCalibration cfg s).calibrationConfig else s.calibrationConfig) ∧
    (processByte cfg c s b).1.channelCorrection =
      (if s.frameState.state = AwaProtocol.FLETCHER2 ∧ b.val = s.frameState.fletcher2
        then (applyCalibration cfg s).channelCorrection else s.channelCorrection) := by
  by_cases hF : s.frameState.state = AwaProtocol.FLETCHER2
  · rw [step_F2 _ _ _ _ hF]
    by_cases hb : b.val = s.frameState.fletcher2
    · obtain ⟨r1, r2, r3, r4, -, -⟩ :=
        renderLeds_frame c { s with base := { s.base with wantShow := true } }
      obtain ⟨a1, a2⟩ := applyCalibration_congr cfg _ s r1 r2 r3 r4
      simp only [hb, hF, if_true, and_self, State.setState]
      exact ⟨a1, a2⟩
    · simp [hb, State.setState]
  · rw [if_neg (fun h => hF h.1), if_neg (fun h => hF h.1)]
    exact step_calibration_other cfg c s b hF

/-- A byte processed past the marker with the version flag clear keeps the flag clear. -/
theorem step_version_clear (cfg : Config) (c : Bool) (s : State) (b : Byte)
    (hin : inFrame s.frameState.state = true) (hv : s.frameState.protocolVersion2 = false) :
    (processByte cfg c s b).1.frameState.protocolVersion2 = false := by
  cases hst : s.frameState.state
  case HEADER_A => rw [hst] at hin; exact absurd hin (by decide)
  case HEADER_w => rw [hst] at hin; exact absurd hin (by decide)
  case HEADER_a => rw [hst] at hin; exact absurd hin (by decide)
  case FLETCHER2 =>
    rw [step_F2 _ _ _ _ hst]
    split_ifs
    · simp [State.setState, applyCalibration_frameState, (renderLeds_frame _ _).1, hv]
    · simp [State.setState, hv]
  case BLUE =>
    simp only [processByte, hst, State.setState, State.addFletcher, setStripPixel]
    split_ifs <;> simp [FrameState.addFletcher, hv]
  case HEADER_CRC =>
    rw [step_CRC _ _ _ _ hst]
    split_ifs <;> simp [State.setState, initLedStrip, hv]
  all_goals
    simp only [processByte, hst, State.setState, State.addFletcher, FrameState.init,
      FrameState.addFletcher]
    first
      | (split_ifs <;> simp [hv])
      | simp [hv]

/-- The marker `A w a` processed from state `HEADER_A`. -/
theorem feed_marker_v1 (cfg : Config) (ready : Nat → Bool) (s : State)
    (hs : s.frameState.state = AwaProtocol.HEADER_A) :
    (feed cfg ready s [65, 119, 97]).1 =
      { s with frameState := { s.frameState with
          protocolVersion2 := false, state := AwaProtocol.HEADER_HI } } := by
  rw [feed_cons, step_A_hit _ _ _ hs, feed_cons, step_w_hit _ _ _ rfl, feed_single]
  simp [processByte, State.setState]

/-- One more byte at the end of a stream is one more step from the state the stream leaves. -/
theorem feed_snoc (cfg : Config) (ready : Nat → Bool) (s : State) (xs : List Byte) (b : Byte) :
    (feed cfg ready s (xs ++ [b])).1 =
      (processByte cfg (ready xs.length) (feed cfg ready s xs).1 b).1 := by
  rw [feed_append, feed_single]
  simp

/-- While the parser has not left a version-1 frame, the version flag is clear and the
calibration is the one the frame started with; the byte processed next keeps the calibration. -/
theorem feed_v1_calibration (cfg : Config) (ready : Nat → Bool) (s : State) (rest : List Byte)
    (hs : s.frameState.state = AwaProtocol.HEADER_A) :
    ∀ k : Nat, k ≤ rest.length →
      (∀ j, j < k →
        inFrame (feed cfg ready s ([65, 119, 97] ++ rest.take j)).1.frameState.state = true) →
      (feed cfg ready s ([65, 119, 97] ++ rest.take k)).1.calibrationConfig =
        s.calibrationConfig ∧
      (feed cfg ready s ([65, 119, 97] ++ rest.take k)).1.channelCorrection =
        s.channelCorrection ∧
      (feed cfg ready s ([65, 119, 97] ++ rest.take k)).1.frameState.protocolVersion2 = false := by
  intro k
  induction k with
  | zero =>
    intro _ _
    simp only [List.take_zero, List.append_nil]
    rw [feed_marker_v1 _ _ _ hs]
    exact ⟨rfl, rfl, rfl⟩
  | succ k ih =>
    intro hk hin
    obtain ⟨i1, i2, i3⟩ := ih (by omega) (fun j hj => hin j (by omega))
    have hk2 : k < rest.length := by omega
    have htake : [65, 119, 97] ++ rest.take (k + 1) =
        ([65, 119, 97] ++ rest.take k) ++ [rest.get ⟨k, hk2⟩] := by
      rw [List.append_assoc]
      congr 1
      rw [List.take_succ]
      simp [List.getElem?_eq_getElem hk2]
    rw [htake, feed_snoc]
    have hstate := hin k (by omega)
    obtain ⟨c1, c2⟩ := step_calibration cfg (ready ([65, 119, 97] ++ rest.take k).length)
      (feed cfg ready s ([65, 119, 97] ++ rest.take k)).1 (rest.get ⟨k, hk2⟩)
    have hv := step_version_clear cfg (ready ([65, 119, 97] ++ rest.take k).length)
      (feed cfg ready s ([65, 119, 97] ++ rest.take k)).1 (rest.get ⟨k, hk2⟩) hstate i3
    rw [applyCalibration_v1 _ _ i3] at c1 c2
    simp only [ite_self] at c1 c2
    exact ⟨c1.trans i1, c2.trans i2, hv⟩

/-! ## The claims -/

/-- C1: in the 3-channel build, from any state whose protocol state is `HEADER_A`, the bytes
`'A' 'w' 'a' countHigh countLow (countHigh ^ countLow ^ 0x55)`, the `3N` colour bytes of
`N = countHigh*256 + countLow + 1` triples and the two Fletcher bytes over the colour bytes make
the parser call `SetPixelColor` exactly `N` times, at the indices `0, 1, ..., N-1` in that order
with the colours of the triples in order (preceded only by the reallocation of the strip when
`N` differs from `ledsNumber`), then set the render request once, while the last byte is
processed, and leave the protocol state at `HEADER_A`.  When the strip held `ledsNumber`
pixels before (or was unallocated with `ledsNumber = 0`), it holds exactly the `N` colours
afterwards. -/
theorem C1_v1_frame_writes_pixels_in_order (cfg : Config) (ready : Nat → Bool) (s : State)
    (F : Frame) (hrgb : cfg.NEOPIXEL_RGBW = false) (hv1 : F.version2 = false)
    (hwf : F.WellFormed) (hs : s.frameState.state = AwaProtocol.HEADER_A) :
    F.bytes =
      [65, 119, 97, F.countHigh, F.countLow,
        Fin.ofNat (F.countHigh.val ^^^ F.countLow.val ^^^ 0x55)] ++
      colourBytes F.pixels ++
      [Fin.ofNat (fletcher (colourBytes F.pixels)).1,
        Fin.ofNat (fletcher (colourBytes F.pixels)).2] ∧
    (feed cfg ready s F.bytes).2 =
      initEvents s F ++ pixelWrites cfg s.channelCorrection 0 F.pixels ++
        Event.wantShow false ::
          showEvents (ready (F.bytes.length - 1)) (stripAfterFrame cfg s F) ∧
    (pixelWrites cfg s.channelCorrection 0 F.pixels).length =
      F.countHigh.val * 256 + F.countLow.val + 1 ∧
    (∀ (i : Nat) (p : Rgb), F.pixels[i]? = some p →
      (pixelWrites cfg s.channelCorrection 0 F.pixels)[i]? =
        some (Event.SetPixelColor i (PixelColor.rgb p.1.val p.2.1.val p.2.2.val))) ∧
    countPixelWrites (feed cfg ready s F.bytes).2 = F.countHigh.val * 256 + F.countLow.val + 1 ∧
    countComplete (feed cfg ready s F.bytes).2 = 1 ∧
    (feed cfg ready s F.bytes.dropLast).2 =
      initEvents s F ++ pixelWrites cfg s.channelCorrection 0 F.pixels ∧
    (feed cfg ready s F.bytes).1.frameState.state = AwaProtocol.HEADER_A ∧
    ((∀ buf, s.base.ledStrip = some buf → (buf.length : Int) = s.base.ledsNumber) →
      (s.base.ledStrip = none → s.base.ledsNumber = 0) →
      (feed cfg ready s F.bytes).1.base.ledStrip =
        some (F.pixels.map (fun p => PixelColor.rgb p.1.val p.2.1.val p.2.2.val))) := by
  obtain ⟨h1, h2, -, h4, -⟩ := feed_frame cfg ready s F hs hwf
  obtain ⟨c1, c2⟩ := count_frame cfg ready s F hs hwf
  have hlen : F.pixels.length = F.countHigh.val * 256 + F.countLow.val + 1 := hwf
  have hd : F.declared = F.countHigh.val * 256 + F.countLow.val + 1 := rfl
  have hidx : F.bytes.length - 1 = F.payload.length + 7 := by rw [bytes_length]; omega
  refine ⟨?_, ?_, ?_, ?_, ?_, c2, ?_, h2, ?_⟩
  rotate_right
  · intro hcoh hnone
    rw [h4, stripAfterFrame_full cfg s F hwf hcoh hnone]
    congr 1
    apply List.map_congr_left
    intro p _
    exact pixelColor_rgb cfg _ p hrgb
  · simp [Frame.bytes, Frame.header, Frame.payload, Frame.trailer, Frame.marker, hv1,
      headerChecksum]
  · rw [h1, hidx, hv1]
  · rw [pixelWrites_length, hlen]
  · intro i p hp
    have := pixelWrites_getElem cfg s.channelCorrection F.pixels 0 i p hp
    rw [this, pixelColor_rgb cfg _ p hrgb, Nat.zero_add]
  · rw [c1, hd]
  · rw [bytes_dropLast, feed_before_last cfg ready s F hs hwf]

/-- C1, checked on the two-pixel frame `A w a 00 01 54 FF 00 00 01 02 03 06 0A` fed to the
start-up state with the strip ready. -/
theorem C1_v1_frame_writes_pixels_in_order_witness :
    (feed sampleRgb (fun _ => true) (State.initial sampleRgb sampleCal) sampleFrame.bytes).2 =
      [Event.initLedStrip 2, Event.SetPixelColor 0 (PixelColor.rgb 255 0 0),
        Event.SetPixelColor 1 (PixelColor.rgb 1 2 3), Event.wantShow false,
        Event.Show [PixelColor.rgb 255 0 0, PixelColor.rgb 1 2 3]] :=
  (C1_v1_frame_writes_pixels_in_order sampleRgb (fun _ => true)
    (State.initial sampleRgb sampleCal) sampleFrame rfl rfl (by decide) rfl).2.1.trans (by decide)

/-- C2, as stated, fails: after the one-byte prefix `'A'` the parser waits in `HEADER_w`, the
`'A'` that opens the frame is consumed as a failed `'w'`, and the well-formed one-pixel frame
`A w a 00 00 55 00 00 00 00 00` that follows produces no frame completion and no pixel write. -/
theorem C2_counterexample :
    blackFrame.WellFormed ∧ blackFrame.declared = 1 ∧
    countComplete
      (feed sampleRgb (fun _ => false)
        (feed sampleRgb (fun _ => false) (State.initial sampleRgb sampleCal) [65]).1
        blackFrame.bytes).2 = 0 ∧
    countPixelWrites
      (feed sampleRgb (fun _ => false)
        (feed sampleRgb (fun _ => false) (State.initial sampleRgb sampleCal) [65]).1
        blackFrame.bytes).2 = 0 := by
  decide

/-- C2 (amended): for every byte sequence `P` that leaves the parser in state `HEADER_A` and
every well-formed frame `F` (version 1 or 2), feeding `P` and then `F` from the start-up state
produces, during the bytes of `F`, exactly one frame completion and exactly as many pixel writes
as `F` declares. -/
theorem C2_frame_after_prefix_ending_in_marker_scan (cfg : Config) (ready : Nat → Bool)
    (cal0 : CalibrationConfig) (P : List Byte) (F : Frame) (hwf : F.WellFormed)
    (hP : (feed cfg ready (State.initial cfg cal0) P).1.frameState.state = AwaProtocol.HEADER_A) :
    (feed cfg ready (State.initial cfg cal0) (P ++ F.bytes)).2 =
      (feed cfg ready (State.initial cfg cal0) P).2 ++
        (feed cfg (fun j => ready (j + P.length))
          (feed cfg ready (State.initial cfg cal0) P).1 F.bytes).2 ∧
    countComplete
      (feed cfg (fun j => ready (j + P.length))
        (feed cfg ready (State.initial cfg cal0) P).1 F.bytes).2 = 1 ∧
    countPixelWrites
      (feed cfg (fun j => ready (j + P.length))
        (feed cfg ready (State.initial cfg cal0) P).1 F.bytes).2 = F.declared := by
  obtain ⟨c1, c2⟩ := count_frame cfg (fun j => ready (j + P.length)) _ F hP hwf
  exact ⟨by rw [feed_append], c2, c1⟩

/-- C2 (amended), checked on the garbage prefix `01 'A' 02` followed by the two-pixel sample
frame: the events during the frame are one reallocation, two pixel writes and one completion. -/
theorem C2_frame_after_prefix_ending_in_marker_scan_witness :
    sampleFrame.WellFormed ∧
    (feed sampleRgb (fun _ => false) (State.initial sampleRgb sampleCal)
      [1, 65, 2]).1.frameState.state = AwaProtocol.HEADER_A ∧
    countComplete
      (feed sampleRgb (fun j => (fun _ => false) (j + [(1 : Byte), 65, 2].length))
        (feed sampleRgb (fun _ => false) (State.initial sampleRgb sampleCal) [1, 65, 2]).1
        sampleFrame.bytes).2 = 1 ∧
    countPixelWrites
      (feed sampleRgb (fun j => (fun _ => false) (j + [(1 : Byte), 65, 2].length))
        (feed sampleRgb (fun _ => false) (State.initial sampleRgb sampleCal) [1, 65, 2]).1
        sampleFrame.bytes).2 = 2 :=
  ⟨by decide, by decide,
    (C2_frame_after_prefix_ending_in_marker_scan sampleRgb (fun _ => false) sampleCal [1, 65, 2]
      sampleFrame (by decide) (by decide)).2⟩

/-- C3: from any state whose protocol state is `HEADER_A`, the bytes `'A' 'w' m countHigh
countLow c` with `m` one of `'a'`, `'A'` and `c` different from `countHigh ^ countLow ^ 0x55`
make no call on the strip (no pixel write, no reallocation, no render), leave `base`
(`ledsNumber`, the pixel buffer, `wantShow`) and `goodFrames` unchanged, increment `totalFrames`
by one modulo 2^16 and end in protocol state `HEADER_A`. -/
theorem C3_bad_header_checksum_discards_frame (cfg : Config) (ready : Nat → Bool) (s : State)
    (m countHigh countLow c : Byte) (hm : m = 97 ∨ m = 65)
    (hc : c.val ≠ countHigh.val ^^^ countLow.val ^^^ 0x55)
    (hs : s.frameState.state = AwaProtocol.HEADER_A) :
    (feed cfg ready s [65, 119, m, countHigh, countLow, c]).2 = [] ∧
    (feed cfg ready s [65, 119, m, countHigh, countLow, c]).1.base = s.base ∧
    (feed cfg ready s [65, 119, m, countHigh, countLow, c]).1.stats =
      { s.stats with totalFrames := (s.stats.totalFrames + 1) % 65536 } ∧
    (feed cfg ready s [65, 119, m, countHigh, countLow, c]).1.stats.goodFrames =
      s.stats.goodFrames ∧
    (feed cfg ready s [65, 119, m, countHigh, countLow, c]).1.frameState.state =
      AwaProtocol.HEADER_A := by
  have hlt := headerChecksum_lt countHigh countLow
  have hne : ¬ (countHigh.val ^^^ countLow.val ^^^ 0x55) % 256 = c.val := by
    unfold headerChecksum at hlt
    rw [Nat.mod_eq_of_lt hlt]
    exact fun h => hc h.symm
  have hsplit : [65, 119, m, countHigh, countLow, c] =
      [65, 119, m, countHigh, countLow] ++ [c] := rfl
  have hfive : ∃ v2 : Bool, m = (⟨v2, countHigh, countLow, [], 0, 0, 0, 0⟩ : Frame).marker := by
    rcases hm with h | h
    · exact ⟨false, by simp [Frame.marker, h]⟩
    · exact ⟨true, by simp [Frame.marker, h]⟩
  obtain ⟨v2, hv2⟩ := hfive
  rw [hsplit, feed_append, hv2,
    feed_header_five cfg ready s ⟨v2, countHigh, countLow, [], 0, 0, 0, 0⟩ hs, feed_single]
  simp only
  rw [step_CRC _ _ _ _ rfl]
  simp only
  rw [if_neg hne]
  simp [State.setState]

/-- C3, checked on the header `A w a 00 04 40` (the correct checksum byte is `51`). -/
theorem C3_bad_header_checksum_discards_frame_witness :
    (feed sampleRgb (fun _ => true) (State.initial sampleRgb sampleCal)
      [65, 119, 97, 0, 4, 0x40]).2 = [] ∧
    (feed sampleRgb (fun _ => true) (State.initial sampleRgb sampleCal)
      [65, 119, 97, 0, 4, 0x40]).1.stats.totalFrames = 1 :=
  have h := C3_bad_header_checksum_discards_frame sampleRgb (fun _ => true)
    (State.initial sampleRgb sampleCal) 97 0 4 0x40 (Or.inl rfl) (by decide) rfl
  ⟨h.1, by rw [h.2.2.1]; rfl⟩

/-- C4: let a frame with valid marker and header be processed from `HEADER_A` up to its
payload, reaching the state `sP` in which the first trailing byte is compared (state
`FLETCHER1`, the accumulators hold the Fletcher sums of the payload, all pixel writes of the frame
are in the buffer).  A first trailing byte `c` that differs from `fletcher1`, or a second
trailing byte `d` that differs from `fletcher2` after a matching first one, changes nothing but
the protocol state, which goes back to `HEADER_A`, and calls nothing on the strip: `wantShow`,
`goodFrames`, the calibration parameters and tables and the pixel buffer are as they were before
the byte, and no `Show` is issued. -/
theorem C4_trailing_checksum_mismatch_discards_frame (cfg : Config) (ready : Nat → Bool)
    (s : State) (F : Frame) (c d : Byte) (rc rd : Bool)
    (hs : s.frameState.state = AwaProtocol.HEADER_A) (hwf : F.WellFormed) :
    (feed cfg ready s (F.header ++ F.payload)).1.frameState.state = AwaProtocol.FLETCHER1 ∧
    (feed cfg ready s (F.header ++ F.payload)).1.frameState.fletcher1 = (fletcher F.payload).1 ∧
    (feed cfg ready s (F.header ++ F.payload)).1.frameState.fletcher2 = (fletcher F.payload).2 ∧
    (feed cfg ready s (F.header ++ F.payload)).2 =
      initEvents s F ++ pixelWrites cfg s.channelCorrection 0 F.pixels ∧
    (feed cfg ready s (F.header ++ F.payload)).1.base.ledStrip = stripAfterFrame cfg s F ∧
    (c.val ≠ (fletcher F.payload).1 →
      processByte cfg rc (feed cfg ready s (F.header ++ F.payload)).1 c =
        ((feed cfg ready s (F.header ++ F.payload)).1.setState AwaProtocol.HEADER_A, [])) ∧
    (c.val = (fletcher F.payload).1 → d.val ≠ (fletcher F.payload).2 →
      processByte cfg rc (feed cfg ready s (F.header ++ F.payload)).1 c =
        ((feed cfg ready s (F.header ++ F.payload)).1.setState AwaProtocol.FLETCHER2, []) ∧
      processByte cfg rd
          ((feed cfg ready s (F.header ++ F.payload)).1.setState AwaProtocol.FLETCHER2) d =
        ((feed cfg ready s (F.header ++ F.payload)).1.setState AwaProtocol.HEADER_A, [])) ∧
    (∀ t : State,
      (t.setState AwaProtocol.HEADER_A).base = t.base ∧
      (t.setState AwaProtocol.HEADER_A).stats = t.stats ∧
      (t.setState AwaProtocol.HEADER_A).calibrationConfig = t.calibrationConfig ∧
      (t.setState AwaProtocol.HEADER_A).channelCorrection = t.channelCorrection ∧
      (t.setState AwaProtocol.HEADER_A).incoming = t.incoming ∧
      (t.setState AwaProtocol.HEADER_A).frameState.state = AwaProtocol.HEADER_A) := by
  obtain ⟨h1, h2, h3, h4, -, h6, -⟩ := feed_payload cfg ready s F hs hwf
  refine ⟨h2, h3, h4, h1, h6, ?_, ?_, fun t => ⟨rfl, rfl, rfl, rfl, rfl, rfl⟩⟩
  · intro hc
    rw [step_F1 _ _ _ _ h2, h3, if_pos hc]
  · intro hc hd
    constructor
    · rw [step_F1 _ _ _ _ h2, h3, if_neg (not_not.mpr hc)]
    · have hf : ((feed cfg ready s (F.header ++ F.payload)).1.setState
          AwaProtocol.FLETCHER2).frameState.fletcher2 = (fletcher F.payload).2 := h4
      rw [step_F2 _ _ _ _ rfl, hf, if_neg hd]
      rfl

/-- C4, checked on the two-pixel sample frame (trailing bytes `06 0A`) with the strip ready: a
wrong first byte `07` adds no event to the reallocation and the two pixel writes and leaves both
pixels in the buffer; a wrong second byte `0B` after the right first one adds no event either. -/
theorem C4_trailing_checksum_mismatch_discards_frame_witness :
    (feed sampleRgb (fun _ => true) (State.initial sampleRgb sampleCal)
      (sampleFrame.header ++ sampleFrame.payload ++ [7])).2 =
      [Event.initLedStrip 2, Event.SetPixelColor 0 (PixelColor.rgb 255 0 0),
        Event.SetPixelColor 1 (PixelColor.rgb 1 2 3)] ∧
    (processByte sampleRgb true
      ((feed sampleRgb (fun _ => true) (State.initial sampleRgb sampleCal)
        (sampleFrame.header ++ sampleFrame.payload)).1.setState AwaProtocol.FLETCHER2) 0x0B).2
      = [] ∧
    (processByte sampleRgb true
      (feed sampleRgb (fun _ => true) (State.initial sampleRgb sampleCal)
        (sampleFrame.header ++ sampleFrame.payload)).1 7).1.base.ledStrip =
      some [PixelColor.rgb 255 0 0, PixelColor.rgb 1 2 3] :=
  have h := C4_trailing_checksum_mismatch_discards_frame sampleRgb (fun _ => true)
    (State.initial sampleRgb sampleCal) sampleFrame 6 0x0B true true rfl (by decide)
  have h7 := C4_trailing_checksum_mismatch_discards_frame sampleRgb (fun _ => true)
    (State.initial sampleRgb sampleCal) sampleFrame 7 0x0B true true rfl (by decide)
  ⟨by decide, by rw [(h.2.2.2.2.2.2.1 (by decide) (by decide)).2],
    by rw [h7.2.2.2.2.2.1 (by decide)]; decide⟩

/-- C5: a well-formed version-2 frame (third marker byte `'A'`, valid header, `N` RGB triples,
the bytes `gain red green blue`, the Fletcher bytes over colour and calibration bytes) processed
from any state whose protocol state is `HEADER_A` makes exactly `N` pixel writes, completes once
with `protocolVersion2 = true` and leaves `incoming = (gain, red, green, blue)`.  The same bytes
with third marker byte `'a'` produce no version-2 completion, stage nothing in `incoming` and
leave the calibration parameters and tables as they were. -/
theorem C5_v2_frame_stages_calibration (cfg : Config) (ready : Nat → Bool) (s : State)
    (F : Frame) (hv2 : F.version2 = true) (hwf : F.WellFormed)
    (hs : s.frameState.state = AwaProtocol.HEADER_A) :
    F.bytes =
      [65, 119, 65, F.countHigh, F.countLow,
        Fin.ofNat (F.countHigh.val ^^^ F.countLow.val ^^^ 0x55)] ++
      colourBytes F.pixels ++ [F.gain, F.red, F.green, F.blue] ++
      [Fin.ofNat (fletcher (colourBytes F.pixels ++ [F.gain, F.red, F.green, F.blue])).1,
        Fin.ofNat (fletcher (colourBytes F.pixels ++ [F.gain, F.red, F.green, F.blue])).2] ∧
    (feed cfg ready s F.bytes).2 =
      initEvents s F ++ pixelWrites cfg s.channelCorrection 0 F.pixels ++
        Event.wantShow true ::
          showEvents (ready (F.bytes.length - 1)) (stripAfterFrame cfg s F) ∧
    countPixelWrites (feed cfg ready s F.bytes).2 = F.countHigh.val * 256 + F.countLow.val + 1 ∧
    countComplete (feed cfg ready s F.bytes).2 = 1 ∧
    (feed cfg ready s F.bytes).1.frameState.protocolVersion2 = true ∧
    (feed cfg ready s F.bytes).1.incoming = ⟨F.gain.val, F.red.val, F.green.val, F.blue.val⟩ ∧
    (∀ e ∈ (feed cfg ready s
        ([65, 119, 97, F.countHigh, F.countLow,
          Fin.ofNat (F.countHigh.val ^^^ F.countLow.val ^^^ 0x55)] ++
        F.payload ++ F.trailer)).2, e ≠ Event.wantShow true) ∧
    (feed cfg ready s
        ([65, 119, 97, F.countHigh, F.countLow,
          Fin.ofNat (F.countHigh.val ^^^ F.countLow.val ^^^ 0x55)] ++
        F.payload ++ F.trailer)).1.incoming = s.incoming ∧
    (feed cfg ready s
        ([65, 119, 97, F.countHigh, F.countLow,
          Fin.ofNat (F.countHigh.val ^^^ F.countLow.val ^^^ 0x55)] ++
        F.payload ++ F.trailer)).1.calibrationConfig = s.calibrationConfig ∧
    (feed cfg ready s
        ([65, 119, 97, F.countHigh, F.countLow,
          Fin.ofNat (F.countHigh.val ^^^ F.countLow.val ^^^ 0x55)] ++
        F.payload ++ F.trailer)).1.channelCorrection = s.channelCorrection := by
  obtain ⟨h1, -, h3, -, -, -, -, h8⟩ := feed_frame cfg ready s F hs hwf
  obtain ⟨c1, c2⟩ := count_frame cfg ready s F hs hwf
  have hidx : F.bytes.length - 1 = F.payload.length + 7 := by rw [bytes_length]; omega
  have hd : F.declared = F.countHigh.val * 256 + F.countLow.val + 1 := rfl
  -- the version-1 reading of the same bytes
  have hwf1 : ({ F with version2 := false } : Frame).WellFormed := hwf
  have hbytes : [65, 119, 97, F.countHigh, F.countLow,
        Fin.ofNat (F.countHigh.val ^^^ F.countLow.val ^^^ 0x55)] ++ F.payload ++ F.trailer =
      (({ F with version2 := false } : Frame).header ++
        ({ F with version2 := false } : Frame).payload) ++
      (F.gain :: F.red :: ([F.green, F.blue] ++ F.trailer)) := by
    simp [Frame.header, Frame.payload, Frame.marker, hv2, headerChecksum]
  obtain ⟨p1, p2, -, -, p5, -, -, -, -, p10, p11, p12⟩ :=
    feed_payload cfg ready s { F with version2 := false } hs hwf1
  obtain ⟨t1, t2, t3, t4⟩ := feed_v1_tail cfg
    (fun j => ready (j + (({ F with version2 := false } : Frame).header ++
        ({ F with version2 := false } : Frame).payload).length))
    (feed cfg ready s (({ F with version2 := false } : Frame).header ++
        ({ F with version2 := false } : Frame).payload)).1
    F.gain F.red ([F.green, F.blue] ++ F.trailer) p2 p5 (by simp [Frame.trailer])
  refine ⟨?_, ?_, ?_, c2, ?_, ?_, ?_, ?_, ?_, ?_⟩
  · simp [Frame.bytes, Frame.header, Frame.payload, Frame.trailer, Frame.marker, hv2,
      headerChecksum]
  · rw [h1, hidx, hv2]
  · rw [c1, hd]
  · rw [h3, hv2]
  · rw [h8, hv2]; rfl
  · intro e he
    rw [hbytes, feed_append] at he
    simp only [List.mem_append] at he
    rcases he with he | he
    · rw [p1] at he
      simp only [List.mem_append] at he
      rcases he with he | he
      · unfold initEvents at he
        split_ifs at he <;> simp at he
        rw [he]; simp
      · intro hcontra
        rw [hcontra] at he
        have := (count_pixelWrites cfg s.channelCorrection F.pixels 0).2
        exact absurd he (not_mem_of_countComplete_zero _ this true)
    · exact t1 e he
  · rw [hbytes, feed_append]; simp only; rw [t2, p10]; rfl
  · rw [hbytes, feed_append]; simp only; rw [t3, p11]
  · rw [hbytes, feed_append]; simp only; rw [t4, p12]

/-- C5, checked on the one-pixel version-2 sample frame in the 4-channel sample build: one
reallocation, one pixel write, one version-2 completion, and the calibration bytes `9 8 7 6` are
staged. -/
theorem C5_v2_frame_stages_calibration_witness :
    (feed sampleRgbw (fun _ => false) (State.initial sampleRgbw sampleCal)
      sampleFrame2.bytes).2 =
      [Event.initLedStrip 1, Event.SetPixelColor 0 (PixelColor.rgbw 0 10 20 255),
        Event.wantShow true] ∧
    (feed sampleRgbw (fun _ => false) (State.initial sampleRgbw sampleCal)
      sampleFrame2.bytes).1.incoming = ⟨9, 8, 7, 6⟩ :=
  have h := C5_v2_frame_stages_calibration sampleRgbw (fun _ => false)
    (State.initial sampleRgbw sampleCal) sampleFrame2 rfl (by decide) rfl
  ⟨h.2.1.trans (by decide), h.2.2.2.2.2.1⟩

/-- C6: `addFletcher` applied to the bytes `b_1 .. b_n` in order, from `fletcher1 = fletcher2 =
0`, leaves `fletcher1 = (b_1 + ... + b_n) mod 255` and
`fletcher2 = (n*b_1 + (n-1)*b_2 + ... + 1*b_n) mod 255`; every intermediate sum formed on
the way is below 2^16; and in the parser the accumulators that meet the trailing checksum bytes
are these sums over the payload of the frame, that is the colour bytes followed, for version 2,
by the four calibration bytes (no marker or header byte is included). -/
theorem C6_fletcher_accumulators_closed_form (f : FrameState) (payload : List Byte) :
    (payload.foldl FrameState.addFletcher { f with fletcher1 := 0, fletcher2 := 0 }).fletcher1 =
      (payload.map Fin.val).sum % 255 ∧
    (payload.foldl FrameState.addFletcher { f with fletcher1 := 0, fletcher2 := 0 }).fletcher2 =
      weightedSum payload % 255 ∧
    (∀ b1 b2 b3 : Byte, weightedSum [b1, b2, b3] = 3 * b1.val + 2 * b2.val + 1 * b3.val) ∧
    (∀ (pre post : List Byte) (b : Byte), payload = pre ++ b :: post →
      (pre.foldl FrameState.addFletcher { f with fletcher1 := 0, fletcher2 := 0 }).fletcher1 +
        b.val < 65536 ∧
      (pre.foldl FrameState.addFletcher { f with fletcher1 := 0, fletcher2 := 0 }).fletcher2 +
        ((pre.foldl FrameState.addFletcher { f with fletcher1 := 0, fletcher2 := 0 }).fletcher1 +
          b.val) % 255 < 65536) ∧
    (∀ (cfg : Config) (ready : Nat → Bool) (s : State) (F : Frame),
      s.frameState.state = AwaProtocol.HEADER_A → F.WellFormed →
      F.payload =
        colourBytes F.pixels ++ (if F.version2 then [F.gain, F.red, F.green, F.blue] else []) ∧
      (feed cfg ready s (F.header ++ F.payload)).1.frameState.state = AwaProtocol.FLETCHER1 ∧
      (feed cfg ready s (F.header ++ F.payload)).1.frameState.fletcher1 =
        (F.payload.map Fin.val).sum % 255 ∧
      (feed cfg ready s (F.header ++ F.payload)).1.frameState.fletcher2 =
        weightedSum F.payload % 255) := by
  have key : ∀ bs : List Byte,
      (bs.foldl FrameState.addFletcher { f with fletcher1 := 0, fletcher2 := 0 }).fletcher1 =
        (fletcher bs).1 ∧
      (bs.foldl FrameState.addFletcher { f with fletcher1 := 0, fletcher2 := 0 }).fletcher2 =
        (fletcher bs).2 := by
    intro bs
    have h := foldl_addFletcher bs { f with fletcher1 := 0, fletcher2 := 0 }
    exact ⟨congrArg Prod.fst h, congrArg Prod.snd h⟩
  refine ⟨?_, ?_, ?_, ?_, ?_⟩
  · rw [(key payload).1, (fletcher_closed payload).1]
  · rw [(key payload).2, (fletcher_closed payload).2]
  · intro b1 b2 b3; simp [weightedSum]; omega
  · intro pre post b _
    rw [(key pre).1, (key pre).2]
    obtain ⟨l1, l2⟩ := fletcher_lt pre
    have hb := b.isLt
    constructor
    · omega
    · have := Nat.mod_lt ((fletcher pre).1 + b.val) (show 255 > 0 by decide)
      omega
  · intro cfg ready s F hs hwf
    obtain ⟨-, h2, h3, h4, -⟩ := feed_payload cfg ready s F hs hwf
    exact ⟨rfl, h2, by rw [h3, (fletcher_closed _).1], by rw [h4, (fletcher_closed _).2]⟩

/-- C6, checked on the payload `FF 00 00 01 02 03` of the sample frame: the sums are 6 and 10,
and the parser holds them when the trailing bytes of the frame arrive. -/
theorem C6_fletcher_accumulators_closed_form_witness :
    (([255, 0, 0, 1, 2, 3] : List Byte).foldl FrameState.addFletcher
      { (State.initial sampleRgb sampleCal).frameState with
        fletcher1 := 0, fletcher2 := 0 }).fletcher1 = 6 ∧
    (feed sampleRgb (fun _ => false) (State.initial sampleRgb sampleCal)
      (sampleFrame.header ++ sampleFrame.payload)).1.frameState.fletcher2 = 10 :=
  have h := C6_fletcher_accumulators_closed_form
    (State.initial sampleRgb sampleCal).frameState [255, 0, 0, 1, 2, 3]
  ⟨h.1.trans (by decide),
    (h.2.2.2.2 sampleRgb (fun _ => false) (State.initial sampleRgb sampleCal) sampleFrame rfl
      (by decide)).2.2.2.trans (by decide)⟩

/-- C7: replacing one payload byte `b` by a different value `v` changes the pair
`(fletcher1, fletcher2)` that `addFletcher` computes over the payload, except exactly when
`{b, v} = {0, 255}`; so of the 255 replacement values for a given position at most one leaves
both accumulators unchanged, and a receiver whose accumulators ran over the mutated payload
completes the frame on the sender's trailing bytes only in that case. -/
theorem C7_single_byte_mutation_detected (pre post : List Byte) (b v : Byte) (hv : v ≠ b) :
    (fletcherRun (pre ++ v :: post) = fletcherRun (pre ++ b :: post) ↔
      (b.val = 0 ∧ v.val = 255) ∨ (b.val = 255 ∧ v.val = 0)) ∧
    (Finset.univ.filter (fun w : Byte =>
      w ≠ b ∧ fletcherRun (pre ++ w :: post) = fletcherRun (pre ++ b :: post))).card ≤ 1 ∧
    (Finset.univ.filter (fun w : Byte => w ≠ b)).card = 255 ∧
    (∀ (cfg : Config) (ready : Nat → Bool) (t : State),
      t.frameState.state = AwaProtocol.FLETCHER1 →
      (t.frameState.fletcher1, t.frameState.fletcher2) = fletcherRun (pre ++ v :: post) →
      countComplete (feed cfg ready t
        [Fin.ofNat (fletcherRun (pre ++ b :: post)).1,
          Fin.ofNat (fletcherRun (pre ++ b :: post)).2]).2 =
        if (b.val = 0 ∧ v.val = 255) ∨ (b.val = 255 ∧ v.val = 0) then 1 else 0) := by
  have hiff : ∀ w : Byte, w ≠ b →
      (fletcherRun (pre ++ w :: post) = fletcherRun (pre ++ b :: post) ↔
        (b.val = 0 ∧ w.val = 255) ∨ (b.val = 255 ∧ w.val = 0)) := by
    intro w hw
    rw [fletcherRun_eq, fletcherRun_eq, fletcher_mutation]
    have h1 := w.isLt
    have h2 := b.isLt
    have hne : w.val ≠ b.val := fun h => hw (Fin.ext h)
    omega
  refine ⟨hiff v hv, ?_, ?_, ?_⟩
  · apply Finset.card_le_one.mpr
    intro x hx y hy
    simp only [Finset.mem_filter, Finset.mem_univ, true_and] at hx hy
    have h1 := (hiff x hx.1).mp hx.2
    have h2 := (hiff y hy.1).mp hy.2
    apply Fin.ext
    omega
  · rw [Finset.filter_ne', Finset.card_erase_of_mem (Finset.mem_univ b), Finset.card_univ,
      Fintype.card_fin]
  · intro cfg ready t hs hacc
    obtain ⟨l1, l2⟩ := fletcher_lt (pre ++ b :: post)
    rw [← fletcherRun_eq] at l1 l2
    rw [trailer_check cfg ready t _ _ l1 l2 hs]
    have e : (t.frameState.fletcher1 = (fletcherRun (pre ++ b :: post)).1 ∧
        t.frameState.fletcher2 = (fletcherRun (pre ++ b :: post)).2) ↔
        fletcherRun (pre ++ v :: post) = fletcherRun (pre ++ b :: post) := by
      rw [← hacc, Prod.ext_iff]
    simp only [e, hiff v hv]

/-- C7, checked on the payload `01 02 03`: replacing the middle byte by `04` changes the pair. -/
theorem C7_single_byte_mutation_detected_witness :
    fletcherRun [1, 4, 3] ≠ fletcherRun [1, 2, 3] :=
  fun h => absurd
    ((C7_single_byte_mutation_detected [1] [3] 2 4 (by decide)).1.mp h) (by decide)

/-- C8: with a strip that never reports ready, two well-formed frames `F1`, `F2` fed back to
back from the start-up state issue no `Show`, leave the render request set, and leave in the pixel
buffer exactly the colours of the triples of `F2`, index by index (computed with the tables in
force while `F2` was parsed; in the 3-channel builds the triples themselves); the first
`renderLeds` that finds the strip ready then shows exactly this buffer. -/
theorem C8_two_frames_coalesce (cfg : Config) (cal0 : CalibrationConfig) (F1 F2 : Frame)
    (h1 : F1.WellFormed) (h2 : F2.WellFormed) :
    (∀ e ∈ (feed cfg (fun _ => false) (State.initial cfg cal0) (F1.bytes ++ F2.bytes)).2,
      ∀ buf, e ≠ Event.Show buf) ∧
    (feed cfg (fun _ => false) (State.initial cfg cal0) (F1.bytes ++ F2.bytes)).1.base.wantShow
      = true ∧
    (feed cfg (fun _ => false) (State.initial cfg cal0) (F1.bytes ++ F2.bytes)).1.base.ledStrip =
      some (F2.pixels.map (pixelColor cfg
        (feed cfg (fun _ => false) (State.initial cfg cal0) F1.bytes).1.channelCorrection)) ∧
    (cfg.NEOPIXEL_RGBW = false →
      (feed cfg (fun _ => false) (State.initial cfg cal0)
        (F1.bytes ++ F2.bytes)).1.base.ledStrip =
        some (F2.pixels.map (fun p => PixelColor.rgb p.1.val p.2.1.val p.2.2.val))) ∧
    (renderLeds true
      (feed cfg (fun _ => false) (State.initial cfg cal0) (F1.bytes ++ F2.bytes)).1).2 =
      [Event.Show (F2.pixels.map (pixelColor cfg
        (feed cfg (fun _ => false) (State.initial cfg cal0) F1.bytes).1.channelCorrection))] ∧
    (feed cfg (fun _ => false) (State.initial cfg cal0)
      (F1.bytes ++ F2.bytes)).1.frameState.state = AwaProtocol.HEADER_A := by
  obtain ⟨a1, a2, -, a4, a5, -⟩ :=
    feed_frame cfg (fun _ => false) (State.initial cfg cal0) F1 rfl h1
  have hstrip1 := stripAfterFrame_full cfg (State.initial cfg cal0) F1 h1
    (by intro buf hb; simp [State.initial] at hb) (by intro _; rfl)
  rw [hstrip1] at a4
  have hlen1 : F1.pixels.length = F1.declared := h1
  obtain ⟨b1, b2, -, b4, -, b6, -⟩ :=
    feed_frame cfg (fun _ => false)
      (feed cfg (fun _ => false) (State.initial cfg cal0) F1.bytes).1 F2 a2 h2
  have hstrip2 := stripAfterFrame_full cfg
    (feed cfg (fun _ => false) (State.initial cfg cal0) F1.bytes).1 F2 h2
    (by intro buf hb; rw [a4] at hb; rw [a5]
        simp only [Option.some.injEq] at hb
        rw [← hb, List.length_map, hlen1])
    (by intro hb; rw [a4] at hb; simp at hb)
  rw [hstrip2] at b4
  have happ : feed cfg (fun _ => false) (State.initial cfg cal0) (F1.bytes ++ F2.bytes) =
      ((feed cfg (fun _ => false)
          (feed cfg (fun _ => false) (State.initial cfg cal0) F1.bytes).1 F2.bytes).1,
        (feed cfg (fun _ => false) (State.initial cfg cal0) F1.bytes).2 ++
          (feed cfg (fun _ => false)
            (feed cfg (fun _ => false) (State.initial cfg cal0) F1.bytes).1 F2.bytes).2) :=
    feed_append cfg F1.bytes F2.bytes (fun _ => false) (State.initial cfg cal0)
  rw [happ]
  simp only
  refine ⟨?_, ?_, b4, ?_, ?_, b2⟩
  · intro e he buf hcontra
    rw [a1, b1, showEvents_false, showEvents_false, hcontra] at he
    simp only [List.mem_append, List.mem_cons, List.not_mem_nil, or_false] at he
    have hp : ∀ (t : ChannelCorrection) (px : List Rgb) (i : Nat),
        Event.Show buf ∉ pixelWrites cfg t i px := by
      intro t px
      induction px with
      | nil => intro i; simp [pixelWrites]
      | cons p ps ih => intro i; simp [pixelWrites, ih]
    have hi : ∀ (s : State) (F : Frame), Event.Show buf ∉ initEvents s F := by
      intro s F; unfold initEvents; split_ifs <;> simp
    rcases he with (((he | he) | he) | ((he | he) | he))
    · exact hi _ _ he
    · exact hp _ _ _ he
    · cases he
    · exact hi _ _ he
    · exact hp _ _ _ he
    · cases he
  · rw [b6]; rfl
  · intro hrgb
    rw [b4]
    congr 1
    apply List.map_congr_left
    intro p _
    exact pixelColor_rgb cfg _ p hrgb
  · rw [renderLeds_eq, b4, b6]
    simp [showEvents]

/-- C8, checked on the two-pixel sample frame followed by the one-pixel black frame in the
3-channel sample build: the buffer ends as the single black pixel of the second frame. -/
theorem C8_two_frames_coalesce_witness :
    (feed sampleRgb (fun _ => false) (State.initial sampleRgb sampleCal)
      (sampleFrame.bytes ++ blackFrame.bytes)).1.base.ledStrip = some [PixelColor.rgb 0 0 0] ∧
    (feed sampleRgb (fun _ => false) (State.initial sampleRgb sampleCal)
      (sampleFrame.bytes ++ blackFrame.bytes)).2 =
      [Event.initLedStrip 2, Event.SetPixelColor 0 (PixelColor.rgb 255 0 0),
        Event.SetPixelColor 1 (PixelColor.rgb 1 2 3), Event.wantShow false,
        Event.initLedStrip 1, Event.SetPixelColor 0 (PixelColor.rgb 0 0 0),
        Event.wantShow false] :=
  ⟨((C8_two_frames_coalesce sampleRgb sampleCal sampleFrame blackFrame (by decide)
      (by decide)).2.2.2.1 rfl).trans (by decide), by decide⟩

/-- C9: `renderLeds` issues exactly one `Show`, clears `wantShow` and increments `goodFrames`
(a `uint16_t`, so modulo 2^16) when `wantShow` is set, the strip is allocated and `CanShow`
answers true; in every other case it issues nothing and changes nothing, so a set flag stays set
while the hardware is not ready. -/
theorem C9_renderLeds_gate (canShow : Bool) (s : State) :
    (s.base.wantShow = true ∧ s.base.ledStrip ≠ none ∧ canShow = true →
      ∃ buf, s.base.ledStrip = some buf ∧
        renderLeds canShow s =
          ({ s with
              stats := { s.stats with goodFrames := (s.stats.goodFrames + 1) % 65536 }
              base := { s.base with wantShow := false } },
           [Event.Show buf])) ∧
    (¬ (s.base.wantShow = true ∧ s.base.ledStrip ≠ none ∧ canShow = true) →
      renderLeds canShow s = (s, [])) ∧
    (s.stats.goodFrames < 65535 → (s.stats.goodFrames + 1) % 65536 = s.stats.goodFrames + 1) ∧
    (s.base.wantShow = true → canShow = false →
      (renderLeds canShow s).1.base.wantShow = true ∧ (renderLeds canShow s).2 = []) := by
  refine ⟨?_, ?_, ?_, ?_⟩
  · rintro ⟨hw, hl, hc⟩
    cases hb : s.base.ledStrip with
    | none => exact absurd hb hl
    | some buf =>
      refine ⟨buf, rfl, ?_⟩
      simp [renderLeds, hb, hw, hc]
  · intro h
    unfold renderLeds
    cases hb : s.base.ledStrip with
    | none => rfl
    | some buf =>
      have : ¬ (s.base.wantShow = true ∧ canShow = true) := by
        intro hh
        exact h ⟨hh.1, by rw [hb]; simp, hh.2⟩
      simp only [this, if_false]
  · intro h; omega
  · intro hw hc
    unfold renderLeds
    cases hb : s.base.ledStrip <;> simp [hc, hw]

/-- C9, checked on a state with a pending render request, a one-pixel strip and 7 good frames:
one `Show`, the flag cleared, 8 good frames. -/
theorem C9_renderLeds_gate_witness :
    (renderLeds true
      { State.initial sampleRgb sampleCal with
        stats := ⟨0, 7, 9, 0, 0⟩, base := ⟨1, some [PixelColor.rgb 1 2 3], true⟩ }).2 =
      [Event.Show [PixelColor.rgb 1 2 3]] ∧
    (renderLeds true
      { State.initial sampleRgb sampleCal with
        stats := ⟨0, 7, 9, 0, 0⟩, base := ⟨1, some [PixelColor.rgb 1 2 3], true⟩ }).1.base.wantShow
      = false ∧
    (renderLeds true
      { State.initial sampleRgb sampleCal with
        stats := ⟨0, 7, 9, 0, 0⟩,
        base := ⟨1, some [PixelColor.rgb 1 2 3], true⟩ }).1.stats.goodFrames = 8 := by
  obtain ⟨buf, hb, h⟩ := (C9_renderLeds_gate true
    { State.initial sampleRgb sampleCal with
      stats := ⟨0, 7, 9, 0, 0⟩, base := ⟨1, some [PixelColor.rgb 1 2 3], true⟩ }).1
    ⟨rfl, by simp, rfl⟩
  rw [h]
  cases hb
  exact ⟨rfl, rfl, rfl⟩

/-- C10: over every step of the system (one input byte processed, or one `renderLeds` call),
`wantShow` goes from false to true only when a byte is processed in state `FLETCHER2` and
equals `fletcher2` (and the assignment `wantShow = true` is made nowhere else); `FLETCHER2` is
entered only from `FLETCHER1` on a byte equal to `fletcher1`, `RED` only from `HEADER_CRC` on a
byte equal to the header checksum (or from `BLUE`), and the header states only in marker and
header order; `wantShow` goes from true to false only in a step that issues `Show`; and in every
run from the start-up state each `Show` is preceded by a frame completion. -/
theorem C10_render_request_set_and_cleared (cfg : Config) :
    (∀ (s : State) (a : Action), s.base.wantShow = false →
      (act cfg s a).1.base.wantShow = true →
      ∃ b c, a = Action.byte b c ∧ s.frameState.state = AwaProtocol.FLETCHER2 ∧
        b.val = s.frameState.fletcher2) ∧
    (∀ (s : State) (a : Action) (v : Bool), Event.wantShow v ∈ (act cfg s a).2 →
      ∃ b c, a = Action.byte b c ∧ s.frameState.state = AwaProtocol.FLETCHER2 ∧
        b.val = s.frameState.fletcher2) ∧
    (∀ (c : Bool) (s : State) (b : Byte),
      ((processByte cfg c s b).1.frameState.state = AwaProtocol.FLETCHER2 →
        s.frameState.state = AwaProtocol.FLETCHER1 ∧ b.val = s.frameState.fletcher1) ∧
      ((processByte cfg c s b).1.frameState.state = AwaProtocol.RED →
        (s.frameState.state = AwaProtocol.HEADER_CRC ∧ s.frameState.CRC = b.val) ∨
          s.frameState.state = AwaProtocol.BLUE) ∧
      ((processByte cfg c s b).1.frameState.state = AwaProtocol.HEADER_CRC →
        s.frameState.state = AwaProtocol.HEADER_LO) ∧
      ((processByte cfg c s b).1.frameState.state = AwaProtocol.HEADER_LO →
        s.frameState.state = AwaProtocol.HEADER_HI) ∧
      ((processByte cfg c s b).1.frameState.state = AwaProtocol.HEADER_HI →
        s.frameState.state = AwaProtocol.HEADER_a ∧ (b = 97 ∨ b = 65)) ∧
      ((processByte cfg c s b).1.frameState.state = AwaProtocol.HEADER_a →
        s.frameState.state = AwaProtocol.HEADER_w ∧ b = 119) ∧
      ((processByte cfg c s b).1.frameState.state = AwaProtocol.HEADER_w →
        s.frameState.state = AwaProtocol.HEADER_A ∧ b = 65)) ∧
    (∀ (s : State) (a : Action), s.base.wantShow = true →
      (act cfg s a).1.base.wantShow = false → ∃ buf, Event.Show buf ∈ (act cfg s a).2) ∧
    (∀ (cal0 : CalibrationConfig) (acts : List Action) (pre : List Event)
      (buf : List PixelColor) (post : List Event),
      (run cfg (State.initial cfg cal0) acts).2 = pre ++ Event.Show buf :: post →
      ∃ v, Event.wantShow v ∈ pre) := by
  have hcomplete : ∀ (s : State) (a : Action),
      (¬ ∃ b c, a = Action.byte b c ∧ s.frameState.state = AwaProtocol.FLETCHER2 ∧
        b.val = s.frameState.fletcher2) →
      (s.base.wantShow = false → (act cfg s a).1.base.wantShow = false) ∧
      (∀ v, Event.wantShow v ∉ (act cfg s a).2) := by
    intro s a hn
    cases a with
    | render c =>
      simp only [act]
      rw [renderLeds_eq]
      constructor
      · intro hw; simp [hw]
      · intro v hmem
        split_ifs at hmem
        · obtain ⟨buf, hb, -⟩ := showEvents_mem _ _ _ hmem
          cases hb
        · cases hmem
    | byte b c =>
      simp only [act]
      obtain ⟨n1, n2⟩ := step_not_complete cfg c s b (by
        by_cases h1 : s.frameState.state = AwaProtocol.FLETCHER2
        · exact Or.inr (fun h2 => hn ⟨b, c, rfl, h1, h2⟩)
        · exact Or.inl h1)
      exact ⟨fun hw => by rw [n1, hw], fun v hmem => (n2 _ hmem).2 v rfl⟩
  refine ⟨?_, ?_, ?_, ?_, ?_⟩
  · intro s a hw hset
    by_contra hn
    have := (hcomplete s a hn).1 hw
    rw [this] at hset
    cases hset
  · intro s a v hmem
    by_contra hn
    exact (hcomplete s a hn).2 v hmem
  · intro c s b
    obtain ⟨p1, p2, p3, p4, p5, p6, p7⟩ := step_predecessor cfg c s b
    exact ⟨p7, p6, p5, p4, p3, p2, p1⟩
  · intro s a hw hclear
    cases a with
    | render c =>
      simp only [act] at hclear ⊢
      rw [renderLeds_eq] at hclear ⊢
      split_ifs at hclear ⊢ with hc
      · cases hb : s.base.ledStrip with
        | none => rw [hb] at hc; simp at hc
        | some buf => exact ⟨buf, by simp [showEvents, hc.2.1]⟩
      · rw [hw] at hclear; cases hclear
    | byte b c =>
      simp only [act] at hclear ⊢
      by_cases h : s.frameState.state = AwaProtocol.FLETCHER2 ∧ b.val = s.frameState.fletcher2
      · obtain ⟨k1, -, k3, -⟩ := step_F2_hit cfg c s b h.1 h.2
        rw [k3] at hclear
        simp only [Bool.not_eq_false', Bool.and_eq_true] at hclear
        cases hb : s.base.ledStrip with
        | none => rw [hb] at hclear; simp at hclear
        | some buf =>
          refine ⟨buf, ?_⟩
          rw [k1, hclear.1]
          simp [showEvents, hb]
      · obtain ⟨n1, -⟩ := step_not_complete cfg c s b (by
          by_cases h1 : s.frameState.state = AwaProtocol.FLETCHER2
          · exact Or.inr (fun h2 => h ⟨h1, h2⟩)
          · exact Or.inl h1)
        rw [n1, hw] at hclear
        cases hclear
  · intro cal0 acts pre buf post h
    exact run_show_after_complete cfg acts (State.initial cfg cal0) rfl pre buf post h

/-- C10, checked on the run that processes the two-pixel sample frame with the strip ready: the
`Show` issued while the last byte is processed comes after the completion of the frame. -/
theorem C10_render_request_set_and_cleared_witness :
    ∃ v, Event.wantShow v ∈
      [Event.initLedStrip 2, Event.SetPixelColor 0 (PixelColor.rgb 255 0 0),
        Event.SetPixelColor 1 (PixelColor.rgb 1 2 3), Event.wantShow false] :=
  (C10_render_request_set_and_cleared sampleRgb).2.2.2.2 sampleCal
    (sampleFrame.bytes.map (fun b => Action.byte b true))
    [Event.initLedStrip 2, Event.SetPixelColor 0 (PixelColor.rgb 255 0 0),
      Event.SetPixelColor 1 (PixelColor.rgb 1 2 3), Event.wantShow false]
    [PixelColor.rgb 255 0 0, PixelColor.rgb 1 2 3] [] (by decide)

/-- C11: a well-formed frame fed twice in a row from any state whose protocol state is
`HEADER_A` calls `initLedStrip` at no byte of the second copy, and `ledsNumber` after the second
copy is what it was after the first, `countHigh*256 + countLow + 1`. -/
theorem C11_resent_frame_does_not_reallocate (cfg : Config) (ready : Nat → Bool) (s : State)
    (F : Frame) (hwf : F.WellFormed) (hs : s.frameState.state = AwaProtocol.HEADER_A) :
    (feed cfg ready s (F.bytes ++ F.bytes)).2 =
      (feed cfg ready s F.bytes).2 ++
        (feed cfg (fun j => ready (j + F.bytes.length)) (feed cfg ready s F.bytes).1 F.bytes).2 ∧
    (∀ e ∈ (feed cfg (fun j => ready (j + F.bytes.length))
        (feed cfg ready s F.bytes).1 F.bytes).2, ∀ n, e ≠ Event.initLedStrip n) ∧
    (feed cfg ready s F.bytes).1.base.ledsNumber =
      ((F.countHigh.val * 256 + F.countLow.val + 1 : Nat) : Int) ∧
    (feed cfg ready s (F.bytes ++ F.bytes)).1.base.ledsNumber =
      (feed cfg ready s F.bytes).1.base.ledsNumber := by
  obtain ⟨-, a2, -, -, a5, -⟩ := feed_frame cfg ready s F hs hwf
  obtain ⟨b1, -, -, -, b5, -⟩ := feed_frame cfg (fun j => ready (j + F.bytes.length))
    (feed cfg ready s F.bytes).1 F a2 hwf
  have hd : F.declared = F.countHigh.val * 256 + F.countLow.val + 1 := rfl
  have hinit : initEvents (feed cfg ready s F.bytes).1 F = [] := by
    unfold initEvents
    rw [a5, if_neg (not_not.mpr rfl)]
  refine ⟨by rw [feed_append], ?_, by rw [a5, hd], ?_⟩
  · intro e he n hcontra
    rw [b1, hinit, hcontra] at he
    simp only [List.nil_append, List.mem_append, List.mem_cons] at he
    rcases he with he | he | he
    · exact not_init_mem_pixelWrites _ _ _ _ _ he
    · cases he
    · exact not_init_mem_showEvents _ _ _ he
  · rw [feed_append]
    simp only
    rw [b5, a5]

/-- C11, checked on the two-pixel sample frame sent twice to the start-up state: the strip is
allocated once, by the first copy. -/
theorem C11_resent_frame_does_not_reallocate_witness :
    (feed sampleRgb (fun _ => false) (State.initial sampleRgb sampleCal)
      (sampleFrame.bytes ++ sampleFrame.bytes)).2 =
      [Event.initLedStrip 2, Event.SetPixelColor 0 (PixelColor.rgb 255 0 0),
        Event.SetPixelColor 1 (PixelColor.rgb 1 2 3), Event.wantShow false,
        Event.SetPixelColor 0 (PixelColor.rgb 255 0 0),
        Event.SetPixelColor 1 (PixelColor.rgb 1 2 3), Event.wantShow false] :=
  (C11_resent_frame_does_not_reallocate sampleRgb (fun _ => false)
    (State.initial sampleRgb sampleCal) sampleFrame (by decide) rfl).1.trans (by decide)

/-- C13, as stated, fails: `0x00 ^ 0x04 ^ 0x55` is `0x51`, not `0x41`, so the header is rejected
at `HEADER_CRC`; with the triples `FF 00 00` and four black ones (Fletcher bytes `00 00`) no
pixel event and no frame completion is produced. -/
theorem C13_counterexample :
    headerChecksum 0 4 = 0x51 ∧
    fletcher (colourBytes [(255, 0, 0), (0, 0, 0), (0, 0, 0), (0, 0, 0), (0, 0, 0)]) = (0, 0) ∧
    countPixelWrites
      (feed sampleRgb (fun _ => true) (State.initial sampleRgb sampleCal)
        ([65, 119, 97, 0x00, 0x04, 0x41] ++
          colourBytes [(255, 0, 0), (0, 0, 0), (0, 0, 0), (0, 0, 0), (0, 0, 0)] ++ [0, 0])).2
      = 0 ∧
    countComplete
      (feed sampleRgb (fun _ => true) (State.initial sampleRgb sampleCal)
        ([65, 119, 97, 0x00, 0x04, 0x41] ++
          colourBytes [(255, 0, 0), (0, 0, 0), (0, 0, 0), (0, 0, 0), (0, 0, 0)] ++ [0, 0])).2
      = 0 := by
  decide

/-- C13 (amended): fed from the start-up state, the bytes `'A' 'w' 'a' 00 04 51` (the header
checksum is `0x00 ^ 0x04 ^ 0x55 = 0x51`), five RGB triples beginning `FF 00 00` and the two
Fletcher bytes over the colour bytes produce the reallocation of the strip to 5 pixels, exactly
5 pixel writes at the indices 0..4 and then one frame completion with `protocolVersion2 =
false`. -/
theorem C13_five_pixel_scenario (cfg : Config) (ready : Nat → Bool) (cal0 : CalibrationConfig)
    (p2 p3 p4 p5 : Rgb) :
    (scenarioFrame p2 p3 p4 p5).bytes =
      [65, 119, 97, 0x00, 0x04, 0x51, 0xFF, 0x00, 0x00] ++ colourBytes [p2, p3, p4, p5] ++
        [Fin.ofNat (fletcher (colourBytes [(255, 0, 0), p2, p3, p4, p5])).1,
          Fin.ofNat (fletcher (colourBytes [(255, 0, 0), p2, p3, p4, p5])).2] ∧
    (feed cfg ready (State.initial cfg cal0) (scenarioFrame p2 p3 p4 p5).bytes).2 =
      Event.initLedStrip 5 ::
        (pixelWrites cfg (cfg.prepareCalibration cal0) 0 [(255, 0, 0), p2, p3, p4, p5] ++
          Event.wantShow false ::
            showEvents (ready 22)
              (some ([(255, 0, 0), p2, p3, p4, p5].map
                (pixelColor cfg (cfg.prepareCalibration cal0))))) ∧
    countPixelWrites
      (feed cfg ready (State.initial cfg cal0) (scenarioFrame p2 p3 p4 p5).bytes).2 = 5 ∧
    countComplete
      (feed cfg ready (State.initial cfg cal0) (scenarioFrame p2 p3 p4 p5).bytes).2 = 1 ∧
    (feed cfg ready (State.initial cfg cal0)
      (scenarioFrame p2 p3 p4 p5).bytes).1.frameState.protocolVersion2 = false := by
  have hwf := scenarioFrame_wf p2 p3 p4 p5
  obtain ⟨h1, -, h3, -⟩ := feed_frame cfg ready (State.initial cfg cal0) _ rfl hwf
  obtain ⟨c1, c2⟩ := count_frame cfg ready (State.initial cfg cal0) _ rfl hwf
  have hstrip := stripAfterFrame_full cfg (State.initial cfg cal0) _ hwf
    (initial_coherent cfg cal0).1 (initial_coherent cfg cal0).2
  have hd : (scenarioFrame p2 p3 p4 p5).declared = 5 := by
    show (0 : Byte).val * 256 + (4 : Byte).val + 1 = 5
    decide
  refine ⟨?_, ?_, c1.trans hd, c2, h3⟩
  · obtain ⟨r2, g2, b2⟩ := p2
    obtain ⟨r3, g3, b3⟩ := p3
    obtain ⟨r4, g4, b4⟩ := p4
    obtain ⟨r5, g5, b5⟩ := p5
    have hc : (Fin.ofNat (headerChecksum 0 4) : Byte) = 0x51 := by decide
    simp [Frame.bytes, Frame.header, Frame.payload, Frame.trailer, Frame.marker, scenarioFrame,
      hc, colourBytes]
  · have hi : initEvents (State.initial cfg cal0) (scenarioFrame p2 p3 p4 p5) =
        [Event.initLedStrip 5] := by
      unfold initEvents
      rw [hd, if_pos (by simp [State.initial])]
      rfl
    have hlen : (scenarioFrame p2 p3 p4 p5).payload.length + 7 = 22 := by
      simp [Frame.payload, scenarioFrame, colourBytes]
    rw [h1, hstrip, hi, hlen]
    rfl

/-- C14, as stated, fails: the second `'A'` of the stream `'A','A','w',...` is not re-tested as
a first marker byte; after `'A','A'` the parser is in `HEADER_A`, not `HEADER_w`, and the
well-formed one-pixel frame `A w a 00 00 55 00 00 00 00 00` fed after the single byte `'A'`
produces no frame completion. -/
theorem C14_counterexample :
    blackFrame.WellFormed ∧
    (feed sampleRgb (fun _ => true) (State.initial sampleRgb sampleCal)
      [65, 65]).1.frameState.state = AwaProtocol.HEADER_A ∧
    countComplete
      (feed sampleRgb (fun _ => true) (State.initial sampleRgb sampleCal)
        (65 :: blackFrame.bytes)).2 = 0 := by
  decide

/-- C14 (amended): a byte that fails to match in the second or third marker state is consumed,
not re-tested: whatever it is (also `'A'`), the parser goes to `HEADER_A`.  A well-formed frame
`F` that starts with the next byte is therefore completed: from any state in `HEADER_A`, the
stream `'A', x` with `x` different from `'w'`, or `'A','w', y` with `y` neither `'a'` nor `'A'`,
followed by `F` produces exactly one frame completion and the declared pixel writes during
`F`. -/
theorem C14_failed_marker_byte_is_consumed (cfg : Config) (ready : Nat → Bool) (s : State)
    (x y : Byte) (F : Frame) (hx : x ≠ 119) (hy : y ≠ 97 ∧ y ≠ 65) (hwf : F.WellFormed)
    (hs : s.frameState.state = AwaProtocol.HEADER_A) :
    (feed cfg ready s [65]).1.frameState.state = AwaProtocol.HEADER_w ∧
    (feed cfg ready s [65, x]).1.frameState.state = AwaProtocol.HEADER_A ∧
    (feed cfg ready s [65, 119]).1.frameState.state = AwaProtocol.HEADER_a ∧
    (feed cfg ready s [65, 119, y]).1.frameState.state = AwaProtocol.HEADER_A ∧
    (feed cfg ready s ([65, x] ++ F.bytes)).2 =
      (feed cfg (fun j => ready (j + 2)) (feed cfg ready s [65, x]).1 F.bytes).2 ∧
    countComplete (feed cfg ready s ([65, x] ++ F.bytes)).2 = 1 ∧
    countPixelWrites (feed cfg ready s ([65, x] ++ F.bytes)).2 = F.declared ∧
    countComplete (feed cfg ready s ([65, 119, y] ++ F.bytes)).2 = 1 ∧
    countPixelWrites (feed cfg ready s ([65, 119, y] ++ F.bytes)).2 = F.declared := by
  have e1 : feed cfg ready s [65] =
      ({ s with frameState := { s.frameState with
          protocolVersion2 := false, state := AwaProtocol.HEADER_w } }, []) := by
    rw [feed_single, step_A_hit cfg _ s hs]
  have e2 : feed cfg ready s [65, x] =
      ({ s with frameState := { s.frameState with
          protocolVersion2 := false, state := AwaProtocol.HEADER_A } }, []) := by
    rw [feed_cons, feed_single, step_A_hit cfg _ s hs]
    simp [processByte, hx, State.setState]
  have e3 : feed cfg ready s [65, 119] =
      ({ s with frameState := { s.frameState with
          protocolVersion2 := false, state := AwaProtocol.HEADER_a } }, []) := by
    rw [feed_cons, feed_single, step_A_hit cfg _ s hs]
    simp [processByte, State.setState]
  have e4 : feed cfg ready s [65, 119, y] =
      ({ s with frameState := { s.frameState with
          protocolVersion2 := false, state := AwaProtocol.HEADER_A } }, []) := by
    have : [65, 119, y] = [65, 119] ++ [y] := rfl
    rw [this, feed_append, e3, feed_single]
    simp [processByte, hy.1, hy.2, State.setState]
  obtain ⟨c1, c2⟩ := count_frame cfg (fun j => ready (j + 2)) (feed cfg ready s [65, x]).1 F
    (by rw [e2]) hwf
  obtain ⟨d1, d2⟩ := count_frame cfg (fun j => ready (j + 3)) (feed cfg ready s [65, 119, y]).1 F
    (by rw [e4]) hwf
  have a1 : (feed cfg ready s ([65, x] ++ F.bytes)).2 =
      (feed cfg (fun j => ready (j + 2)) (feed cfg ready s [65, x]).1 F.bytes).2 := by
    rw [feed_append, e2]; rfl
  have a2 : (feed cfg ready s ([65, 119, y] ++ F.bytes)).2 =
      (feed cfg (fun j => ready (j + 3)) (feed cfg ready s [65, 119, y]).1 F.bytes).2 := by
    rw [feed_append, e4]; rfl
  refine ⟨by rw [e1], by rw [e2], by rw [e3], by rw [e4], a1, ?_, ?_, ?_, ?_⟩
  · rw [a1, c2]
  · rw [a1, c1]
  · rw [a2, d2]
  · rw [a2, d1]

/-- C14 (amended), checked on the stream `'A','A'` followed by the two-pixel sample frame: the
second `'A'` is consumed and the frame that follows is completed. -/
theorem C14_failed_marker_byte_is_consumed_witness :
    countComplete
      (feed sampleRgb (fun _ => true) (State.initial sampleRgb sampleCal)
        ([65, 65] ++ sampleFrame.bytes)).2 = 1 ∧
    countPixelWrites
      (feed sampleRgb (fun _ => true) (State.initial sampleRgb sampleCal)
        ([65, 65] ++ sampleFrame.bytes)).2 = 2 :=
  have h := C14_failed_marker_byte_is_consumed sampleRgb (fun _ => true)
    (State.initial sampleRgb sampleCal) 65 0 sampleFrame (by decide) (by decide) (by decide) rfl
  ⟨h.2.2.2.2.2.1, h.2.2.2.2.2.2.1⟩

/-- C20, as stated, fails: with tables that scale by 160/255 the white pixel `FF FF FF` has the
pre-white amount `m = red[255] = 160`, and the emitted red channel is `255 - red[160] = 155`
(the table value at index `m` is subtracted), not `255 - m = 95`; the parser, fed the frame
`A w a 00 00 55 FF FF FF 00 00` from start-up, hands `(155, 155, 155, 160)` to the strip. -/
theorem C20_counterexample :
    min (lookup (scaledRgbw.prepareCalibration sampleCal).red 255)
      (min (lookup (scaledRgbw.prepareCalibration sampleCal).green 255)
        (lookup (scaledRgbw.prepareCalibration sampleCal).blue 255)) = 160 ∧
    (deriveWhite (scaledRgbw.prepareCalibration sampleCal) ⟨255, 255, 255, 0⟩).R = 155 ∧
    (255 : Nat) - 160 = 95 ∧
    (feed scaledRgbw (fun _ => false) (State.initial scaledRgbw sampleCal) whiteFrame.bytes).2 =
      [Event.initLedStrip 1, Event.SetPixelColor 0 (PixelColor.rgbw 155 155 155 160),
        Event.wantShow false] := by
  decide

/-- C20 (amended): in the 4-channel build, for every input colour `(r, g, b)` and every contents
of the four tables, with `m = min(red[r], green[g], blue[b])`: the emitted white channel is
`white[m]` and each emitted colour channel is the input channel minus the table value at index
`m`, in 8-bit arithmetic: `r' = (r - red[m]) mod 256`, `g' = (g - green[m]) mod 256`,
`b' = (b - blue[m]) mod 256`.  This is the colour case `BLUE` passes to `SetPixelColor`. -/
theorem C20_white_channel_derivation (t : ChannelCorrection) (r g b : Byte) (w0 : Nat) :
    deriveWhite t ⟨r.val, g.val, b.val, w0⟩ =
      ⟨(r.val + 256 -
          lookup t.red (min (lookup t.red r.val)
            (min (lookup t.green g.val) (lookup t.blue b.val)))) % 256,
        (g.val + 256 -
          lookup t.green (min (lookup t.red r.val)
            (min (lookup t.green g.val) (lookup t.blue b.val)))) % 256,
        (b.val + 256 -
          lookup t.blue (min (lookup t.red r.val)
            (min (lookup t.green g.val) (lookup t.blue b.val)))) % 256,
        lookup t.white (min (lookup t.red r.val)
          (min (lookup t.green g.val) (lookup t.blue b.val)))⟩ ∧
    (∀ (tbl : Nat → Nat) (i : Nat), i < 256 → lookup tbl i = tbl i % 256) ∧
    (∀ (cfg : Config) (c : Bool) (s : State),
      cfg.NEOPIXEL_RGBW = true → s.frameState.state = AwaProtocol.BLUE →
      s.inputColor.R = r.val → s.inputColor.G = g.val → s.channelCorrection = t →
      (s.frameState.currentLed : Int) < s.base.ledsNumber →
      (processByte cfg c s b).2 =
        [Event.SetPixelColor s.frameState.currentLed
          (PixelColor.rgbw
            ((r.val + 256 -
              lookup t.red (min (lookup t.red r.val)
                (min (lookup t.green g.val) (lookup t.blue b.val)))) % 256)
            ((g.val + 256 -
              lookup t.green (min (lookup t.red r.val)
                (min (lookup t.green g.val) (lookup t.blue b.val)))) % 256)
            ((b.val + 256 -
              lookup t.blue (min (lookup t.red r.val)
                (min (lookup t.green g.val) (lookup t.blue b.val)))) % 256)
            (lookup t.white (min (lookup t.red r.val)
              (min (lookup t.green g.val) (lookup t.blue b.val)))))]) := by
  refine ⟨rfl, ?_, ?_⟩
  · intro tbl i hi
    unfold lookup
    rw [Nat.mod_eq_of_lt hi]
  · intro cfg c s hw hs hR hG ht hlt
    simp only [processByte, hs, State.setState, State.addFletcher, FrameState.addFletcher,
      setStripPixel]
    by_cases hc : s.frameState.count > 0 <;> by_cases hv : s.frameState.protocolVersion2 <;>
      simp [hw, hc, hv, hlt, stripColor, deriveWhite, hR, hG, ht]

/-- C20 (amended), checked on the white pixel with the tables scaled by 160/255: the colour
channels come out as `255 - red[160] = 155` and white as `white[160] = 160`. -/
theorem C20_white_channel_derivation_witness :
    deriveWhite (scaledRgbw.prepareCalibration sampleCal) ⟨255, 255, 255, 0⟩ =
      ⟨155, 155, 155, 160⟩ :=
  (C20_white_channel_derivation (scaledRgbw.prepareCalibration sampleCal) 255 255 255 0).1.trans
    (by decide)

/-- C18, as stated, fails: two invocations of `readSerialData` from start-up (the two-pixel
sample frame at 2000 ms, one stray byte at 4000 ms) leave the counters at 0 with the rolled-over
pair `(1, 1)`; the invocation at 6000 ms reads one byte, more than 1000 ms after `stats.start`,
and `stats.update` leaves `finalGoodFrames = finalTotalFrames = 1` instead of setting them to
the values 0 the counters had before the call. -/
theorem C18_counterexample :
    (readSerialData sampleRgb 4000 true (fun _ => true)
      (readSerialData sampleRgb 2000 true (fun _ => true)
        (State.initial sampleRgb sampleCal) sampleFrame.bytes).1 [0]).1.stats =
      ⟨4000, 0, 0, 1, 1⟩ ∧
    elapsed 6000 4000 > 1000 ∧
    (readSerialData sampleRgb 6000 true (fun _ => true)
      (readSerialData sampleRgb 4000 true (fun _ => true)
        (readSerialData sampleRgb 2000 true (fun _ => true)
          (State.initial sampleRgb sampleCal) sampleFrame.bytes).1 [0]).1 [0]).1.stats =
      ⟨6000, 0, 0, 1, 1⟩ := by
  decide

/-- C18 (amended): when `readSerialData` has read at least one byte and more than 1000 ms have
elapsed since `stats.start`, `stats.update` is called; for every value of the counters it sets
`start` to the current time and resets `goodFrames` and `totalFrames` to 0; it sets
`finalGoodFrames` and `finalTotalFrames` to the previous `goodFrames` and `totalFrames` only when
`totalFrames > 0` and `totalFrames >= goodFrames`, and leaves the pair unchanged otherwise.  The
window start and the pair it leaves are those found when the invocation returns. -/
theorem C18_stats_rollover (cfg : Config) (curTime : Nat) (canShow : Bool) (ready : Nat → Bool)
    (s : State) (input : List Byte) (hread : input ≠ [])
    (hel : elapsed curTime s.stats.start > 1000) :
    statsTick curTime (decide (input.length > 0)) s.stats = s.stats.update curTime ∧
    (s.stats.update curTime).start = curTime ∧
    (s.stats.update curTime).goodFrames = 0 ∧
    (s.stats.update curTime).totalFrames = 0 ∧
    (s.stats.totalFrames > 0 ∧ s.stats.totalFrames ≥ s.stats.goodFrames →
      (s.stats.update curTime).finalGoodFrames = s.stats.goodFrames ∧
      (s.stats.update curTime).finalTotalFrames = s.stats.totalFrames) ∧
    (¬ (s.stats.totalFrames > 0 ∧ s.stats.totalFrames ≥ s.stats.goodFrames) →
      (s.stats.update curTime).finalGoodFrames = s.stats.finalGoodFrames ∧
      (s.stats.update curTime).finalTotalFrames = s.stats.finalTotalFrames) ∧
    (readSerialData cfg curTime canShow ready s input).1.stats.start = curTime ∧
    (readSerialData cfg curTime canShow ready s input).1.stats.finalGoodFrames =
      (s.stats.update curTime).finalGoodFrames ∧
    (readSerialData cfg curTime canShow ready s input).1.stats.finalTotalFrames =
      (s.stats.update curTime).finalTotalFrames := by
  have hlen : input.length > 0 := List.length_pos.mpr hread
  have htick : statsTick curTime (decide (input.length > 0)) s.stats = s.stats.update curTime := by
    unfold statsTick
    rw [if_pos ⟨by simpa using hlen, hel⟩]
  have hfin : ∀ t : State, t.stats = s.stats.update curTime →
      (feed cfg ready (entryRender canShow t).1 input).1.stats.start = curTime ∧
      (feed cfg ready (entryRender canShow t).1 input).1.stats.finalGoodFrames =
        (s.stats.update curTime).finalGoodFrames ∧
      (feed cfg ready (entryRender canShow t).1 input).1.stats.finalTotalFrames =
        (s.stats.update curTime).finalTotalFrames := by
    intro t ht
    obtain ⟨f1, f2, f3⟩ := feed_stats cfg input ready (entryRender canShow t).1
    obtain ⟨e1, e2, e3⟩ := entryRender_stats canShow t
    exact ⟨by rw [f1, e1, ht]; rfl, by rw [f2, e2, ht], by rw [f3, e3, ht]⟩
  have hrs := hfin { s with stats := statsTick curTime (decide (input.length > 0)) s.stats } htick
  refine ⟨htick, rfl, rfl, rfl, ?_, ?_, hrs.1, hrs.2.1, hrs.2.2⟩
  · intro h
    simp [Stats.update, h]
  · intro h
    simp [Stats.update, h]

/-- C18 (amended), checked on a window with 3 good frames out of 5, rolled over at 2500 ms by an
invocation that reads one stray byte. -/
theorem C18_stats_rollover_witness :
    (readSerialData sampleRgb 2500 false (fun _ => false)
      { State.initial sampleRgb sampleCal with stats := ⟨1000, 3, 5, 0, 0⟩ } [0]).1.stats.start
      = 2500 ∧
    (readSerialData sampleRgb 2500 false (fun _ => false)
      { State.initial sampleRgb sampleCal with
        stats := ⟨1000, 3, 5, 0, 0⟩ } [0]).1.stats.finalGoodFrames = 3 ∧
    (readSerialData sampleRgb 2500 false (fun _ => false)
      { State.initial sampleRgb sampleCal with
        stats := ⟨1000, 3, 5, 0, 0⟩ } [0]).1.stats.finalTotalFrames = 5 :=
  have h := C18_stats_rollover sampleRgb 2500 false (fun _ => false)
    { State.initial sampleRgb sampleCal with stats := ⟨1000, 3, 5, 0, 0⟩ } [0] (by simp)
    (by decide)
  ⟨h.2.2.2.2.2.2.1, h.2.2.2.2.2.2.2.1.trans (by decide), h.2.2.2.2.2.2.2.2.trans (by decide)⟩

/-- C15, as stated, fails: after a completed frame whose render was deferred (strip not ready)
and the header of the next frame, the parser is in `RED` with `wantShow` set and the strip
allocated; an invocation of `readSerialData` entered in that state with the hardware ready
issues no `Show`, with no byte available and also with one colour byte available, and leaves
`wantShow` set. -/
theorem C15_counterexample :
    (feed sampleRgb (fun _ => false) (State.initial sampleRgb sampleCal)
      (sampleFrame.bytes ++ sampleFrame.header)).1.frameState.state = AwaProtocol.RED ∧
    (feed sampleRgb (fun _ => false) (State.initial sampleRgb sampleCal)
      (sampleFrame.bytes ++ sampleFrame.header)).1.base =
      ⟨2, some [PixelColor.rgb 255 0 0, PixelColor.rgb 1 2 3], true⟩ ∧
    (readSerialData sampleRgb 0 true (fun _ => true)
      (feed sampleRgb (fun _ => false) (State.initial sampleRgb sampleCal)
        (sampleFrame.bytes ++ sampleFrame.header)).1 []).2 = [] ∧
    (readSerialData sampleRgb 0 true (fun _ => true)
      (feed sampleRgb (fun _ => false) (State.initial sampleRgb sampleCal)
        (sampleFrame.bytes ++ sampleFrame.header)).1 [7]).2 = [] ∧
    (readSerialData sampleRgb 0 true (fun _ => true)
      (feed sampleRgb (fun _ => false) (State.initial sampleRgb sampleCal)
        (sampleFrame.bytes ++ sampleFrame.header)).1 []).1.base.wantShow = true := by
  decide

/-- C15 (amended): the render gate is consulted at the head of a driver-loop iteration only in
protocol state `HEADER_A`.  An invocation of `readSerialData` entered in `HEADER_A` with
`wantShow` set, the strip allocated and the hardware ready issues `Show` before any byte is
processed, whether or not bytes are available.  Entered in any other protocol state it makes no
render attempt at its head: its events are those of the bytes it processes, none when no byte
is available. -/
theorem C15_entry_render_only_in_marker_scan (cfg : Config) (curTime : Nat)
    (ready : Nat → Bool) (s : State) (input : List Byte) (buf : List PixelColor)
    (hw : s.base.wantShow = true) (hstrip : s.base.ledStrip = some buf) :
    (s.frameState.state = AwaProtocol.HEADER_A →
      ∃ rest, (readSerialData cfg curTime true ready s input).2 = Event.Show buf :: rest) ∧
    (s.frameState.state ≠ AwaProtocol.HEADER_A →
      (readSerialData cfg curTime true ready s input).2 =
        (feed cfg ready
          { s with stats := statsTick curTime (decide (input.length > 0)) s.stats } input).2) ∧
    (s.frameState.state ≠ AwaProtocol.HEADER_A →
      (readSerialData cfg curTime true ready s []).2 = [] ∧
      (readSerialData cfg curTime true ready s []).1.base.wantShow = true) := by
  refine ⟨?_, ?_, ?_⟩
  · intro hs
    refine ⟨(feed cfg ready (entryRender true
      { s with stats := statsTick curTime (decide (input.length > 0)) s.stats }).1 input).2, ?_⟩
    unfold readSerialData
    simp only
    have : (entryRender true
        { s with stats := statsTick curTime (decide (input.length > 0)) s.stats }).2 =
        [Event.Show buf] := by
      unfold entryRender
      rw [if_pos hs]
      simp [renderLeds, hstrip, hw]
    rw [this]
    rfl
  · intro hs
    unfold readSerialData
    simp only
    have : entryRender true
        { s with stats := statsTick curTime (decide (input.length > 0)) s.stats } =
        ({ s with stats := statsTick curTime (decide (input.length > 0)) s.stats }, []) := by
      unfold entryRender
      rw [if_neg hs]
    rw [this]
    rfl
  · intro hs
    unfold readSerialData
    simp only
    have : entryRender true
        { s with stats := statsTick curTime (decide (([] : List Byte).length > 0)) s.stats } =
        ({ s with stats := statsTick curTime (decide (([] : List Byte).length > 0)) s.stats },
          []) := by
      unfold entryRender
      rw [if_neg hs]
    rw [this]
    exact ⟨rfl, hw⟩

/-- C15 (amended), checked on the start-up protocol state with a pending render request and a
one-pixel strip, no byte available: the invocation issues the `Show`. -/
theorem C15_entry_render_only_in_marker_scan_witness :
    ∃ rest,
      (readSerialData sampleRgb 0 true (fun _ => true)
        { State.initial sampleRgb sampleCal with
          base := ⟨1, some [PixelColor.rgb 1 2 3], true⟩ } []).2 =
        Event.Show [PixelColor.rgb 1 2 3] :: rest :=
  (C15_entry_render_only_in_marker_scan sampleRgb 0 (fun _ => true)
    { State.initial sampleRgb sampleCal with base := ⟨1, some [PixelColor.rgb 1 2 3], true⟩ }
    [] [PixelColor.rgb 1 2 3] rfl rfl).1 rfl

/-- C16, as stated, fails in its last clause: for the maximum declared count 65536 the
post-increment after the last pixel wraps `currentLed`.  The well-formed frame `A w a FF FF 55`
with 65536 black pixels, fed from start-up, has made 65536 pixel writes when its colour bytes
are done, the parser waits in `FLETCHER1` for the trailing bytes of the same frame, and
`currentLed` is 0. -/
theorem C16_counterexample :
    maxFrame.WellFormed ∧ maxFrame.declared = 65536 ∧
    countPixelWrites
      (feed sampleRgb (fun _ => false) (State.initial sampleRgb sampleCal)
        (maxFrame.header ++ maxFrame.payload)).2 = 65536 ∧
    (feed sampleRgb (fun _ => false) (State.initial sampleRgb sampleCal)
      (maxFrame.header ++ maxFrame.payload)).1.frameState.state = AwaProtocol.FLETCHER1 ∧
    (feed sampleRgb (fun _ => false) (State.initial sampleRgb sampleCal)
      (maxFrame.header ++ maxFrame.payload)).1.frameState.currentLed = 0 := by
  obtain ⟨hwf, hd⟩ := maxFrame_wf
  obtain ⟨h1, h2, -⟩ := feed_payload sampleRgb (fun _ => false)
    (State.initial sampleRgb sampleCal) maxFrame rfl hwf
  have hcur := feed_payload_currentLed sampleRgb (fun _ => false)
    (State.initial sampleRgb sampleCal) maxFrame rfl hwf rfl
  have hlen : maxFrame.pixels.length = 65536 := by rw [← hd]; exact hwf
  refine ⟨hwf, hd, ?_, h2, by rw [hcur, hd]⟩
  rw [h1, countPixelWrites_append, (count_initEvents _ _).1, (count_pixelWrites _ _ _ _).1, hlen]

/-- C16 (amended): in every state reachable from the start-up state (by bytes, `renderLeds`,
`stats.update` and `stats.print` in any order), whenever the protocol state is `RED`, `GREEN`
or `BLUE` the strip is allocated with `ledsNumber` pixels, `1 <= ledsNumber <= 65536`, and
`currentLed + count + 1 = ledsNumber`; hence the index passed to `setStripPixel` is strictly below
`ledsNumber`, the bounds guard drops no pixel (case `BLUE` always calls `SetPixelColor` at
`currentLed`), the strip is not accessed while unallocated, and `currentLed` does not wrap while
a pixel of the frame remains to be written (`count > 0` gives `currentLed + 1 < 65536`).  The
post-increment after the last pixel leaves `ledsNumber mod 2^16`, which is 0 for a frame of the
maximum declared count 65536. -/
theorem C16_colour_state_invariant (cfg : Config) (cal0 : CalibrationConfig) (s : State)
    (hr : Reachable cfg cal0 s)
    (hcol : s.frameState.state = AwaProtocol.RED ∨ s.frameState.state = AwaProtocol.GREEN ∨
      s.frameState.state = AwaProtocol.BLUE) :
    1 ≤ s.base.ledsNumber ∧ s.base.ledsNumber ≤ 65536 ∧
    (∃ buf, s.base.ledStrip = some buf ∧ (buf.length : Int) = s.base.ledsNumber) ∧
    (s.frameState.currentLed : Int) + s.frameState.count + 1 = s.base.ledsNumber ∧
    (s.frameState.currentLed : Int) < s.base.ledsNumber ∧
    (s.frameState.state = AwaProtocol.BLUE → ∀ (c : Bool) (b : Byte),
      (∃ col, (processByte cfg c s b).2 = [Event.SetPixelColor s.frameState.currentLed col]) ∧
      (s.frameState.count > 0 →
        (processByte cfg c s b).1.frameState.currentLed = s.frameState.currentLed + 1 ∧
        s.frameState.currentLed + 1 < 65536 ∧
        (processByte cfg c s b).1.frameState.state = AwaProtocol.RED) ∧
      (s.frameState.count = 0 →
        ((processByte cfg c s b).1.frameState.currentLed : Int) = s.base.ledsNumber % 65536 ∧
        (processByte cfg c s b).1.frameState.state =
          if s.frameState.protocolVersion2 then AwaProtocol.VERSION2_GAIN
          else AwaProtocol.FLETCHER1)) := by
  obtain ⟨hinv, -, -⟩ := reachable_invariants cfg cal0 s hr
  have hc : isColour s.frameState.state = true := by
    rcases hcol with h | h | h <;> rw [h] <;> rfl
  have hsum := hinv.colour hc
  have hrange := hinv.leds_range
  have hcnt := hinv.count_lt
  have hcur := hinv.currentLed_lt
  have hlt : (s.frameState.currentLed : Int) < s.base.ledsNumber := by omega
  have halloc : ∃ buf, s.base.ledStrip = some buf ∧ (buf.length : Int) = s.base.ledsNumber := by
    cases hb : s.base.ledStrip with
    | none => have := hinv.unallocated hb; omega
    | some buf => exact ⟨buf, rfl, (hinv.allocated buf hb).2⟩
  refine ⟨by omega, hrange.2, halloc, hsum, hlt, ?_⟩
  intro hblue c b
  obtain ⟨w1, w2, w3, w4⟩ := step_BLUE_write cfg c s b hblue hlt
  refine ⟨w1, ?_, ?_⟩
  · intro hpos
    refine ⟨by rw [w2]; omega, by omega, w3 hpos⟩
  · intro hzero
    refine ⟨?_, w4 hzero⟩
    rw [w2]
    omega

/-- C16 (amended), checked on the state reached from start-up by the header of the two-pixel
sample frame and the first two colour bytes: the parser is in `BLUE` and the strip has 2
pixels. -/
theorem C16_colour_state_invariant_witness :
    (feed sampleRgb (fun _ => false) (State.initial sampleRgb sampleCal)
      (sampleFrame.header ++ [255, 0])).1.frameState.state = AwaProtocol.BLUE ∧
    (1 : Int) ≤ (feed sampleRgb (fun _ => false) (State.initial sampleRgb sampleCal)
      (sampleFrame.header ++ [255, 0])).1.base.ledsNumber :=
  ⟨by decide,
    (C16_colour_state_invariant sampleRgb sampleCal _
      (reachable_feed sampleRgb sampleCal false (sampleFrame.header ++ [255, 0]))
      (Or.inr (Or.inr (by decide)))).1⟩

/-- C17: in every state reachable from the start-up state, both Fletcher accumulators are below
255; consequently the byte `0xFF` processed in state `FLETCHER1` or `FLETCHER2` is rejected: the
parser returns to `HEADER_A` with nothing else changed and no event (no render request, no
`Show`), whatever bytes and other operations came before. -/
theorem C17_fletcher_accumulators_below_255 (cfg : Config) (cal0 : CalibrationConfig) (s : State)
    (hr : Reachable cfg cal0 s) :
    s.frameState.fletcher1 < 255 ∧ s.frameState.fletcher2 < 255 ∧
    (s.frameState.state = AwaProtocol.FLETCHER1 → ∀ c : Bool,
      processByte cfg c s 255 = (s.setState AwaProtocol.HEADER_A, [])) ∧
    (s.frameState.state = AwaProtocol.FLETCHER2 → ∀ c : Bool,
      processByte cfg c s 255 = (s.setState AwaProtocol.HEADER_A, [])) := by
  obtain ⟨-, ⟨h1, h2⟩, -⟩ := reachable_invariants cfg cal0 s hr
  have hv : (255 : Byte).val = 255 := by decide
  refine ⟨h1, h2, ?_, ?_⟩
  · intro hs c
    have hne : (255 : Byte).val ≠ s.frameState.fletcher1 := by rw [hv]; omega
    simp only [processByte, hs]
    rw [if_pos hne]
  · intro hs c
    have hne : ¬ (255 : Byte).val = s.frameState.fletcher2 := by rw [hv]; omega
    simp only [processByte, hs]
    rw [if_neg hne]

/-- C17, checked on the state reached from start-up by the sample frame without its last byte:
the parser waits in `FLETCHER2`, and the byte `0xFF` sends it back to `HEADER_A` without an
event. -/
theorem C17_fletcher_accumulators_below_255_witness :
    (feed sampleRgb (fun _ => false) (State.initial sampleRgb sampleCal)
      sampleFrame.bytes.dropLast).1.frameState.state = AwaProtocol.FLETCHER2 ∧
    (processByte sampleRgb true
      (feed sampleRgb (fun _ => false) (State.initial sampleRgb sampleCal)
        sampleFrame.bytes.dropLast).1 255).2 = [] :=
  ⟨by decide,
    by rw [(C17_fletcher_accumulators_below_255 sampleRgb sampleCal _
      (reachable_feed sampleRgb sampleCal false sampleFrame.bytes.dropLast)).2.2.2
        (by decide) true]⟩

/-- C19: in every state reachable from the start-up state by any interleaving of byte
processing, `renderLeds`, `stats.update` and `stats.print`, `finalGoodFrames <= finalTotalFrames`,
so the incomplete-frame count `finalTotalFrames - finalGoodFrames` that `stats.print` reports is
never negative; this holds even though `goodFrames` can exceed `totalFrames` within a window:
some reachable state has `totalFrames = 0` and `goodFrames = 1` (a render deferred from the
previous window). -/
theorem C19_final_counters_ordered (cfg : Config) (cal0 : CalibrationConfig) (s : State)
    (hr : Reachable cfg cal0 s) :
    s.stats.finalGoodFrames ≤ s.stats.finalTotalFrames ∧
    0 ≤ (Stats.printed s.stats).2.2 ∧
    (Stats.printed s.stats).2.2 =
      ((s.stats.finalTotalFrames - s.stats.finalGoodFrames : Nat) : Int) ∧
    ∃ t : State, Reachable cfg cal0 t ∧ t.stats.goodFrames > t.stats.totalFrames := by
  obtain ⟨-, -, h⟩ := reachable_invariants cfg cal0 s hr
  refine ⟨h, ?_, ?_, ?_⟩
  · simp only [Stats.printed]; omega
  · simp only [Stats.printed]; omega
  · obtain ⟨t, ht, h0, h1⟩ := deferred_render_reachable cfg cal0
    exact ⟨t, ht, by omega⟩

/-- C19, checked on the state reached from start-up by a complete sample frame shown at once
and a `stats.update`: the final counters are 1 and 1. -/
theorem C19_final_counters_ordered_witness :
    (exec sampleRgb (State.initial sampleRgb sampleCal)
      (byteOps true sampleFrame.bytes ++ [SysOp.update 2000])).1.stats.finalTotalFrames = 1 ∧
    (exec sampleRgb (State.initial sampleRgb sampleCal)
      (byteOps true sampleFrame.bytes ++ [SysOp.update 2000])).1.stats.finalGoodFrames ≤
    (exec sampleRgb (State.initial sampleRgb sampleCal)
      (byteOps true sampleFrame.bytes ++ [SysOp.update 2000])).1.stats.finalTotalFrames :=
  ⟨by decide,
    (C19_final_counters_ordered sampleRgb sampleCal _
      ⟨byteOps true sampleFrame.bytes ++ [SysOp.update 2000], rfl⟩).1⟩

/-- C12: processing one input byte changes the calibration parameters exactly when the build is
the 4-channel one, the state is `FLETCHER2`, the byte equals `fletcher2`, `protocolVersion2` is
set and the staged `(gain, red, green, blue)` differ from the current parameters in at least one
component; after such a byte the parameters are the staged values (and the tables are recomputed
from them), and a byte that leaves the parameters alone leaves the tables alone.  Moreover, from
any state in `HEADER_A` (whatever was received before), after the marker `A w a` and as long as
the parser has not left the frame, no byte changes the parameters or the tables: after the marker
and any `k` following bytes, of which the first `k - 1` kept the parser inside the frame, the
calibration is the one the frame started with. -/
theorem C12_calibration_changes_only_on_v2_completion (cfg : Config) :
    (∀ (c : Bool) (s : State) (b : Byte),
      ((processByte cfg c s b).1.calibrationConfig ≠ s.calibrationConfig ↔
        (cfg.NEOPIXEL_RGBW = true ∧ s.frameState.state = AwaProtocol.FLETCHER2 ∧
          b.val = s.frameState.fletcher2 ∧ s.frameState.protocolVersion2 = true ∧
          (s.calibrationConfig.red ≠ s.incoming.red ∨ s.calibrationConfig.green ≠ s.incoming.green ∨
            s.calibrationConfig.blue ≠ s.incoming.blue ∨
            s.calibrationConfig.gain ≠ s.incoming.gain))) ∧
      ((processByte cfg c s b).1.calibrationConfig ≠ s.calibrationConfig →
        (processByte cfg c s b).1.calibrationConfig =
          ⟨s.incoming.gain, s.incoming.red, s.incoming.green, s.incoming.blue⟩ ∧
        (processByte cfg c s b).1.channelCorrection =
          cfg.prepareCalibration
            ⟨s.incoming.gain, s.incoming.red, s.incoming.green, s.incoming.blue⟩) ∧
      ((processByte cfg c s b).1.calibrationConfig = s.calibrationConfig →
        (processByte cfg c s b).1.channelCorrection = s.channelCorrection)) ∧
    (∀ (ready : Nat → Bool) (s : State) (rest : List Byte) (k : Nat),
      s.frameState.state = AwaProtocol.HEADER_A → k ≤ rest.length →
      (∀ j, j < k →
        inFrame (feed cfg ready s ([65, 119, 97] ++ rest.take j)).1.frameState.state = true) →
      (feed cfg ready s ([65, 119, 97] ++ rest.take k)).1.calibrationConfig =
        s.calibrationConfig ∧
      (feed cfg ready s ([65, 119, 97] ++ rest.take k)).1.channelCorrection =
        s.channelCorrection) := by
  refine ⟨?_, ?_⟩
  · intro c s b
    obtain ⟨c1, c2⟩ := step_calibration cfg c s b
    by_cases hF : s.frameState.state = AwaProtocol.FLETCHER2 ∧ b.val = s.frameState.fletcher2
    · rw [if_pos hF] at c1 c2
      by_cases hv : cfg.NEOPIXEL_RGBW = true ∧ s.frameState.protocolVersion2 = true
      · by_cases hd : s.calibrationConfig.red ≠ s.incoming.red ∨
            s.calibrationConfig.green ≠ s.incoming.green ∨
            s.calibrationConfig.blue ≠ s.incoming.blue ∨
            s.calibrationConfig.gain ≠ s.incoming.gain
        · have e1 : (applyCalibration cfg s).calibrationConfig =
              ⟨s.incoming.gain, s.incoming.red, s.incoming.green, s.incoming.blue⟩ := by
            unfold applyCalibration; rw [if_pos hv, if_pos hd]; rfl
          have e2 : (applyCalibration cfg s).channelCorrection =
              cfg.prepareCalibration
                ⟨s.incoming.gain, s.incoming.red, s.incoming.green, s.incoming.blue⟩ := by
            unfold applyCalibration; rw [if_pos hv, if_pos hd]; rfl
          have hne : (processByte cfg c s b).1.calibrationConfig ≠ s.calibrationConfig := by
            rw [c1, e1]
            intro h
            rw [← h] at hd
            simp at hd
          exact ⟨⟨fun _ => ⟨hv.1, hF.1, hF.2, hv.2, hd⟩, fun _ => hne⟩,
            fun _ => ⟨c1.trans e1, c2.trans e2⟩, fun h => absurd h hne⟩
        · have e : applyCalibration cfg s = s := by
            unfold applyCalibration; rw [if_pos hv, if_neg hd]
          rw [e] at c1 c2
          exact ⟨⟨fun h => absurd c1 h, fun h => absurd h.2.2.2.2 hd⟩,
            fun h => absurd c1 h, fun _ => c2⟩
      · have e : applyCalibration cfg s = s := by
          unfold applyCalibration; rw [if_neg hv]
        rw [e] at c1 c2
        exact ⟨⟨fun h => absurd c1 h, fun h => absurd ⟨h.1, h.2.2.2.1⟩ hv⟩,
          fun h => absurd c1 h, fun _ => c2⟩
    · rw [if_neg hF] at c1 c2
      exact ⟨⟨fun h => absurd c1 h, fun h => absurd ⟨h.2.1, h.2.2.1⟩ hF⟩,
        fun h => absurd c1 h, fun _ => c2⟩
  · intro ready s rest k hs hk hin
    obtain ⟨h1, h2, -⟩ := feed_v1_calibration cfg ready s rest hs k hk hin
    exact ⟨h1, h2⟩

/-- C12, checked in the 4-channel sample build: the version-2 sample frame sets the parameters
to its staged values `9 8 7 6`, and the version-1 sample frame received after it, byte by byte up
to its last byte, leaves them there. -/
theorem C12_calibration_changes_only_on_v2_completion_witness :
    (feed sampleRgbw (fun _ => true) (State.initial sampleRgbw sampleCal)
      sampleFrame2.bytes).1.calibrationConfig = ⟨9, 8, 7, 6⟩ ∧
    (feed sampleRgbw (fun _ => true) (State.initial sampleRgbw sampleCal)
      sampleFrame2.bytes).1.frameState.state = AwaProtocol.HEADER_A ∧
    [65, 119, 97] ++ (sampleFrame.bytes.drop 3).take 11 = sampleFrame.bytes ∧
    (feed sampleRgbw (fun _ => true)
      (feed sampleRgbw (fun _ => true) (State.initial sampleRgbw sampleCal) sampleFrame2.bytes).1
      ([65, 119, 97] ++ (sampleFrame.bytes.drop 3).take 11)).1.calibrationConfig =
    (feed sampleRgbw (fun _ => true) (State.initial sampleRgbw sampleCal)
      sampleFrame2.bytes).1.calibrationConfig :=
  ⟨by decide, by decide, by decide,
    ((C12_calibration_changes_only_on_v2_completion sampleRgbw).2 (fun _ => true)
      (feed sampleRgbw (fun _ => true) (State.initial sampleRgbw sampleCal) sampleFrame2.bytes).1
      (sampleFrame.bytes.drop 3) 11 (by decide) (by decide) (by decide)).1⟩

end HyperSerial
